import Mathlib

/-!
# ZeroTier node engine (`node/Node.cpp`): verification development

A shallow embedding of the node engine of `node/Node.cpp`.

Conventions of the embedding.

* The engine object is the record `Node`; every entry point is a function from
  the state before the call to the result code and the state after it.
* Everything the engine does to the outside (host callbacks, calls into the
  switch, the peers and the networks) is appended, in program order, to the
  field `Node.effects`.  The thread pointer `tPtr` is only forwarded by the
  source and is not recorded.
* Collaborators whose code is not part of `Node.cpp` (topology, switch, peers,
  paths) are represented by the data the engine reads from them
  (`RuntimeEnvironment`).
* `int64_t` time stamps are integers (`Int`) and signed arithmetic on them is
  exact: signed overflow is undefined behaviour in C++ and is outside the model.
  `unsigned long` is 64 bits wide (LP64); unsigned arithmetic and conversions
  between signed and unsigned are taken modulo `2^64`.
* Constants of `Constants.hpp`, which is not part of the source file, are the
  fields of the parameter `Constants`.
-/

namespace ZeroTier

/-! ## Machine integers -/

/-- Conversion of a signed value to `unsigned long` (64 bits): reduction modulo `2^64`. -/
def toUnsignedLong (x : Int) : Nat := (x % 18446744073709551616).toNat

/-- Conversion of an `unsigned long` value to `int64_t`: two's complement. -/
def toInt64 (x : Nat) : Int :=
  if x % 18446744073709551616 < 9223372036854775808 then ((x % 18446744073709551616 : Nat) : Int)
  else ((x % 18446744073709551616 : Nat) : Int) - 18446744073709551616

/-- Conversion of a signed value to `unsigned int` (32 bits): reduction modulo `2^32`. -/
def toUnsignedInt (x : Int) : Nat := (x % 4294967296).toNat

/-- Conversion of an `unsigned int` value to `int` (32 bits): two's complement. -/
def toInt32 (x : Nat) : Int :=
  if x % 4294967296 < 2147483648 then ((x % 4294967296 : Nat) : Int)
  else ((x % 4294967296 : Nat) : Int) - 4294967296

/-- Values representable in `int64_t`. -/
def isInt64 (x : Int) : Prop := -9223372036854775808 ≤ x ∧ x < 9223372036854775808

instance (x : Int) : Decidable (isInt64 x) := by unfold isInt64; infer_instance

/-- The sum of two `int64_t` values, as the `int64_t` it is stored in: a sum outside
the range of the type, which C++ leaves undefined, is reduced modulo `2^64` (two's
complement). -/
def addInt64 (a b : Int) : Int := toInt64 (toUnsignedLong (a + b))

/-! ## Constants (`Constants.hpp`, not part of the source file) -/

/-- The compile-time constants used by `Node.cpp`; their values are parameters. -/
structure Constants where
  ZT_PING_CHECK_INVERVAL : Nat
  ZT_CORE_TIMER_TASK_GRANULARITY : Nat
  ZT_PEER_ACTIVITY_TIMEOUT : Nat
  ZT_NETWORK_AUTOCONF_DELAY : Nat
  ZT_HOUSEKEEPING_PERIOD : Nat
deriving DecidableEq, Repr

/-- The constants are positive values of type `int` (below `2^31`). -/
def Constants.inRange (c : Constants) : Prop :=
  (0 < c.ZT_PING_CHECK_INVERVAL ∧ c.ZT_PING_CHECK_INVERVAL < 2147483648) ∧
  (0 < c.ZT_CORE_TIMER_TASK_GRANULARITY ∧ c.ZT_CORE_TIMER_TASK_GRANULARITY < 2147483648) ∧
  (0 < c.ZT_PEER_ACTIVITY_TIMEOUT ∧ c.ZT_PEER_ACTIVITY_TIMEOUT < 2147483648) ∧
  (0 < c.ZT_NETWORK_AUTOCONF_DELAY ∧ c.ZT_NETWORK_AUTOCONF_DELAY < 2147483648) ∧
  (0 < c.ZT_HOUSEKEEPING_PERIOD ∧ c.ZT_HOUSEKEEPING_PERIOD < 2147483648)

instance (c : Constants) : Decidable c.inRange := by unfold Constants.inRange; infer_instance

/-! ## `Hashtable<K,V>` -/

/-- The container `Hashtable<K,V>`: a finite map, represented by the list of its
entries in iteration order. The operations below keep at most one entry per key. -/
abbrev Hashtable (κ ν : Type) := List (κ × ν)

namespace Hashtable

variable {κ ν : Type} [DecidableEq κ]

/-- `Hashtable::get(k)`: the value stored under `k`, if any. -/
def get : Hashtable κ ν → κ → Option ν
  | [], _ => none
  | (k', v) :: rest, k => if k' = k then some v else get rest k

/-- `Hashtable::set(k,v)`: overwrite the entry of `k`, or add one. -/
def set : Hashtable κ ν → κ → ν → Hashtable κ ν
  | [], k, v => [(k, v)]
  | (k', v') :: rest, k, v => if k' = k then (k, v) :: rest else (k', v') :: set rest k v

/-- `Hashtable::erase(k)`: remove the entry of `k`. -/
def erase (t : Hashtable κ ν) (k : κ) : Hashtable κ ν :=
  t.filter (fun e => decide (e.1 ≠ k))

/-- `Hashtable::keys`: keys in iteration order. -/
def keys (t : Hashtable κ ν) : List κ := t.map Prod.fst

end Hashtable

/-! ## Plain data -/

/-- A 40-bit ZeroTier address. -/
abbrev Address := Nat

/-- The `ss_family` values the engine distinguishes. -/
inductive Family where
  | AF_INET
  | AF_INET6
  | AF_UNSPEC
deriving DecidableEq, Repr

/-- A physical endpoint (`InetAddress`): address family, IP and port. -/
structure InetAddress where
  ss_family : Family
  ip : Nat
  port : Nat
deriving DecidableEq, Repr

/-- A `MAC` built from the 64-bit integer the host passed (`MAC.hpp` is not part
of the source file; the constructor argument is recorded). -/
structure MAC where
  m : Nat
deriving DecidableEq, Repr

/-- A multicast group: MAC and 32-bit ADI (additional distinguishing information). -/
structure MulticastGroup where
  mac : MAC
  adi : Nat
deriving DecidableEq, Repr

/-- Pointers of type `void *` that the engine stores or hands out. They are never
dereferenced by the engine; the model records where a pointer points. -/
inductive VoidPtr where
  | null
  | host (p : Nat)
  | uPtrField (nwid : Nat)
deriving DecidableEq, Repr

/-- Result codes of the host interface. -/
inductive ZT_ResultCode where
  | OK
  | FATAL_ERROR_OUT_OF_MEMORY
  | FATAL_ERROR_DATA_STORE_FAILED
  | FATAL_ERROR_INTERNAL
  | ERROR_NETWORK_NOT_FOUND
deriving DecidableEq, Repr

/-- Events posted through the host's event callback. -/
inductive ZT_Event where
  | UP
  | OFFLINE
  | ONLINE
  | DOWN
deriving DecidableEq, Repr

/-- Operations of the host's virtual-port configuration callback. -/
inductive ZT_VirtualNetworkConfigOperation where
  | UP
  | CONFIG_UPDATE
  | DOWN
  | DESTROY
deriving DecidableEq, Repr

/-- Types of persisted state objects. -/
inductive ZT_StateObjectType where
  | IDENTITY_PUBLIC
  | IDENTITY_SECRET
  | PLANET
  | MOON
  | PEER
  | NETWORK_CONFIG
deriving DecidableEq, Repr

/-- The external configuration record handed to the host (`ZT_VirtualNetworkConfig`);
only the network ID is modelled. -/
structure ZT_VirtualNetworkConfig where
  nwid : Nat
deriving DecidableEq, Repr

/-- Packet verbs the engine emits. -/
inductive Verb where
  | OK
  | ERROR
  | NETWORK_CONFIG_REQUEST
  | NETWORK_CONFIG
  | NETWORK_CREDENTIALS
  | USER_MESSAGE
deriving DecidableEq, Repr

/-- One `append` to a packet: an integer of the given width, a run of bytes, or the
one-byte code of a verb. -/
inductive Field where
  | u8 (v : Nat)
  | u16 (v : Nat)
  | u32 (v : Nat)
  | u64 (v : Nat)
  | bytes (l : List Nat)
  | verb (v : Verb)
deriving DecidableEq, Repr

/-- A `Packet` as the engine builds it: destination, source, verb and the values
appended to the payload, in order. `Packet::compress` (not part of the source file)
may replace the payload by a compressed form of it; the model keeps the payload as
appended and records that `compress` was called. The destination is the argument
given to the `Address` constructor. -/
structure Packet where
  dest : Nat
  source : Nat
  verb : Verb
  payload : List Field
  compressed : Bool
deriving DecidableEq, Repr

/-- Calls the engine makes on a `Peer`. -/
inductive PeerCall where
  | doPingAndKeepalive (now : Int)
  | sendHELLO (localSocket : Int) (atAddress : InetAddress) (now : Int)
deriving DecidableEq, Repr

/-- Calls the engine makes on a `Network`. -/
inductive NetworkCall where
  | destroy
  | multicastSubscribe (mg : MulticastGroup)
  | multicastUnsubscribe (mg : MulticastGroup)
  | requestConfiguration
  | sendUpdatesToMembers
  | setConfiguration
deriving DecidableEq, Repr

/-- Everything the engine does to the outside, in program order. -/
inductive Effect where
  | postEvent (ev : ZT_Event)
  | configureVirtualNetworkPort (nwid : Nat) (nuptr : VoidPtr)
      (op : ZT_VirtualNetworkConfigOperation) (nc : ZT_VirtualNetworkConfig)
  | stateObjectDelete (type : ZT_StateObjectType) (id0 id1 : Nat)
  | removeNetworkQoSControlBlock (nwid : Nat)
  | onLocalEthernet (nwid : Nat) (source dest : MAC) (etherType vlanId : Nat) (frame : List Nat)
  | requestWhois (now : Int) (addr : Address)
  | doTimerTasks (now : Int)
  | updateMemoizedSettings
  | topologyDoPeriodicTasks (now : Int)
  | selfAwarenessClean (now : Int)
  | multicasterClean (now : Int)
  | peer (addr : Address) (call : PeerCall)
  | network (nwid : Nat) (call : NetworkCall)
  | stateObjectPut (type : ZT_StateObjectType) (id0 id1 : Nat) (data : List Nat)
  | send (outp : Packet) (encrypt : Bool)
deriving DecidableEq, Repr

/-! ## Networks -/

/-- The part of a `Network` object that `Node.cpp` reads. `staticIps` are the static
IP ranges of the network's config (none while the network has no config). -/
structure Network where
  id : Nat
  uPtr : VoidPtr
  hasConfig : Bool
  lastConfigUpdate : Int
  alwaysContact : List (Address × List InetAddress)
  staticIps : List InetAddress := []
deriving DecidableEq, Repr

/-- `Network::userPtr()`: the address of the network's user-pointer field. The
source assigns its result to a `void **` (`nUserPtr`, in `Node::leave`) and passes
that on as the modifiable user pointer of the port-configuration callback. -/
def Network.userPtr (nw : Network) : VoidPtr := VoidPtr.uPtrField nw.id

/-- Modelled from the spec: `Network::externalConfig` (in `Network.cpp`, not part
of the source file) synthesizes the network's external config struct for the host
callback. -/
def Network.externalConfig (nw : Network) : ZT_VirtualNetworkConfig := { nwid := nw.id }

/-- Modelled from the spec: the `Network` constructor (in `Network.cpp`, not part
of the source file), called with no initial config, yields a network without
config and brings the virtual port up: one `virtualNetworkConfig` callback with
operation `UP`. -/
def Network.new (nwid : Nat) (uptr : VoidPtr) : Network × List Effect :=
  let nw : Network :=
    { id := nwid, uPtr := uptr, hasConfig := false, lastConfigUpdate := 0, alwaysContact := [] }
  (nw, [Effect.configureVirtualNetworkPort nwid nw.userPtr ZT_VirtualNetworkConfigOperation.UP
          nw.externalConfig])

/-! ## The engine state -/

/-- An `Identity`: the address and the key pair (the secret key may be missing).
The codec and the signature are the functions of `IdentityPrimitives`. -/
structure Identity where
  address : Address
  publicKey : Nat
  privateKey : Option Nat
deriving DecidableEq, Repr

/-- The fields of `Node` used by the modelled entry points, and the record of
effects. The networks map holds the network objects themselves (the source holds
shared pointers to them). The identity and its two string forms are the members
`identity`, `publicIdentityStr` and `secretIdentityStr` of the runtime environment
the node owns; before the constructor body runs the identity is the null identity
and the local-interface list is empty. -/
structure Node where
  now : Int
  lastPingCheck : Int
  lastHousekeepingRun : Int
  lastMemoizedTraceSettings : Int
  online : Bool
  networks : Hashtable Nat Network
  localControllerAuthorizations : Hashtable (Nat × Address) Int
  prngState : Nat × Nat
  effects : List Effect
  identity : Identity := { address := 0, publicKey := 0, privateKey := none }
  publicIdentityStr : List Nat := []
  secretIdentityStr : List Nat := []
  directPaths : List InetAddress := []
deriving DecidableEq, Repr

/-- The state the constructor's member initialisers leave: no networks, offline,
all periodic-task time stamps zero. The PRNG seed comes from the secure random
source. -/
def Node.init (now : Int) (seed : Nat × Nat) : Node :=
  { now := now, lastPingCheck := 0, lastHousekeepingRun := 0, lastMemoizedTraceSettings := 0,
    online := false, networks := [], localControllerAuthorizations := [],
    prngState := seed, effects := [] }

/-- Record one effect. -/
def Node.emit (s : Node) (e : Effect) : Node := { s with effects := s.effects ++ [e] }

/-- Record several effects. -/
def Node.emitAll (s : Node) (es : List Effect) : Node := { s with effects := s.effects ++ es }

/-- Modelled from the spec: `Node::network(nwid)` (declared in `Node.hpp`, not part
of the source file) looks the network up in the networks map. -/
def Node.network (s : Node) (nwid : Nat) : Option Network := Hashtable.get s.networks nwid

/-- `Node::join`. The source takes `_networks[nwid]`, which creates a null entry
when `nwid` has none, and constructs the network when the entry is null. Entries
of the map are never null otherwise (every other use dereferences them), so the
test is the test for a missing entry. -/
def Node.join (s : Node) (nwid : Nat) (uptr : VoidPtr) : ZT_ResultCode × Node :=
  match Hashtable.get s.networks nwid with
  | some _ => (ZT_ResultCode.OK, s)
  | none =>
    let built := Network.new nwid uptr
    (ZT_ResultCode.OK,
      { s with networks := Hashtable.set s.networks nwid built.1,
               effects := s.effects ++ built.2 })

/-- `Node::leave`. The flag `wantUptr` says whether the host passed a non-null
`uptr`; the second component of the result is what was stored through it. -/
def Node.leave (s : Node) (nwid : Nat) (wantUptr : Bool) :
    ZT_ResultCode × Option VoidPtr × Node :=
  let s1 := s.emit (Effect.removeNetworkQoSControlBlock nwid)
  match Hashtable.get s.networks nwid with
  | none => (ZT_ResultCode.OK, none, s1)
  | some nw =>
    let out : Option VoidPtr := if wantUptr then some nw.userPtr else none
    let ctmp := nw.externalConfig
    let s2 := s1.emit (Effect.network nwid NetworkCall.destroy)
    let nUserPtr := nw.userPtr
    let s3 :=
      if nUserPtr ≠ VoidPtr.null then
        s2.emit (Effect.configureVirtualNetworkPort nwid nUserPtr
          ZT_VirtualNetworkConfigOperation.DESTROY ctmp)
      else s2
    let s4 := { s3 with networks := Hashtable.erase s3.networks nwid }
    let s5 := s4.emit (Effect.stateObjectDelete ZT_StateObjectType.NETWORK_CONFIG nwid 0)
    (ZT_ResultCode.OK, out, s5)

/-- `Node::networks`: the external configs of all joined networks. -/
def Node.networksList (s : Node) : List ZT_VirtualNetworkConfig :=
  s.networks.map (fun e => e.2.externalConfig)

/-- `Node::processVirtualNetworkFrame`. -/
def Node.processVirtualNetworkFrame (s : Node) (now : Int) (nwid sourceMac destMac : Nat)
    (etherType vlanId : Nat) (frame : List Nat) : ZT_ResultCode × Node :=
  let s1 := { s with now := now }
  match s1.network nwid with
  | some nw =>
    (ZT_ResultCode.OK,
      s1.emit (Effect.onLocalEthernet nw.id (MAC.mk sourceMac) (MAC.mk destMac) etherType vlanId
        frame))
  | none => (ZT_ResultCode.ERROR_NETWORK_NOT_FOUND, s1)

/-- `Node::multicastSubscribe`. -/
def Node.multicastSubscribe (s : Node) (nwid multicastGroup multicastAdi : Nat) :
    ZT_ResultCode × Node :=
  match s.network nwid with
  | some nw =>
    (ZT_ResultCode.OK,
      s.emit (Effect.network nw.id (NetworkCall.multicastSubscribe
        { mac := MAC.mk multicastGroup, adi := multicastAdi % 4294967296 })))
  | none => (ZT_ResultCode.ERROR_NETWORK_NOT_FOUND, s)

/-- `Node::multicastUnsubscribe`. -/
def Node.multicastUnsubscribe (s : Node) (nwid multicastGroup multicastAdi : Nat) :
    ZT_ResultCode × Node :=
  match s.network nwid with
  | some nw =>
    (ZT_ResultCode.OK,
      s.emit (Effect.network nw.id (NetworkCall.multicastUnsubscribe
        { mac := MAC.mk multicastGroup, adi := multicastAdi % 4294967296 })))
  | none => (ZT_ResultCode.ERROR_NETWORK_NOT_FOUND, s)

/-! ## Collaborators read by the periodic sweep -/

/-- A `Path`: local socket and remote address. -/
structure Path where
  localSocket : Int
  address : InetAddress
deriving DecidableEq, Repr

/-- The part of a `Peer` the sweep uses. `doPingAndKeepalive` gives the mask the
call returns (bit 0: sent over IPv4, bit 1: sent over IPv6), `getAppropriatePath`
takes the time and the `includeExpired` flag. -/
structure Peer where
  address : Address
  lastReceive : Int
  doPingAndKeepalive : Int → Nat
  isActive : Int → Bool
  getAppropriatePath : Int → Bool → Option Path

/-- The part of `Topology` the sweep uses: the upstream addresses with their
stable endpoints, the known peers in the order `eachPeer` visits them, whether
this node is an upstream, and the best current upstream peer. -/
structure Topology where
  upstreams : List (Address × List InetAddress)
  peers : List Peer
  amUpstream : Bool
  getUpstreamPeer : Option Peer

/-- The part of `Switch` the sweep uses: the delay `doTimerTasks` suggests. -/
structure Switch where
  doTimerTasks : Int → Nat

/-- Places of the sweep at which a collaborator can raise an exception. The
exception is raised on entry to the named step. -/
inductive CallSite where
  | getUpstreamsToContact
  | getPeerNoCache
  | alwaysContactAddresses
  | eachPeer
  | requestWhois
  | requestConfiguration
  | amUpstream
  | doPeriodicTasks
  | doTimerTasks
  | packet
  | send
deriving DecidableEq, Repr

/-- The collaborators as one call of an entry point sees them (`RR`), and the
place at which one of them fails during this call, if any. -/
structure RuntimeEnvironment where
  topology : Topology
  sw : Switch
  throwsAt : Option CallSite

/-- Modelled from the spec: `Topology::getUpstreamsToContact` and
`NetworkConfig::alwaysContactAddresses` (neither is part of the source file) collect
addresses with their endpoints into the `alwaysContact` table the sweep hands them:
the entry of each address is created when missing and the endpoints are appended
to it. -/
def addAlwaysContact (a : Hashtable Address (List InetAddress))
    (l : List (Address × List InetAddress)) : Hashtable Address (List InetAddress) :=
  l.foldl (fun t e => Hashtable.set t e.1 ((Hashtable.get t e.1).getD [] ++ e.2)) a

/-- Modelled from the spec: `Topology::getUpstreamsToContact` (not part of the source
file) collects the upstream addresses and their stable endpoints into the table. -/
def Topology.getUpstreamsToContact (t : Topology) (eps : Hashtable Address (List InetAddress)) :
    Hashtable Address (List InetAddress) :=
  addAlwaysContact eps t.upstreams

/-- Modelled from the spec: `Topology::getPeerNoCache` (not part of the source file)
yields the peer currently known under this address, if any. -/
def Topology.getPeerNoCache (t : Topology) (a : Address) : Option Peer :=
  t.peers.find? (fun p => decide (p.address = a))

/-- Modelled from the spec: `NetworkConfig::alwaysContactAddresses` (not part of the
source file), applied to the network's config, appends the network's own
always-contact addresses to the table. -/
def Network.alwaysContactAddresses (nw : Network) (a : Hashtable Address (List InetAddress)) :
    Hashtable Address (List InetAddress) :=
  addAlwaysContact a nw.alwaysContact

/-! ## PRNG -/

/-- `Node::prng`: xorshift+ on two 64-bit words; the result and the new state. -/
def prng (st : Nat × Nat) : Nat × (Nat × Nat) :=
  let x := st.1
  let y := st.2
  let x1 := x ^^^ ((x <<< 23) % 18446744073709551616)
  let z := x1 ^^^ y ^^^ (x1 >>> 17) ^^^ (y >>> 26)
  ((z + y) % 18446744073709551616, (y, z))

/-- The PRNG state after `n` calls of `prng` from the state `st`. -/
def prngStateAfter : Nat → Nat × Nat → Nat × Nat
  | 0, st => st
  | n + 1, st => (prng (prngStateAfter n st)).2

/-- The value returned by the call of `prng` that follows `n` earlier calls. -/
def prngOutput (n : Nat) (st : Nat × Nat) : Nat := (prng (prngStateAfter n st)).1

/-! ## The ping closure -/

/-- The scan of one `for` loop of `_PingPeersThatNeedPing::operator()`: `k` more
iterations, `ptr` the running index (an `unsigned long`); the endpoint looked at is
`eps[ptr % eps.size()]`, the first one of the wanted family is returned. -/
def scanEndpoints (eps : List InetAddress) (fam : Family) : Nat → Nat → Option InetAddress
  | 0, _ => none
  | k + 1, ptr =>
    match eps[ptr % eps.length]? with
    | some addr =>
      if addr.ss_family = fam then some addr
      else scanEndpoints eps fam k ((ptr + 1) % 18446744073709551616)
    | none => scanEndpoints eps fam k ((ptr + 1) % 18446744073709551616)

/-- One family loop including its initialiser, which draws the starting index
from the PRNG: the endpoint to greet, if one was found, and the new PRNG state. -/
def pickEndpoint (eps : List InetAddress) (fam : Family) (st : Nat × Nat) :
    Option InetAddress × (Nat × Nat) :=
  let r := prng st
  (scanEndpoints eps fam eps.length r.1, r.2)

/-- The `sendHELLO` calls for an endpoint found by a family loop. -/
def helloTo (now : Int) (found : Option InetAddress) : List PeerCall :=
  match found with
  | some addr => [PeerCall.sendHELLO (-1) addr now]
  | none => []

/-- The closure `_PingPeersThatNeedPing` while `eachPeer` runs: the `alwaysContact`
table it holds by reference, the PRNG state of the node it draws from, and the
peer calls made so far. -/
structure _PingPeersThatNeedPing where
  alwaysContact : Hashtable Address (List InetAddress)
  prngState : Nat × Nat
  calls : List (Address × PeerCall)
deriving DecidableEq, Repr

/-- The peer calls `_PingPeersThatNeedPing::operator()` makes for a peer found in
`alwaysContact` with endpoints `eps`, and the PRNG state afterwards. -/
def pingAlwaysContact (now : Int) (bestCurrentUpstream : Option Peer) (p : Peer)
    (eps : List InetAddress) (st : Nat × Nat) : List PeerCall × (Nat × Nat) :=
  let sent := p.doPingAndKeepalive now % 4294967296
  let v4 : Option InetAddress × (Nat × Nat) :=
    if sent &&& 1 = 0 then pickEndpoint eps Family.AF_INET st else (none, st)
  let v6 : Option InetAddress × (Nat × Nat) :=
    if sent &&& 2 = 0 then pickEndpoint eps Family.AF_INET6 v4.2 else (none, v4.2)
  let contacted : Bool := decide (sent ≠ 0) || v4.1.isSome || v6.1.isSome
  let viaUpstream : List PeerCall :=
    if contacted then []
    else
      match bestCurrentUpstream with
      | some u =>
        match u.getAppropriatePath now true with
        | some up => [PeerCall.sendHELLO up.localSocket up.address now]
        | none => []
      | none => []
  ([PeerCall.doPingAndKeepalive now] ++ helloTo now v4.1 ++ helloTo now v6.1 ++ viaUpstream, v6.2)

/-- `_PingPeersThatNeedPing::operator()`. -/
def _PingPeersThatNeedPing.call (now : Int) (bestCurrentUpstream : Option Peer)
    (st : _PingPeersThatNeedPing) (p : Peer) : _PingPeersThatNeedPing :=
  match Hashtable.get st.alwaysContact p.address with
  | some eps =>
    let r := pingAlwaysContact now bestCurrentUpstream p eps st.prngState
    { alwaysContact := Hashtable.erase st.alwaysContact p.address,
      prngState := r.2,
      calls := st.calls ++ r.1.map (fun c => (p.address, c)) }
  | none =>
    if p.isActive now then
      { st with calls := st.calls ++ [(p.address, PeerCall.doPingAndKeepalive now)] }
    else st

/-- Modelled from the spec: `Topology::eachPeer` (not part of the source file)
applies the closure to every known peer, one after the other. -/
def eachPeer (t : Topology) (now : Int) (st : _PingPeersThatNeedPing) :
    _PingPeersThatNeedPing :=
  t.peers.foldl (_PingPeersThatNeedPing.call now t.getUpstreamPeer) st

/-! ## The periodic sweep -/

/-- The last receive time over the designated upstreams that are known peers
(first block of the ping check). -/
def lastReceivedFromUpstream (t : Topology) (alwaysContact : Hashtable Address (List InetAddress)) :
    Int :=
  alwaysContact.foldl
    (fun acc e =>
      match t.getPeerNoCache e.1 with
      | some p => max p.lastReceive acc
      | none => acc) 0

/-- The clean-up loop over the local controller authorizations: every entry for
which the test of the loop holds is erased by key. -/
def cleanLocalControllerAuthorizations (c : Constants) (now : Int)
    (t : Hashtable (Nat × Address) Int) : Hashtable (Nat × Address) Int :=
  t.foldl
    (fun acc e =>
      if e.2 - now > ((c.ZT_NETWORK_AUTOCONF_DELAY * 3 : Nat) : Int) then Hashtable.erase acc e.1
      else acc) t

/-- The `alwaysContact` table after the pass over the joined networks. -/
def alwaysContactOfSweep (RR : RuntimeEnvironment) (s : Node) :
    Hashtable Address (List InetAddress) :=
  s.networks.foldl (fun a e => e.2.alwaysContactAddresses a) (RR.topology.getUpstreamsToContact [])

/-- The vector `networkConfigNeeded`: every joined network with the flag that says
whether its config is to be requested again. -/
def networkConfigNeeded (c : Constants) (now : Int) (s : Node) : List (Network × Bool) :=
  s.networks.map (fun e =>
    (e.2, decide (now - e.2.lastConfigUpdate ≥ (c.ZT_NETWORK_AUTOCONF_DELAY : Int)) ||
            !e.2.hasConfig))

/-- The calls of the last loop of the ping check on the recorded networks. -/
def refreshNetworks (l : List (Network × Bool)) : List Effect :=
  l.flatMap (fun n =>
    (if n.2 then [Effect.network n.1.id NetworkCall.requestConfiguration] else []) ++
      [Effect.network n.1.id NetworkCall.sendUpdatesToMembers])

/-- The online flag the ping check computes. -/
def onlineStatus (c : Constants) (RR : RuntimeEnvironment) (now : Int) : Bool :=
  decide (now - lastReceivedFromUpstream RR.topology (RR.topology.getUpstreamsToContact [])
      < (c.ZT_PEER_ACTIVITY_TIMEOUT : Int)) || RR.topology.amUpstream

/-- The body of the ping check (the first `try` region of
`processBackgroundTasks`). The flag says whether it completed without exception. -/
def Node.pingCheck (c : Constants) (RR : RuntimeEnvironment) (now : Int) (s : Node) :
    Bool × Node :=
  let s0 := { s with lastPingCheck := now }
  if RR.throwsAt = some CallSite.getUpstreamsToContact then (false, s0) else
  if RR.throwsAt = some CallSite.getPeerNoCache then (false, s0) else
  let s1 := { s0 with localControllerAuthorizations :=
    cleanLocalControllerAuthorizations c now s0.localControllerAuthorizations }
  if RR.throwsAt = some CallSite.alwaysContactAddresses then (false, s1) else
  let needed := networkConfigNeeded c now s1
  if RR.throwsAt = some CallSite.eachPeer then (false, s1) else
  let pfunc := eachPeer RR.topology now
    { alwaysContact := alwaysContactOfSweep RR s1, prngState := s1.prngState, calls := [] }
  let s2 := { s1 with prngState := pfunc.prngState,
                      effects := s1.effects ++ pfunc.calls.map (fun x => Effect.peer x.1 x.2) }
  if RR.throwsAt = some CallSite.requestWhois then (false, s2) else
  let s3 := s2.emitAll ((Hashtable.keys pfunc.alwaysContact).map (Effect.requestWhois now))
  if RR.throwsAt = some CallSite.requestConfiguration then (false, s3) else
  let s4 := s3.emitAll (refreshNetworks needed)
  if RR.throwsAt = some CallSite.amUpstream then (false, s4) else
  let oldOnline := s4.online
  let s5 := { s4 with online := onlineStatus c RR now }
  if oldOnline ≠ s5.online then
    (true, s5.emit (Effect.postEvent (if s5.online then ZT_Event.ONLINE else ZT_Event.OFFLINE)))
  else (true, s5)

/-- Whether the ping check runs in a call at time `now`. -/
def pingCheckDue (c : Constants) (now : Int) (s : Node) : Bool :=
  decide (now - s.lastPingCheck ≥ (c.ZT_PING_CHECK_INVERVAL : Int))

/-- The variable `timeUntilNextPingCheck` (an `unsigned long`) after the ping-check
block. -/
def timeUntilNextPingCheck (c : Constants) (now : Int) (s : Node) : Nat :=
  if pingCheckDue c now s then c.ZT_PING_CHECK_INVERVAL % 18446744073709551616
  else toUnsignedLong (((c.ZT_PING_CHECK_INVERVAL % 18446744073709551616 : Nat) : Int)
          - (toUnsignedLong (now - s.lastPingCheck) : Int))

/-- The value stored through `nextBackgroundTaskDeadline`, an `int64_t`: the delay is
computed in `unsigned long`, cast to `int64_t` and added to `now` in `int64_t`. -/
def nextDeadline (c : Constants) (now : Int) (timeUntil hint : Nat) : Int :=
  addInt64 now (toInt64 (max (min timeUntil (hint % 18446744073709551616))
    (c.ZT_CORE_TIMER_TASK_GRANULARITY % 18446744073709551616)))

/-- The trace-settings block of `processBackgroundTasks`. -/
def Node.memoizeTraceSettings (c : Constants) (now : Int) (s : Node) : Node :=
  if now - s.lastMemoizedTraceSettings ≥ ((c.ZT_HOUSEKEEPING_PERIOD / 4 : Nat) : Int) then
    { s with lastMemoizedTraceSettings := now }.emit Effect.updateMemoizedSettings
  else s

/-- The housekeeping block of `processBackgroundTasks`. The flag says whether it
completed without exception. -/
def Node.housekeeping (c : Constants) (RR : RuntimeEnvironment) (now : Int) (s : Node) :
    Bool × Node :=
  if now - s.lastHousekeepingRun ≥ (c.ZT_HOUSEKEEPING_PERIOD : Int) then
    let s0 := { s with lastHousekeepingRun := now }
    if RR.throwsAt = some CallSite.doPeriodicTasks then (false, s0)
    else
      (true, s0.emitAll [Effect.topologyDoPeriodicTasks now, Effect.selfAwarenessClean now,
        Effect.multicasterClean now])
  else (true, s)

/-- The part of `processBackgroundTasks` after the ping-check block: trace
settings, housekeeping, and the computation of the next deadline from the variable
`timeUntilNextPingCheck`. -/
def Node.finishBackgroundTasks (c : Constants) (RR : RuntimeEnvironment) (now : Int)
    (timeUntil : Nat) (s : Node) : ZT_ResultCode × Option Int × Node :=
  let s1 := s.memoizeTraceSettings c now
  let hk := s1.housekeeping c RR now
  if hk.1 = false then (ZT_ResultCode.FATAL_ERROR_INTERNAL, none, hk.2) else
  if RR.throwsAt = some CallSite.doTimerTasks then
    (ZT_ResultCode.FATAL_ERROR_INTERNAL, none, hk.2)
  else
    (ZT_ResultCode.OK, some (nextDeadline c now timeUntil (RR.sw.doTimerTasks now)),
      hk.2.emit (Effect.doTimerTasks now))

/-- `Node::processBackgroundTasks`: the result code, the value stored through
`nextBackgroundTaskDeadline` (if the store is reached) and the state afterwards. -/
def Node.processBackgroundTasks (c : Constants) (RR : RuntimeEnvironment) (now : Int) (s : Node) :
    ZT_ResultCode × Option Int × Node :=
  let s0 := { s with now := now }
  let pc : Bool × Node := if pingCheckDue c now s0 then s0.pingCheck c RR now else (true, s0)
  if pc.1 = false then (ZT_ResultCode.FATAL_ERROR_INTERNAL, none, pc.2)
  else Node.finishBackgroundTasks c RR now (timeUntilNextPingCheck c now s0) pc.2

/-! ## Reading the record of effects -/

/-- The events posted, in order. -/
def eventsOf (l : List Effect) : List ZT_Event :=
  l.filterMap (fun e => match e with | Effect.postEvent ev => some ev | _ => none)

/-- The addresses `requestWhois` was called with, in order. -/
def whoisOf (l : List Effect) : List Address :=
  l.filterMap (fun e => match e with | Effect.requestWhois _ a => some a | _ => none)

/-- The port-configuration callbacks for network `nwid` with operation `op`. -/
def portConfigsOf (nwid : Nat) (op : ZT_VirtualNetworkConfigOperation) (l : List Effect) :
    List Effect :=
  l.filter (fun e =>
    match e with
    | Effect.configureVirtualNetworkPort n _ o _ => decide (n = nwid) && decide (o = op)
    | _ => false)

/-- The port-configuration callbacks with operation `DESTROY`, for any network. -/
def destroysOf (l : List Effect) : List Effect :=
  l.filter (fun e =>
    match e with
    | Effect.configureVirtualNetworkPort _ _ o _ =>
      decide (o = ZT_VirtualNetworkConfigOperation.DESTROY)
    | _ => false)

/-- The deletions of persisted state objects. -/
def stateDeletesOf (l : List Effect) : List Effect :=
  l.filter (fun e => match e with | Effect.stateObjectDelete _ _ _ => true | _ => false)

/-- The `sendHELLO` calls on peer `a`, with local socket and endpoint. -/
def hellosOf (a : Address) (l : List Effect) : List (Int × InetAddress) :=
  l.filterMap (fun e =>
    match e with
    | Effect.peer b (PeerCall.sendHELLO ls addr _) => if b = a then some (ls, addr) else none
    | _ => none)


/-! ## The deadline formula of the specification -/

/-- The remaining ping interval `r` of the deadline formula, in the words of the
specification: `PING_CHECK_INTERVAL` when the ping check runs in this call, and
`PING_CHECK_INTERVAL - (now - lastPingCheck)` otherwise. -/
def remainingPingInterval (c : Constants) (now : Int) (s : Node) : Int :=
  if pingCheckDue c now s then (c.ZT_PING_CHECK_INVERVAL : Int)
  else (c.ZT_PING_CHECK_INVERVAL : Int) - (now - s.lastPingCheck)

/-- The delay of the deadline formula of the specification:
`max(min(r, hint), CORE_TIMER_GRANULARITY)`, over the integers. -/
def specDelay (c : Constants) (now : Int) (s : Node) (hint : Nat) : Int :=
  max (min (remainingPingInterval c now s) (hint : Int)) (c.ZT_CORE_TIMER_TASK_GRANULARITY : Int)

/-! ## The online status in the words of the specification -/

/-- The peers known for the upstream addresses that topology returns. -/
def knownUpstreamPeers (t : Topology) : List Peer :=
  (Hashtable.keys (t.getUpstreamsToContact [])).filterMap t.getPeerNoCache

/-- The value `lastReceivedFromUpstream` as the claim words it: the maximum of
`lastReceive` over the known upstream peers, and 0 when there is none. -/
def claimedLastReceived (t : Topology) : Int :=
  match ((knownUpstreamPeers t).map (fun p => p.lastReceive)).max? with
  | some m => m
  | none => 0

/-- The maximum of 0 and of `lastReceive` over the known upstream peers. -/
def flooredLastReceived (t : Topology) : Int :=
  ((knownUpstreamPeers t).map (fun p => p.lastReceive)).foldr max 0

/-- A topology with exactly one upstream, at address `a` with stable endpoints
`eps`, whose only known peer is `p`; this node is not an upstream itself. -/
def oneUpstreamTopology (a : Address) (eps : List InetAddress) (p : Peer) (best : Option Peer) :
    Topology :=
  { upstreams := [(a, eps)], peers := [p], amUpstream := false, getUpstreamPeer := best }

/-! ## Local interface addresses and path checks -/

/-- What the path checks read from outside `Node.cpp`: `Path::isAddressValidForPath`,
`Topology::isProhibitedEndpoint`, `InetAddress::containsAddress` (the first argument
is the range, the second the address looked for) and the host's optional callback
`pathCheckFunction` (`none` when the pointer is null), which receives the peer
address, the local socket and the remote address and returns an `int`. -/
structure PathChecks where
  isAddressValidForPath : InetAddress → Bool
  isProhibitedEndpoint : Address → InetAddress → Bool
  containsAddress : InetAddress → InetAddress → Bool
  pathCheckFunction : Option (Address → Int → InetAddress → Int)

/-- `Node::addLocalInterfaceAddress`. -/
def Node.addLocalInterfaceAddress (pc : PathChecks) (s : Node) (addr : InetAddress) :
    Int × Node :=
  if pc.isAddressValidForPath addr then
    if addr ∉ s.directPaths then (1, { s with directPaths := s.directPaths ++ [addr] })
    else (0, s)
  else (0, s)

/-- `Node::clearLocalInterfaceAddresses`. -/
def Node.clearLocalInterfaceAddresses (s : Node) : Node := { s with directPaths := [] }

/-- A call of one of the two entry points that change the local-interface list. -/
inductive LocalInterfaceCall where
  | add (addr : InetAddress)
  | clear
deriving DecidableEq, Repr

/-- The state after one such call. -/
def Node.localInterfaceCall (pc : PathChecks) (s : Node) : LocalInterfaceCall → Node
  | LocalInterfaceCall.add addr => (s.addLocalInterfaceAddress pc addr).2
  | LocalInterfaceCall.clear => s.clearLocalInterfaceAddresses

/-- What `shouldUsePathForZeroTierTraffic` does to the outside, in program order:
the query to topology, the call of the host's callback, and the line printed to
`stderr` when the path is dropped. -/
inductive PathCall where
  | isProhibitedEndpoint (ztaddr : Address) (remoteAddress : InetAddress)
  | pathCheckFunction (ztaddr : Address) (localSocket : Int) (remoteAddress : InetAddress)
  | fprintf (ztaddr : Address) (remoteAddress : InetAddress)
deriving DecidableEq, Repr

/-- The loop over the joined networks of the active form: `result` is cleared by
every static IP range of a network with config that contains the remote address. -/
def staticIpScan (pc : PathChecks) (s : Node) (remoteAddress : InetAddress) (result : Bool) :
    Bool :=
  s.networks.foldl
    (fun r e =>
      if e.2.hasConfig then
        e.2.staticIps.foldl (fun r ip => if pc.containsAddress ip remoteAddress then false else r) r
      else r) result

/-- `Node::shouldUsePathForZeroTierTraffic` (the active form): the value returned
and the calls made. -/
def Node.shouldUsePathForZeroTierTraffic (pc : PathChecks) (s : Node) (ztaddr : Address)
    (localSocket : Int) (remoteAddress : InetAddress) : Bool × List PathCall :=
  let r1 : Bool := if !pc.isAddressValidForPath remoteAddress then false else true
  let r2 : Bool := if pc.isProhibitedEndpoint ztaddr remoteAddress then false else r1
  let r3 : Bool := staticIpScan pc s remoteAddress r2
  let cb : Bool × List PathCall :=
    if r3 then
      match pc.pathCheckFunction with
      | some f =>
        (decide (f ztaddr localSocket remoteAddress ≠ 0),
          [PathCall.pathCheckFunction ztaddr localSocket remoteAddress])
      | none => (true, [])
    else (false, [])
  (cb.1,
    [PathCall.isProhibitedEndpoint ztaddr remoteAddress] ++ cb.2 ++
      (if !cb.1 then [PathCall.fprintf ztaddr remoteAddress] else []))

/-- The form of `shouldUsePathForZeroTierTraffic` that the source keeps in a comment
(lines 641-667), which returns at the first check that denies. -/
def Node.shouldUsePathForZeroTierTraffic_commentedOut (pc : PathChecks) (s : Node)
    (ztaddr : Address) (localSocket : Int) (remoteAddress : InetAddress) :
    Bool × List PathCall :=
  if !pc.isAddressValidForPath remoteAddress then (false, [])
  else if pc.isProhibitedEndpoint ztaddr remoteAddress then
    (false, [PathCall.isProhibitedEndpoint ztaddr remoteAddress])
  else if s.networks.any (fun e =>
      e.2.hasConfig && e.2.staticIps.any (fun ip => pc.containsAddress ip remoteAddress)) then
    (false, [PathCall.isProhibitedEndpoint ztaddr remoteAddress])
  else
    match pc.pathCheckFunction with
    | some f =>
      (decide (f ztaddr localSocket remoteAddress ≠ 0),
        [PathCall.isProhibitedEndpoint ztaddr remoteAddress,
          PathCall.pathCheckFunction ztaddr localSocket remoteAddress])
    | none => (true, [PathCall.isProhibitedEndpoint ztaddr remoteAddress])

/-- The calls of the host's `pathCheckFunction` among the calls made. -/
def callbackCallsOf (l : List PathCall) : List PathCall :=
  l.filter (fun c => match c with | PathCall.pathCheckFunction _ _ _ => true | _ => false)

/-! ## User messages -/

/-- `Node::sendUserMessage`. The value returned and the state afterwards; an
exception raised while the packet is built (`CallSite.packet`) or by the switch
(`CallSite.send`) is swallowed by the `catch` and gives 0. -/
def Node.sendUserMessage (RR : RuntimeEnvironment) (s : Node) (dest typeId : Nat)
    (data : List Nat) : Int × Node :=
  if s.identity.address ≠ dest then
    if RR.throwsAt = some CallSite.packet then (0, s)
    else
      let outp : Packet :=
        { dest := dest, source := s.identity.address, verb := Verb.USER_MESSAGE,
          payload := [Field.u64 typeId, Field.bytes data], compressed := true }
      if RR.throwsAt = some CallSite.send then (0, s)
      else (1, s.emit (Effect.send outp true))
  else (0, s)

/-- The packets handed to the switch, in order. -/
def sentOf (l : List Effect) : List Packet :=
  l.filterMap (fun e => match e with | Effect.send p _ => some p | _ => none)

/-! ## Sending network configs (`ncSendConfig`) -/

/-- Constants of `Packet.hpp`, `C25519.hpp`, `Identity.hpp` and the public header,
none of which is part of the source file; their values are parameters. -/
structure ProtocolConstants where
  ZT_PROTO_MAX_PACKET_LENGTH : Nat
  ZT_PACKET_IDX_PAYLOAD : Nat
  ZT_C25519_SIGNATURE_LEN : Nat
  ZT_IDENTITY_STRING_BUFFER_LENGTH : Nat
  ZT_MAX_PEER_NETWORK_PATHS : Nat
deriving DecidableEq, Repr

/-- The identity primitives, a cryptographic collaborator outside `Node.cpp`:
`Identity::toString` (with or without the secret key), `Identity::fromString`, and
`Identity::sign` applied to the values appended to a packet. Strings are lists of
byte values. -/
structure IdentityPrimitives where
  toString : Bool → Identity → List Nat
  fromString : List Nat → Option Identity
  sign : Identity → List Field → List Nat

/-- The largest chunk of a config that one packet carries:
`(unsigned int)(ZT_PROTO_MAX_PACKET_LENGTH - (ZT_PACKET_IDX_PAYLOAD + 256))`. -/
def maxChunkPayload (pc : ProtocolConstants) : Nat :=
  toUnsignedInt ((pc.ZT_PROTO_MAX_PACKET_LENGTH : Int) - ((pc.ZT_PACKET_IDX_PAYLOAD : Int) + 256))

/-- One pass of the loop of `ncSendConfig`: the values of `chunkIndex` and `chunkLen`
and the bytes `dconf->data() + chunkIndex` of length `chunkLen`. -/
structure ConfigChunk where
  chunkIndex : Nat
  chunkLen : Nat
  data : List Nat
deriving DecidableEq, Repr

/-- The loop `while (chunkIndex < totalSize)` of `ncSendConfig`, run from
`chunkIndex` for at most `fuel` passes; `none` when it has not ended by then. The
index is an `unsigned int`. -/
def configChunks (M : Nat) (dict : List Nat) (totalSize : Nat) :
    Nat → Nat → Option (List ConfigChunk)
  | 0, chunkIndex => if chunkIndex < totalSize then none else some []
  | fuel + 1, chunkIndex =>
    if chunkIndex < totalSize then
      match configChunks M dict totalSize fuel
          ((chunkIndex + min (totalSize - chunkIndex) M) % 4294967296) with
      | some rest =>
        some ({ chunkIndex := chunkIndex, chunkLen := min (totalSize - chunkIndex) M,
                data := (dict.drop chunkIndex).take (min (totalSize - chunkIndex) M) } :: rest)
      | none => none
    else some []

/-- The values appended to a config packet from `sigStart` on, up to the chunk
index: they are what the signature covers. -/
def configChunkSigned (nwid configUpdateId totalSize : Nat) (ch : ConfigChunk) : List Field :=
  [Field.u64 nwid, Field.u16 (ch.chunkLen % 65536), Field.bytes ch.data, Field.u8 0,
    Field.u64 configUpdateId, Field.u32 (totalSize % 4294967296),
    Field.u32 (ch.chunkIndex % 4294967296)]

/-- The packet `ncSendConfig` builds for one chunk. -/
def configChunkPacket (ip : IdentityPrimitives) (pc : ProtocolConstants) (self : Identity)
    (nwid requestPacketId : Nat) (destination : Address) (configUpdateId totalSize : Nat)
    (ch : ConfigChunk) : Packet :=
  { dest := destination, source := self.address,
    verb := if requestPacketId ≠ 0 then Verb.OK else Verb.NETWORK_CONFIG,
    payload :=
      (if requestPacketId ≠ 0 then
        [Field.verb Verb.NETWORK_CONFIG_REQUEST, Field.u64 requestPacketId]
       else []) ++
      configChunkSigned nwid configUpdateId totalSize ch ++
      [Field.u8 1, Field.u16 (pc.ZT_C25519_SIGNATURE_LEN % 65536),
        Field.bytes (ip.sign self (configChunkSigned nwid configUpdateId totalSize ch))],
    compressed := true }

/-- The `configUpdateId` of `ncSendConfig`: the PRNG output, incremented when zero. -/
def configUpdateIdOf (r : Nat) : Nat := if r = 0 then r + 1 else r

/-- `Node::ncSendConfig`. The argument `dict` is the dictionary `nc.toDictionary`
produces (a string of `sizeBytes()` bytes), or `none` when `toDictionary` returns
false. The loop over the chunks advances by at least one byte per pass when the
largest chunk is positive, so it is run for at most `totalSize` passes; the result is
`none` when the loop has not ended by then. Collaborator calls are taken to return. -/
def Node.ncSendConfig (ip : IdentityPrimitives) (pc : ProtocolConstants) (s : Node)
    (nwid requestPacketId : Nat) (destination : Address) (dict : Option (List Nat)) :
    Option Node :=
  let s1 : Node :=
    { s with localControllerAuthorizations :=
        (Hashtable.set s.localControllerAuthorizations (nwid, destination) s.now) }
  if destination = s.identity.address then
    match s1.network nwid with
    | none => some s1
    | some n => some (s1.emit (Effect.network n.id NetworkCall.setConfiguration))
  else
    match dict with
    | none => some s1
    | some d =>
      let r := prng s1.prngState
      match configChunks (maxChunkPayload pc) d d.length d.length 0 with
      | none => none
      | some chunks =>
        some ({ s1 with prngState := r.2 }.emitAll
          (chunks.map (fun ch =>
            Effect.send
              (configChunkPacket ip pc s.identity nwid requestPacketId destination
                (configUpdateIdOf r.1) d.length ch) true)))

/-! ## The peer snapshot (`peers`) -/

/-- Roles of a peer. -/
inductive ZT_PeerRole where
  | LEAF
  | MOON
  | PLANET
deriving DecidableEq, Repr

/-- What `Node::peers` reads of one path at the time `_now`: the `Path` object itself
(`handle`; shared pointers to paths compare by the object they point to), its
address, `lastOut()`, `lastIn()` and the trust `Topology::getOutboundPathTrust`
gives for its address. The quality metrics of type `float` that the source copies
from the path into the record are not modelled. -/
structure PathStatus where
  handle : Nat
  address : InetAddress
  lastOut : Int
  lastIn : Int
  trustedPathId : Nat
deriving DecidableEq, Repr

/-- What `Node::peers` reads of one peer at the time `_now`: `address()`, the remote
version, `latency(_now)` (an `unsigned int`), the role topology gives for its
address, `hasAggregateLink()`, `paths(_now)` and `getAppropriatePath(_now,false)`
(`none` for a null pointer). -/
structure PeerStatus where
  address : Address
  remoteVersionKnown : Bool
  remoteVersionMajor : Nat
  remoteVersionMinor : Nat
  remoteVersionRevision : Nat
  latency : Nat
  role : ZT_PeerRole
  hasAggregateLink : Bool
  paths : List PathStatus
  bestPath : Option PathStatus
deriving DecidableEq, Repr

/-- Modelled from the spec: `Peer::paths` and `Peer::getAppropriatePath` (neither is
part of the source file). A peer holds an ordered set of candidate paths, at most
`MAX_PEER_PATHS` of them, and the path chosen by the path-selection policy, when
there is one, is one of these paths. -/
def PeerStatus.wellFormed (pc : ProtocolConstants) (p : PeerStatus) : Prop :=
  p.paths.length ≤ pc.ZT_MAX_PEER_NETWORK_PATHS ∧
  (p.paths.map (fun q => q.handle)).Nodup ∧
  ∀ b ∈ p.bestPath, b.handle ∈ p.paths.map (fun q => q.handle)

instance (pc : ProtocolConstants) (p : PeerStatus) : Decidable (p.wellFormed pc) := by
  unfold PeerStatus.wellFormed
  infer_instance

/-- One entry of the array `paths` of a `ZT_Peer` record. -/
structure ZT_PeerPhysicalPath where
  address : InetAddress
  lastSend : Int
  lastReceive : Int
  trustedPathId : Nat
  expired : Nat
  preferred : Nat
deriving DecidableEq, Repr

/-- A `ZT_Peer` record of the list `peers` returns. -/
structure ZT_Peer where
  address : Nat
  versionMajor : Int
  versionMinor : Int
  versionRev : Int
  latency : Int
  role : ZT_PeerRole
  hadAggregateLink : Nat
  pathCount : Nat
  paths : List ZT_PeerPhysicalPath
deriving DecidableEq, Repr

/-- The body of the inner loop of `peers`: the entry written for one path. -/
def pathRecord (bestp : Option PathStatus) (path : PathStatus) : ZT_PeerPhysicalPath :=
  { address := path.address, lastSend := path.lastOut, lastReceive := path.lastIn,
    trustedPathId := path.trustedPathId, expired := 0,
    preferred := if bestp.map (fun b => b.handle) = some path.handle then 1 else 0 }

/-- The body of the outer loop of `peers`: the record written for one peer. -/
def peerRecord (p : PeerStatus) : ZT_Peer :=
  { address := p.address,
    versionMajor := if p.remoteVersionKnown then toInt32 p.remoteVersionMajor else -1,
    versionMinor := if p.remoteVersionKnown then toInt32 p.remoteVersionMinor else -1,
    versionRev := if p.remoteVersionKnown then toInt32 p.remoteVersionRevision else -1,
    latency := if toInt32 p.latency ≥ 65535 then -1 else toInt32 p.latency,
    role := p.role,
    hadAggregateLink := if p.hasAggregateLink then 1 else 0,
    pathCount := p.paths.length,
    paths := p.paths.map (pathRecord p.bestPath) }

/-- Modelled from the spec: `Topology::allPeers` (not part of the source file) returns
every known peer, paired with its address. -/
def allPeersOf (known : List PeerStatus) : List (Address × PeerStatus) :=
  known.map (fun p => (p.address, p))

/-- `Node::peers`: the records of the list returned, in order. `std::sort` orders the
pairs by address (pairs with the same address, which a table keyed by address does
not hold, would be ordered by the pointer). A null result for lack of memory is not
modelled. -/
def Node.peers (allPeers : List (Address × PeerStatus)) : List ZT_Peer :=
  (allPeers.insertionSort (fun a b => a.1 ≤ b.1)).map (fun e => peerRecord e.2)

/-- The order `peers` sorts by is total. -/
instance allPeers_le_total : IsTotal (Address × PeerStatus) (fun a b => a.1 ≤ b.1) :=
  ⟨fun a b => le_total a.1 b.1⟩

/-- The order `peers` sorts by is transitive. -/
instance allPeers_le_trans : IsTrans (Address × PeerStatus) (fun a b => a.1 ≤ b.1) :=
  ⟨fun _ _ _ h1 h2 => le_trans h1 h2⟩

/-! ## The identity bootstrap of the constructor -/

/-- The text of the C string at the start of a buffer: the bytes before the first
NUL (`strlen` is its length). -/
def cString (l : List Nat) : List Nat := l.takeWhile (fun c => c != 0)

/-- The host's persistent store, reached through the state callbacks: objects keyed
by their type and the two words of their ID (the scope is the first word). -/
abbrev StateStore := Hashtable (ZT_StateObjectType × Nat × Nat) (List Nat)

/-- Modelled from the spec: `stateObjectGet` (declared in `Node.hpp`, not part of the
source file, and answered by the host's callback): the length of the object stored
under this type and ID, with its bytes copied to the buffer, or `-1` when there is
no such object or it does not fit into `maxlen` bytes. -/
def stateObjectGet (store : StateStore) (type : ZT_StateObjectType) (id0 id1 maxlen : Nat) :
    Int × List Nat :=
  match Hashtable.get store (type, id0, id1) with
  | some obj => if obj.length ≤ maxlen then ((obj.length : Int), obj) else (-1, [])
  | none => (-1, [])

/-- Modelled from the spec: `stateObjectPut` (declared in `Node.hpp`, not part of the
source file, and answered by the host's callback): the object stored under this
type and ID becomes `data`. -/
def stateObjectPut (store : StateStore) (type : ZT_StateObjectType) (id0 id1 : Nat)
    (data : List Nat) : StateStore :=
  Hashtable.set store (type, id0, id1) data

/-- Byte `i` of the buffer `publicIdentityStr` once `toString` has written the string
`str` to it: the string, its terminating NUL, and behind that whatever the memory
held before (`uninit`). -/
def bufferByte (str : List Nat) (uninit : Nat → Nat) (i : Nat) : Nat :=
  if i < str.length then str.getD i 0 else if i = str.length then 0 else uninit i

/-- `memcmp(tmp,RR->publicIdentityStr,n) != 0`, where `tmp` holds the `n` bytes
`obj`: some byte among the first `n` differs. -/
def memcmpDiffers (obj str : List Nat) (uninit : Nat → Nat) : Bool :=
  (List.range obj.length).any (fun i => obj.getD i 0 != bufferByte str uninit i)

/-- What the constructor throws. -/
inductive ConstructException where
  | ZT_EXCEPTION_INVALID_ARGUMENT
  | bad_alloc
deriving DecidableEq, Repr

/-- The node with the identity `id` and its two string forms, as `toString` leaves
them in `publicIdentityStr` and `secretIdentityStr`. -/
def Node.withIdentity (ip : IdentityPrimitives) (s : Node) (id : Identity) : Node :=
  { s with identity := id,
           publicIdentityStr := cString (ip.toString false id),
           secretIdentityStr := cString (ip.toString true id) }

/-- The identity bootstrap in the constructor, from `idtmp[0] = 0` to the end of the
`if (n <= 0) ... else ...` statement. `generated` is the identity that
`Identity::generate` would make. The secret is asked for under the ID `{0,0}`;
`fromString` reads the C string in `tmp`, which `tmp[n] = 0` ends after the object.
`loaded = none` is the case `n <= 0` of the source (nothing stored, or `n = -1`
after a failed parse): both forms of the generated identity are put under the ID
`{address,0}`. Otherwise the public object is asked for under `{address,0}` and
overwritten when the three guards on its length hold and `memcmp` finds a
difference. -/
def Node.bootstrapIdentity (ip : IdentityPrimitives) (pc : ProtocolConstants)
    (generated : Identity) (uninit : Nat → Nat) (store : StateStore) (s : Node) :
    Node × StateStore :=
  let r := stateObjectGet store ZT_StateObjectType.IDENTITY_SECRET 0 0 2047
  let loaded : Option Identity := if r.1 > 0 then ip.fromString (cString r.2) else none
  match loaded with
  | none =>
    let s1 := Node.withIdentity ip s generated
    let s2 := s1.emit (Effect.stateObjectPut ZT_StateObjectType.IDENTITY_SECRET
      s1.identity.address 0 s1.secretIdentityStr)
    let store2 := stateObjectPut store ZT_StateObjectType.IDENTITY_SECRET
      s1.identity.address 0 s1.secretIdentityStr
    let s3 := s2.emit (Effect.stateObjectPut ZT_StateObjectType.IDENTITY_PUBLIC
      s1.identity.address 0 s1.publicIdentityStr)
    let store3 := stateObjectPut store2 ZT_StateObjectType.IDENTITY_PUBLIC
      s1.identity.address 0 s1.publicIdentityStr
    (s3, store3)
  | some id =>
    let s1 := Node.withIdentity ip s id
    let r2 := stateObjectGet store ZT_StateObjectType.IDENTITY_PUBLIC s1.identity.address 0 2047
    if r2.1 > 0 ∧ r2.1 < (pc.ZT_IDENTITY_STRING_BUFFER_LENGTH : Int) ∧ r2.1 < 2048 then
      if memcmpDiffers r2.2 s1.publicIdentityStr uninit then
        (s1.emit (Effect.stateObjectPut ZT_StateObjectType.IDENTITY_PUBLIC
            s1.identity.address 0 s1.publicIdentityStr),
         stateObjectPut store ZT_StateObjectType.IDENTITY_PUBLIC
            s1.identity.address 0 s1.publicIdentityStr)
      else (s1, store)
    else (s1, store)

/-- The constructor `Node::Node`: the node built, or the exception thrown, and the
host's store afterwards. `version` is `callbacks->version`, `seed` what the secure
random source gives for the PRNG state, and `allocOk` whether the memory for the
subordinate components (trace, switch, multicaster, topology, self-awareness) could
be had and their constructors returned. -/
def Node.construct (ip : IdentityPrimitives) (pc : ProtocolConstants) (version : Nat)
    (allocOk : Bool) (generated : Identity) (uninit : Nat → Nat) (store : StateStore)
    (now : Int) (seed : Nat × Nat) : Except ConstructException Node × StateStore :=
  if version ≠ 0 then (Except.error ConstructException.ZT_EXCEPTION_INVALID_ARGUMENT, store)
  else
    let r := Node.bootstrapIdentity ip pc generated uninit store (Node.init now seed)
    if allocOk then (Except.ok (r.1.emit (Effect.postEvent ZT_Event.UP)), r.2)
    else (Except.error ConstructException.bad_alloc, r.2)
/-! ## Concrete inputs -/

/-- One admissible choice of the constants (the customary ZeroTier values: ping
check every 5 s, timer granularity 16 ms, peer activity timeout 500 s, network
auto-configuration delay 60 s, housekeeping every 60 s). -/
def stockConstants : Constants :=
  { ZT_PING_CHECK_INVERVAL := 5000, ZT_CORE_TIMER_TASK_GRANULARITY := 16,
    ZT_PEER_ACTIVITY_TIMEOUT := 500000, ZT_NETWORK_AUTOCONF_DELAY := 60000,
    ZT_HOUSEKEEPING_PERIOD := 60000 }

/-- A freshly constructed node (constructed at time 1000). -/
def freshNode : Node := Node.init 1000 (1, 2)

/-- The network ID of the join/leave scenario, `0xdeadbeefcafebabe`. -/
def scenarioNwid : Nat := 0xdeadbeefcafebabe

/-- A topology without upstreams and without peers. -/
def emptyTopology : Topology :=
  { upstreams := [], peers := [], amUpstream := false, getUpstreamPeer := none }

/-- Collaborators that never fail: the given topology and a switch whose
`doTimerTasks` always suggests the delay `hint`. -/
def calmEnvironment (t : Topology) (hint : Nat) : RuntimeEnvironment :=
  { topology := t, sw := { doTimerTasks := fun _ => hint }, throwsAt := none }

/-- A peer at address `a` with the given last receive time, which sends nothing
when pinged and is not active. -/
def silentPeer (a : Address) (lastReceive : Int) : Peer :=
  { address := a, lastReceive := lastReceive, doPingAndKeepalive := fun _ => 0,
    isActive := fun _ => false, getAppropriatePath := fun _ _ => none }

/-- Collaborators that never fail, with one upstream at address 7 known as a
silent peer with the given last receive time, and timer hint 100. -/
def oneUpstreamEnvironment (lastReceive : Int) : RuntimeEnvironment :=
  calmEnvironment (oneUpstreamTopology 7 [] (silentPeer 7 lastReceive) none) 100

/-- A fresh node whose local controller has issued a config to member 2 of
network 1 at time 0. -/
def nodeWithAuthorization : Node :=
  { freshNode with localControllerAuthorizations := [((1, 2), 0)] }

/-- A fresh node holding an authorization entry stamped 1180001. -/
def nodeWithLateAuthorization : Node :=
  { freshNode with localControllerAuthorizations := [((1, 2), 1180001)] }

/-- Three stable endpoints of an upstream: two IPv6 ones, then an IPv4 one. -/
def mixedEndpoints : List InetAddress :=
  [{ ss_family := Family.AF_INET6, ip := 1, port := 9993 },
   { ss_family := Family.AF_INET6, ip := 2, port := 9993 },
   { ss_family := Family.AF_INET, ip := 3, port := 9993 }]

/-- A PRNG state from which `prng` returns `2^64 - 1`. -/
def wrappingSeed : Nat × Nat := (0x7e07ff03fffe000, 0)

/-- A fresh node whose PRNG state is `wrappingSeed`. -/
def nodeWithWrappingSeed : Node := Node.init 1000 wrappingSeed

/-- Collaborators that never fail, with one upstream at address 7, with the
endpoints `mixedEndpoints`, known as a silent peer. -/
def mixedEndpointsEnvironment : RuntimeEnvironment :=
  calmEnvironment (oneUpstreamTopology 7 mixedEndpoints (silentPeer 7 6000) none) 100

/-- Path checks in which every IPv4 and IPv6 address is valid for a path, no
endpoint is prohibited, a range contains exactly the addresses with its IP, and the
host's callback is present and always answers 1. -/
def permissiveChecks : PathChecks :=
  { isAddressValidForPath := fun a => decide (a.ss_family ≠ Family.AF_UNSPEC),
    isProhibitedEndpoint := fun _ _ => false,
    containsAddress := fun range a => decide (range.ip = a.ip),
    pathCheckFunction := some (fun _ _ _ => 1) }

/-- An IPv4 endpoint. -/
def endpointA : InetAddress := { ss_family := Family.AF_INET, ip := 167772161, port := 9993 }

/-- An address of unspecified family, which is not valid for a path. -/
def endpointNil : InetAddress := { ss_family := Family.AF_UNSPEC, ip := 0, port := 0 }

/-- A node whose identity has the address `0x1122334455`. -/
def nodeWithIdentity : Node :=
  { freshNode with identity := { address := 0x1122334455, publicKey := 7, privateKey := some 9 } }

/-- A fresh node that has joined network 1, whose config has the static IP range
with the IP of `endpointA`. -/
def nodeWithStaticIp : Node :=
  { freshNode with
      networks := [(1, { id := 1, uPtr := VoidPtr.host 1, hasConfig := true,
                         lastConfigUpdate := 0, alwaysContact := [],
                         staticIps := [{ ss_family := Family.AF_INET, ip := 167772161,
                                         port := 24 }] })] }

/-- One admissible choice of the protocol constants (the customary ZeroTier values:
packets of at most 10024 bytes, payload at index 28, signatures of 96 bytes,
identity strings in buffers of 384 bytes, at most 16 paths per peer). -/
def stockProtocol : ProtocolConstants :=
  { ZT_PROTO_MAX_PACKET_LENGTH := 10024, ZT_PACKET_IDX_PAYLOAD := 28,
    ZT_C25519_SIGNATURE_LEN := 96, ZT_IDENTITY_STRING_BUFFER_LENGTH := 384,
    ZT_MAX_PEER_NETWORK_PATHS := 16 }

/-- Identity primitives for the concrete inputs: the public string of an identity is
the bytes `1, address + 1, publicKey + 1`, its secret string the bytes
`2, address + 1, publicKey + 1, privateKey + 1`; `fromString` reads both forms back;
the signature is the single byte 5. -/
def plainPrimitives : IdentityPrimitives :=
  { toString := fun includePrivate id =>
      match includePrivate, id.privateKey with
      | true, some k => [2, id.address + 1, id.publicKey + 1, k + 1]
      | _, _ => [1, id.address + 1, id.publicKey + 1],
    fromString := fun str =>
      match str with
      | [1, a, p] =>
        if 0 < a ∧ 0 < p then some { address := a - 1, publicKey := p - 1, privateKey := none }
        else none
      | [2, a, p, k] =>
        if 0 < a ∧ 0 < p ∧ 0 < k then
          some { address := a - 1, publicKey := p - 1, privateKey := some (k - 1) }
        else none
      | _ => none,
    sign := fun _ _ => [5] }


/-- A path by way of `endpointA`. -/
def pathA : PathStatus :=
  { handle := 1, address := endpointA, lastOut := 900, lastIn := 950, trustedPathId := 0 }

/-- A second path of the same peer. -/
def pathB : PathStatus :=
  { handle := 2, address := endpointNil, lastOut := 100, lastIn := 120, trustedPathId := 0 }

/-- A peer with two paths, the second of them the one in use. -/
def peerWithTwoPaths : PeerStatus :=
  { address := 0x30, remoteVersionKnown := true, remoteVersionMajor := 1,
    remoteVersionMinor := 4, remoteVersionRevision := 6, latency := 20,
    role := ZT_PeerRole.LEAF, hasAggregateLink := false,
    paths := [pathA, pathB], bestPath := some pathB }

/-- A peer without a path. -/
def peerWithoutPath : PeerStatus :=
  { address := 0x10, remoteVersionKnown := false, remoteVersionMajor := 0,
    remoteVersionMinor := 0, remoteVersionRevision := 0, latency := 0xffff,
    role := ZT_PeerRole.PLANET, hasAggregateLink := false,
    paths := [], bestPath := none }

/-- The identity generated at the first start of a node. -/
def identityA : Identity := { address := 17, publicKey := 3, privateKey := some 4 }

/-- The identity a later start would generate. -/
def identityB : Identity := { address := 34, publicKey := 5, privateKey := some 6 }

/-- Memory that held the byte 85 everywhere. -/
def staleMemory : Nat → Nat := fun _ => 85

/-- A store that serves the secret form of `identityA` under the ID `{0,0}` and holds
a public object of another identity under the address of `identityA`. -/
def storeWithOtherPublic : StateStore :=
  [((ZT_StateObjectType.IDENTITY_SECRET, 0, 0), [2, 18, 4, 5]),
   ((ZT_StateObjectType.IDENTITY_PUBLIC, 17, 0), [1, 18, 9])]

/-- A store that serves the secret form of `identityA` under the ID `{0,0}` and holds
a public object of 384 bytes under the address of `identityA`. -/
def storeWithLongPublic : StateStore :=
  [((ZT_StateObjectType.IDENTITY_SECRET, 0, 0), [2, 18, 4, 5]),
   ((ZT_StateObjectType.IDENTITY_PUBLIC, 17, 0), List.replicate 384 7)]

/-- A node that joined the scenario network before, with the user pointer 9. -/
def nodeJoinedBefore : Node := (freshNode.join scenarioNwid (VoidPtr.host 9)).2

/-- Protocol constants with packets so short that a chunk of a config has at most
9 bytes (293 - (28 + 256)). -/
def smallProtocol : ProtocolConstants :=
  { ZT_PROTO_MAX_PACKET_LENGTH := 293, ZT_PACKET_IDX_PAYLOAD := 28,
    ZT_C25519_SIGNATURE_LEN := 96, ZT_IDENTITY_STRING_BUFFER_LENGTH := 384,
    ZT_MAX_PEER_NETWORK_PATHS := 16 }
/-! ## Facts about `Hashtable` -/

namespace Hashtable

variable {κ ν : Type} [DecidableEq κ]

theorem get_eq_none_iff (t : Hashtable κ ν) (k : κ) : get t k = none ↔ k ∉ keys t := by
  induction t with
  | nil => simp [get, keys]
  | cons e rest ih =>
    obtain ⟨k', v⟩ := e
    by_cases h : k' = k
    · simp [get, keys, h]
    · have h' : ¬ k = k' := fun h2 => h h2.symm
      simpa [get, keys, h, h'] using ih

theorem get_set_self (t : Hashtable κ ν) (k : κ) (v : ν) : get (set t k v) k = some v := by
  induction t with
  | nil => simp [get, set]
  | cons e rest ih =>
    obtain ⟨k', v'⟩ := e
    by_cases h : k' = k
    · simp [get, set, h]
    · simp [get, set, h, ih]

theorem keys_set (t : Hashtable κ ν) (k : κ) (v : ν) :
    keys (set t k v) = if k ∈ keys t then keys t else keys t ++ [k] := by
  induction t with
  | nil => simp [set, keys]
  | cons e rest ih =>
    obtain ⟨k', v'⟩ := e
    by_cases h : k' = k
    · simp [set, keys, h]
    · have h' : ¬ k = k' := fun h2 => h h2.symm
      simp only [keys] at ih
      by_cases hm : k ∈ List.map Prod.fst rest
      · simp [set, keys, h, h', hm, ih]
      · simp [set, keys, h, h', hm, ih]

theorem nodup_keys_set (t : Hashtable κ ν) (k : κ) (v : ν) (h : (keys t).Nodup) :
    (keys (set t k v)).Nodup := by
  rw [keys_set]
  by_cases hm : k ∈ keys t
  · simpa [hm] using h
  · simp only [hm, if_false]
    exact List.Nodup.append h (List.nodup_singleton k) (by simpa using hm)

theorem get_erase_self (t : Hashtable κ ν) (k : κ) : get (erase t k) k = none := by
  rw [get_eq_none_iff]
  simp [keys, erase, List.mem_filter]

theorem keys_erase (t : Hashtable κ ν) (k : κ) :
    keys (erase t k) = (keys t).filter (fun a => decide (a ≠ k)) := by
  induction t with
  | nil => simp [keys, erase]
  | cons e rest ih =>
    obtain ⟨k', v'⟩ := e
    by_cases h : k' = k
    · simp_all [keys, erase, List.filter_cons]
    · simp_all [keys, erase, List.filter_cons]

theorem nodup_keys_erase (t : Hashtable κ ν) (k : κ) (h : (keys t).Nodup) :
    (keys (erase t k)).Nodup := by
  rw [keys_erase]
  exact h.filter _

/-- With one entry per key, the entries stored under a key found by `get` are
exactly that one entry. -/
theorem filter_key_of_get (t : Hashtable κ ν) (k : κ) (v : ν) (hwf : (keys t).Nodup)
    (h : get t k = some v) : t.filter (fun e => decide (e.1 = k)) = [(k, v)] := by
  induction t with
  | nil => simp [get] at h
  | cons e rest ih =>
    obtain ⟨k', v'⟩ := e
    simp only [keys, List.map_cons, List.nodup_cons] at hwf
    by_cases hk : k' = k
    · subst hk
      simp only [get, if_true, Option.some.injEq] at h
      subst h
      have : rest.filter (fun e => decide (e.1 = k')) = [] := by
        rw [List.filter_eq_nil_iff]
        intro e he
        have : e.1 ∈ List.map Prod.fst rest := List.mem_map_of_mem Prod.fst he
        simp only [decide_eq_true_eq]
        intro heq
        exact hwf.1 (heq ▸ this)
      simp [List.filter_cons, this]
    · simp only [get, hk, if_false] at h
      simp [List.filter_cons, hk, ih hwf.2 h]

end Hashtable

/-! ## Joining and leaving networks -/

theorem Node.join_of_some (s : Node) (nwid : Nat) (u : VoidPtr) (nw : Network)
    (h : Hashtable.get s.networks nwid = some nw) : s.join nwid u = (ZT_ResultCode.OK, s) := by
  simp [Node.join, h]

theorem Node.join_of_none (s : Node) (nwid : Nat) (u : VoidPtr)
    (h : Hashtable.get s.networks nwid = none) :
    s.join nwid u = (ZT_ResultCode.OK,
      { s with networks := Hashtable.set s.networks nwid (Network.new nwid u).1,
               effects := s.effects ++ (Network.new nwid u).2 }) := by
  simp [Node.join, h]

theorem Node.join_fst (s : Node) (nwid : Nat) (u : VoidPtr) :
    (s.join nwid u).1 = ZT_ResultCode.OK := by
  unfold Node.join
  split <;> rfl

theorem Node.get_join (s : Node) (nwid : Nat) (u : VoidPtr) :
    ∃ nw, Hashtable.get (s.join nwid u).2.networks nwid = some nw := by
  cases hg : Hashtable.get s.networks nwid with
  | some nw => exact ⟨nw, by rw [Node.join_of_some s nwid u nw hg]; exact hg⟩
  | none =>
    refine ⟨(Network.new nwid u).1, ?_⟩
    rw [Node.join_of_none s nwid u hg]
    exact Hashtable.get_set_self s.networks nwid (Network.new nwid u).1

theorem Node.join_join (s : Node) (nwid : Nat) (u1 u2 : VoidPtr) :
    (s.join nwid u1).2.join nwid u2 = (ZT_ResultCode.OK, (s.join nwid u1).2) := by
  obtain ⟨nw, hnw⟩ := Node.get_join s nwid u1
  exact Node.join_of_some _ nwid u2 nw hnw

/-- C2 (as amended): `join` is idempotent. In every engine state whose networks map
has one entry per key, `join(nwid,u1)` followed by `join(nwid,u2)` both return OK, the
map then holds exactly one entry for `nwid`, and the second call changes nothing at
all (no second `Network` is constructed, no callback is made). When `nwid` was not
joined before, the entry is the network the first call built with user pointer `u1`
and exactly one `UP` port-configuration callback for `nwid` has been added. When
`nwid` was joined before, the first call changes nothing either: the entry stays the
one that was there and no callback is added. -/
theorem join_idempotent (s : Node) (nwid : Nat) (u1 u2 : VoidPtr)
    (hwf : (Hashtable.keys s.networks).Nodup) :
    (s.join nwid u1).1 = ZT_ResultCode.OK ∧
    ((s.join nwid u1).2.join nwid u2).1 = ZT_ResultCode.OK ∧
    ((s.join nwid u1).2.join nwid u2).2 = (s.join nwid u1).2 ∧
    (((s.join nwid u1).2.join nwid u2).2.networks.filter
        (fun e => decide (e.1 = nwid))).length = 1 ∧
    (Hashtable.get s.networks nwid = none →
      ((s.join nwid u1).2.join nwid u2).2.networks.filter (fun e => decide (e.1 = nwid))
          = [(nwid, (Network.new nwid u1).1)] ∧
      Hashtable.get ((s.join nwid u1).2.join nwid u2).2.networks nwid
          = some { id := nwid, uPtr := u1, hasConfig := false, lastConfigUpdate := 0,
                   alwaysContact := [] } ∧
      portConfigsOf nwid ZT_VirtualNetworkConfigOperation.UP
          ((s.join nwid u1).2.join nwid u2).2.effects
        = portConfigsOf nwid ZT_VirtualNetworkConfigOperation.UP s.effects ++
            [Effect.configureVirtualNetworkPort nwid (VoidPtr.uPtrField nwid)
              ZT_VirtualNetworkConfigOperation.UP { nwid := nwid }]) ∧
    (∀ nw, Hashtable.get s.networks nwid = some nw →
      ((s.join nwid u1).2.join nwid u2).2 = s ∧
      Hashtable.get ((s.join nwid u1).2.join nwid u2).2.networks nwid = some nw ∧
      ((s.join nwid u1).2.join nwid u2).2.effects = s.effects) := by
  have hjj := Node.join_join s nwid u1 u2
  refine ⟨Node.join_fst s nwid u1, by rw [hjj], by rw [hjj], ?_, ?_, ?_⟩
  · rw [hjj]
    cases hg : Hashtable.get s.networks nwid with
    | some nw =>
      rw [Node.join_of_some s nwid u1 nw hg]
      show (List.filter (fun e => decide (e.1 = nwid)) s.networks).length = 1
      rw [Hashtable.filter_key_of_get _ nwid nw hwf hg]
      rfl
    | none =>
      rw [Node.join_of_none s nwid u1 hg]
      show (List.filter (fun e => decide (e.1 = nwid))
        (Hashtable.set s.networks nwid (Network.new nwid u1).1)).length = 1
      rw [Hashtable.filter_key_of_get _ nwid _
        (Hashtable.nodup_keys_set s.networks nwid (Network.new nwid u1).1 hwf)
        (Hashtable.get_set_self s.networks nwid (Network.new nwid u1).1)]
      rfl
  · intro hg
    rw [hjj, Node.join_of_none s nwid u1 hg]
    refine ⟨?_, ?_, ?_⟩
    · exact Hashtable.filter_key_of_get _ nwid _
        (Hashtable.nodup_keys_set s.networks nwid (Network.new nwid u1).1 hwf)
        (Hashtable.get_set_self s.networks nwid (Network.new nwid u1).1)
    · exact Hashtable.get_set_self s.networks nwid (Network.new nwid u1).1
    · simp [portConfigsOf, Network.new, Network.userPtr, Network.externalConfig,
        List.filter_append]
  · intro nw hg
    rw [hjj, Node.join_of_some s nwid u1 nw hg]
    exact ⟨rfl, hg, rfl⟩

/-- Witness of `join_idempotent`: a fresh node joining `0xdeadbeefcafebabe` twice. -/
theorem join_idempotent_witness :
    (Hashtable.keys freshNode.networks).Nodup ∧
    Hashtable.get freshNode.networks scenarioNwid = none ∧
    ((freshNode.join scenarioNwid (VoidPtr.host 1)).2.join scenarioNwid (VoidPtr.host 2)).1
      = ZT_ResultCode.OK ∧
    portConfigsOf scenarioNwid ZT_VirtualNetworkConfigOperation.UP
        ((freshNode.join scenarioNwid (VoidPtr.host 1)).2.join scenarioNwid
          (VoidPtr.host 2)).2.effects
      = portConfigsOf scenarioNwid ZT_VirtualNetworkConfigOperation.UP freshNode.effects ++
          [Effect.configureVirtualNetworkPort scenarioNwid (VoidPtr.uPtrField scenarioNwid)
            ZT_VirtualNetworkConfigOperation.UP { nwid := scenarioNwid }] :=
  ⟨by decide, by decide,
    (join_idempotent freshNode scenarioNwid (VoidPtr.host 1) (VoidPtr.host 2) (by decide)).2.1,
    ((join_idempotent freshNode scenarioNwid (VoidPtr.host 1) (VoidPtr.host 2)
      (by decide)).2.2.2.2.1 (by decide)).2.2⟩

/-- C2 (counterexample to the claim as stated): in the state of a node that joined
`0xdeadbeefcafebabe` before, with the user pointer 9, the calls `join(nwid, 1)` and
`join(nwid, 2)` both return OK and leave the state as it was: the one entry of `nwid`
has the user pointer 9, it is not an entry built by the first call with the user
pointer 1, and no `UP` port-configuration callback is added by the two calls. -/
theorem join_idempotent_counterexample :
    (Hashtable.keys nodeJoinedBefore.networks).Nodup ∧
    (nodeJoinedBefore.join scenarioNwid (VoidPtr.host 1)).1 = ZT_ResultCode.OK ∧
    ((nodeJoinedBefore.join scenarioNwid (VoidPtr.host 1)).2.join scenarioNwid
      (VoidPtr.host 2)).1 = ZT_ResultCode.OK ∧
    ((nodeJoinedBefore.join scenarioNwid (VoidPtr.host 1)).2.join scenarioNwid
      (VoidPtr.host 2)).2 = nodeJoinedBefore ∧
    (Hashtable.get ((nodeJoinedBefore.join scenarioNwid (VoidPtr.host 1)).2.join scenarioNwid
      (VoidPtr.host 2)).2.networks scenarioNwid).map (fun nw => nw.uPtr)
      = some (VoidPtr.host 9) ∧
    Hashtable.get ((nodeJoinedBefore.join scenarioNwid (VoidPtr.host 1)).2.join scenarioNwid
      (VoidPtr.host 2)).2.networks scenarioNwid
      ≠ some { id := scenarioNwid, uPtr := VoidPtr.host 1, hasConfig := false,
               lastConfigUpdate := 0, alwaysContact := [] } ∧
    portConfigsOf scenarioNwid ZT_VirtualNetworkConfigOperation.UP
        ((nodeJoinedBefore.join scenarioNwid (VoidPtr.host 1)).2.join scenarioNwid
          (VoidPtr.host 2)).2.effects
      = portConfigsOf scenarioNwid ZT_VirtualNetworkConfigOperation.UP
          nodeJoinedBefore.effects := by
  decide

theorem Node.leave_of_none (s : Node) (nwid : Nat) (w : Bool)
    (h : Hashtable.get s.networks nwid = none) :
    s.leave nwid w
      = (ZT_ResultCode.OK, none, s.emit (Effect.removeNetworkQoSControlBlock nwid)) := by
  simp [Node.leave, h]

theorem Node.leave_of_some (s : Node) (nwid : Nat) (w : Bool) (nw : Network)
    (h : Hashtable.get s.networks nwid = some nw) :
    (s.leave nwid w).1 = ZT_ResultCode.OK ∧
    (s.leave nwid w).2.1 = (if w then some nw.userPtr else none) ∧
    (s.leave nwid w).2.2.networks = Hashtable.erase s.networks nwid ∧
    (s.leave nwid w).2.2.effects = s.effects ++
      [Effect.removeNetworkQoSControlBlock nwid, Effect.network nwid NetworkCall.destroy,
        Effect.configureVirtualNetworkPort nwid nw.userPtr
          ZT_VirtualNetworkConfigOperation.DESTROY nw.externalConfig,
        Effect.stateObjectDelete ZT_StateObjectType.NETWORK_CONFIG nwid 0] := by
  simp [Node.leave, h, Node.emit, Network.userPtr]

theorem destroysOf_join (s : Node) (nwid : Nat) (u : VoidPtr) :
    destroysOf (s.join nwid u).2.effects = destroysOf s.effects := by
  cases hg : Hashtable.get s.networks nwid with
  | some nw => rw [Node.join_of_some s nwid u nw hg]
  | none =>
    rw [Node.join_of_none s nwid u hg]
    simp [destroysOf, Network.new, List.filter_append]

/-- C3: in the sequence `join(nwid); leave(nwid); leave(nwid)`, from any engine
state, both `leave` calls return OK; the first issues exactly one port-configuration
callback with operation `DESTROY` (for `nwid`), the second issues none, deletes no
persisted state object, stores nothing through `uptr` and leaves the networks map
as it is. -/
theorem join_leave_leave (s : Node) (nwid : Nat) (u : VoidPtr) (w1 w2 : Bool) :
    ((s.join nwid u).2.leave nwid w1).1 = ZT_ResultCode.OK ∧
    (((s.join nwid u).2.leave nwid w1).2.2.leave nwid w2).1 = ZT_ResultCode.OK ∧
    (∃ nuptr nc, destroysOf ((s.join nwid u).2.leave nwid w1).2.2.effects
        = destroysOf s.effects ++
            [Effect.configureVirtualNetworkPort nwid nuptr
              ZT_VirtualNetworkConfigOperation.DESTROY nc]) ∧
    destroysOf (((s.join nwid u).2.leave nwid w1).2.2.leave nwid w2).2.2.effects
      = destroysOf ((s.join nwid u).2.leave nwid w1).2.2.effects ∧
    stateDeletesOf (((s.join nwid u).2.leave nwid w1).2.2.leave nwid w2).2.2.effects
      = stateDeletesOf ((s.join nwid u).2.leave nwid w1).2.2.effects ∧
    (((s.join nwid u).2.leave nwid w1).2.2.leave nwid w2).2.1 = none ∧
    (((s.join nwid u).2.leave nwid w1).2.2.leave nwid w2).2.2.networks
      = ((s.join nwid u).2.leave nwid w1).2.2.networks := by
  obtain ⟨nw, hnw⟩ := Node.get_join s nwid u
  obtain ⟨h1, _, h3, h4⟩ := Node.leave_of_some (s.join nwid u).2 nwid w1 nw hnw
  have habsent : Hashtable.get ((s.join nwid u).2.leave nwid w1).2.2.networks nwid = none := by
    rw [h3]
    exact Hashtable.get_erase_self _ _
  have h2 := Node.leave_of_none ((s.join nwid u).2.leave nwid w1).2.2 nwid w2 habsent
  refine ⟨h1, by rw [h2], ⟨nw.userPtr, nw.externalConfig, ?_⟩, ?_, ?_, by rw [h2], by rw [h2]; rfl⟩
  · rw [h4, ← destroysOf_join s nwid u]
    simp [destroysOf, List.filter_append]
  · rw [h2]
    simp [destroysOf, Node.emit, List.filter_append]
  · rw [h2]
    simp [stateDeletesOf, Node.emit, List.filter_append]

/-- C4 (evaluation at the scenario): on a fresh node, after
`join(0xdeadbeefcafebabe, 0x1)` the list of networks is exactly that network;
`leave` with a non-null `uptr` returns OK and stores through it the address of the
network's user-pointer field (the value of `Network::userPtr()`), which is not the
host's pointer `0x1`; one `DESTROY` callback is issued and afterwards the list of
networks is empty. -/
theorem leave_stores_field_address :
    (freshNode.join scenarioNwid (VoidPtr.host 1)).2.networksList = [{ nwid := scenarioNwid }] ∧
    ((freshNode.join scenarioNwid (VoidPtr.host 1)).2.leave scenarioNwid true).1
      = ZT_ResultCode.OK ∧
    ((freshNode.join scenarioNwid (VoidPtr.host 1)).2.leave scenarioNwid true).2.1
      = some (VoidPtr.uPtrField scenarioNwid) ∧
    ((freshNode.join scenarioNwid (VoidPtr.host 1)).2.leave scenarioNwid true).2.1
      ≠ some (VoidPtr.host 1) ∧
    destroysOf ((freshNode.join scenarioNwid (VoidPtr.host 1)).2.leave scenarioNwid true).2.2.effects
      = [Effect.configureVirtualNetworkPort scenarioNwid (VoidPtr.uPtrField scenarioNwid)
          ZT_VirtualNetworkConfigOperation.DESTROY { nwid := scenarioNwid }] ∧
    ((freshNode.join scenarioNwid (VoidPtr.host 1)).2.leave scenarioNwid true).2.2.networksList
      = [] := by
  decide

/-- C5: `processVirtualNetworkFrame`, `multicastSubscribe` and
`multicastUnsubscribe` return `ERROR_NETWORK_NOT_FOUND` exactly when `nwid` has no
entry in the networks map; then no call is recorded and the map is unchanged. When
the entry exists they return OK, the map is unchanged, and exactly one call is
recorded: the frame for the switch's local-Ethernet handler with that network, or
the group (MAC, ADI modulo `2^32`) for that network. -/
theorem network_not_found_iff (s : Node) (now : Int) (nwid sourceMac destMac : Nat)
    (etherType vlanId : Nat) (frame : List Nat) (multicastGroup multicastAdi : Nat) :
    (((s.processVirtualNetworkFrame now nwid sourceMac destMac etherType vlanId frame).1
        = ZT_ResultCode.ERROR_NETWORK_NOT_FOUND ↔ Hashtable.get s.networks nwid = none) ∧
      ((s.multicastSubscribe nwid multicastGroup multicastAdi).1
        = ZT_ResultCode.ERROR_NETWORK_NOT_FOUND ↔ Hashtable.get s.networks nwid = none) ∧
      ((s.multicastUnsubscribe nwid multicastGroup multicastAdi).1
        = ZT_ResultCode.ERROR_NETWORK_NOT_FOUND ↔ Hashtable.get s.networks nwid = none)) ∧
    (Hashtable.get s.networks nwid = none →
      (s.processVirtualNetworkFrame now nwid sourceMac destMac etherType vlanId frame).2
        = { s with now := now } ∧
      (s.multicastSubscribe nwid multicastGroup multicastAdi).2 = s ∧
      (s.multicastUnsubscribe nwid multicastGroup multicastAdi).2 = s) ∧
    (∀ nw, Hashtable.get s.networks nwid = some nw →
      s.processVirtualNetworkFrame now nwid sourceMac destMac etherType vlanId frame
        = (ZT_ResultCode.OK,
            { s with now := now,
                     effects := s.effects ++
                       [Effect.onLocalEthernet nw.id (MAC.mk sourceMac) (MAC.mk destMac) etherType
                         vlanId frame] }) ∧
      s.multicastSubscribe nwid multicastGroup multicastAdi
        = (ZT_ResultCode.OK,
            { s with effects := s.effects ++
                [Effect.network nw.id (NetworkCall.multicastSubscribe
                  { mac := MAC.mk multicastGroup, adi := multicastAdi % 4294967296 })] }) ∧
      s.multicastUnsubscribe nwid multicastGroup multicastAdi
        = (ZT_ResultCode.OK,
            { s with effects := s.effects ++
                [Effect.network nw.id (NetworkCall.multicastUnsubscribe
                  { mac := MAC.mk multicastGroup, adi := multicastAdi % 4294967296 })] })) := by
  refine ⟨⟨?_, ?_, ?_⟩, ?_, ?_⟩
  · cases hg : Hashtable.get s.networks nwid <;>
      simp [Node.processVirtualNetworkFrame, Node.network, hg]
  · cases hg : Hashtable.get s.networks nwid <;>
      simp [Node.multicastSubscribe, Node.network, hg]
  · cases hg : Hashtable.get s.networks nwid <;>
      simp [Node.multicastUnsubscribe, Node.network, hg]
  · intro hg
    simp [Node.processVirtualNetworkFrame, Node.multicastSubscribe, Node.multicastUnsubscribe,
      Node.network, hg]
  · intro nw hg
    simp [Node.processVirtualNetworkFrame, Node.multicastSubscribe, Node.multicastUnsubscribe,
      Node.network, hg, Node.emit]

/-! ## The deadline of `processBackgroundTasks` -/

theorem toInt64_of_lt (x : Nat) (h : x < 9223372036854775808) : toInt64 x = (x : Int) := by
  unfold toInt64
  have h1 : x % 18446744073709551616 = x := Nat.mod_eq_of_lt (by omega)
  rw [h1]
  simp [h]

theorem timeUntilNextPingCheck_eq (c : Constants) (now : Int) (s : Node) (hc : c.inRange)
    (hdiff : isInt64 (now - s.lastPingCheck)) :
    ((timeUntilNextPingCheck c now s : Nat) : Int) = remainingPingInterval c now s := by
  obtain ⟨⟨h1, h2⟩, _⟩ := hc
  obtain ⟨h3, h4⟩ := hdiff
  unfold timeUntilNextPingCheck remainingPingInterval
  by_cases hd : pingCheckDue c now s = true
  · simp only [hd, if_true]
    omega
  · simp only [hd]
    simp only [pingCheckDue, decide_eq_true_eq, not_le, ge_iff_le] at hd
    simp only [toUnsignedLong, Bool.false_eq_true, if_false]
    omega

theorem processBackgroundTasks_deadline_of_ok (c : Constants) (RR : RuntimeEnvironment)
    (now : Int) (s : Node)
    (hok : (s.processBackgroundTasks c RR now).1 = ZT_ResultCode.OK) :
    (s.processBackgroundTasks c RR now).2.1
      = some (nextDeadline c now (timeUntilNextPingCheck c now s) (RR.sw.doTimerTasks now)) := by
  unfold Node.processBackgroundTasks Node.finishBackgroundTasks at hok ⊢
  simp only [] at hok ⊢
  split_ifs at hok ⊢ <;> rfl

theorem addInt64_of_isInt64 (a b : Int) (h : isInt64 (a + b)) : addInt64 a b = a + b := by
  unfold isInt64 at h
  unfold addInt64 toInt64 toUnsignedLong
  split_ifs <;> omega

/-- On a clock that has not run backwards the delay of the deadline formula is at
most the larger of the ping interval and the timer granularity. -/
theorem specDelay_lt (c : Constants) (now : Int) (s : Node) (hint : Nat) (hc : c.inRange)
    (hmono : s.lastPingCheck ≤ now) : specDelay c now s hint < 2147483648 := by
  obtain ⟨⟨_, h2⟩, ⟨_, h4⟩, _⟩ := hc
  have hr : remainingPingInterval c now s ≤ (c.ZT_PING_CHECK_INVERVAL : Int) := by
    unfold remainingPingInterval
    split_ifs <;> omega
  unfold specDelay
  refine max_lt (lt_of_le_of_lt (min_le_left _ _) ?_) ?_
  · omega
  · omega

/-- C1 (as amended): on a clock that has not run backwards (`lastPingCheck ≤ now`),
whenever `processBackgroundTasks(now)` returns OK and neither the subtraction
`now - lastPingCheck` nor the sum `now + max(min(r, hint), CORE_TIMER_GRANULARITY)`
leaves the range of `int64_t`, the deadline written is
`now + max(min(r, hint), CORE_TIMER_GRANULARITY)`, with `r` the remaining ping
interval and `hint` the `unsigned long` returned by `doTimerTasks`; in particular it
is at least `now + CORE_TIMER_GRANULARITY`. -/
theorem processBackgroundTasks_deadline (c : Constants) (RR : RuntimeEnvironment) (now : Int)
    (s : Node) (hc : c.inRange) (hmono : s.lastPingCheck ≤ now)
    (hdiff : isInt64 (now - s.lastPingCheck))
    (hsum : isInt64 (now + specDelay c now s (RR.sw.doTimerTasks now % 18446744073709551616)))
    (hok : (s.processBackgroundTasks c RR now).1 = ZT_ResultCode.OK) :
    (s.processBackgroundTasks c RR now).2.1
      = some (now + specDelay c now s (RR.sw.doTimerTasks now % 18446744073709551616)) ∧
    now + (c.ZT_CORE_TIMER_TASK_GRANULARITY : Int)
      ≤ now + specDelay c now s (RR.sw.doTimerTasks now % 18446744073709551616) := by
  have hG : c.ZT_CORE_TIMER_TASK_GRANULARITY % 18446744073709551616
      = c.ZT_CORE_TIMER_TASK_GRANULARITY := by
    obtain ⟨_, ⟨_, h⟩, _⟩ := hc
    exact Nat.mod_eq_of_lt (by omega)
  have hcast : ((max (min (timeUntilNextPingCheck c now s)
        (RR.sw.doTimerTasks now % 18446744073709551616))
        c.ZT_CORE_TIMER_TASK_GRANULARITY : Nat) : Int)
      = specDelay c now s (RR.sw.doTimerTasks now % 18446744073709551616) := by
    unfold specDelay
    rw [← timeUntilNextPingCheck_eq c now s hc hdiff]
    push_cast
    rfl
  have hfit : specDelay c now s (RR.sw.doTimerTasks now % 18446744073709551616)
      < 9223372036854775808 :=
    lt_trans (specDelay_lt c now s _ hc hmono) (by norm_num)
  refine ⟨?_, ?_⟩
  · rw [processBackgroundTasks_deadline_of_ok c RR now s hok]
    unfold nextDeadline
    rw [hG, toInt64_of_lt _ (by rw [← hcast] at hfit; exact_mod_cast hfit), hcast,
      addInt64_of_isInt64 _ _ hsum]
  · have : (c.ZT_CORE_TIMER_TASK_GRANULARITY : Int)
        ≤ specDelay c now s (RR.sw.doTimerTasks now % 18446744073709551616) := by
      unfold specDelay
      exact le_max_right _ _
    omega

/-- Witness of `processBackgroundTasks_deadline`: the first sweep of a fresh node at
time 6000 with timer hint 100 writes the deadline 6100. -/
theorem processBackgroundTasks_deadline_witness :
    stockConstants.inRange ∧ freshNode.lastPingCheck ≤ 6000 ∧
    isInt64 (6000 - freshNode.lastPingCheck) ∧
    (freshNode.processBackgroundTasks stockConstants (calmEnvironment emptyTopology 100) 6000).1
      = ZT_ResultCode.OK ∧
    (freshNode.processBackgroundTasks stockConstants (calmEnvironment emptyTopology 100) 6000).2.1
      = some (6000 + specDelay stockConstants 6000 freshNode
          ((calmEnvironment emptyTopology 100).sw.doTimerTasks 6000 % 18446744073709551616)) ∧
    specDelay stockConstants 6000 freshNode 100 = 100 :=
  ⟨by decide, by decide, by decide, by decide,
    (processBackgroundTasks_deadline stockConstants (calmEnvironment emptyTopology 100) 6000
      freshNode (by decide) (by decide) (by decide) (by decide) (by decide)).1, by decide⟩

/-- C1 (counterexample to the claim as stated), on a clock that runs forwards: a
fresh node runs one sweep at time `2^63 - 1011` (timer hint 100, result OK), which
sets `lastPingCheck` to that time; the next sweep is called 1000 ms later, at
`now = 2^63 - 11`, with the same timer hint. It returns OK. The formula of the claim
gives the deadline `now + max(min(4000, 100), 16) = 2^63 + 89`, which is no value of
`int64_t`; the deadline written is `89 - 2^63`, below `now + CORE_TIMER_GRANULARITY`,
and no value of `int64_t` at all reaches `now + CORE_TIMER_GRANULARITY`. -/
theorem processBackgroundTasks_deadline_counterexample :
    (freshNode.processBackgroundTasks stockConstants (calmEnvironment emptyTopology 100)
        9223372036854774797).1 = ZT_ResultCode.OK ∧
    (freshNode.processBackgroundTasks stockConstants (calmEnvironment emptyTopology 100)
        9223372036854774797).2.2.lastPingCheck = 9223372036854774797 ∧
    ((freshNode.processBackgroundTasks stockConstants (calmEnvironment emptyTopology 100)
        9223372036854774797).2.2.processBackgroundTasks stockConstants
        (calmEnvironment emptyTopology 100) 9223372036854775797).1 = ZT_ResultCode.OK ∧
    ((freshNode.processBackgroundTasks stockConstants (calmEnvironment emptyTopology 100)
        9223372036854774797).2.2.processBackgroundTasks stockConstants
        (calmEnvironment emptyTopology 100) 9223372036854775797).2.1
      = some (-9223372036854775719) ∧
    (9223372036854775797 : Int) + specDelay stockConstants 9223372036854775797
        (freshNode.processBackgroundTasks stockConstants (calmEnvironment emptyTopology 100)
          9223372036854774797).2.2 100 = 9223372036854775897 ∧
    ¬ ((9223372036854775797 : Int) + (stockConstants.ZT_CORE_TIMER_TASK_GRANULARITY : Int)
        ≤ -9223372036854775719) ∧
    (∀ d : Int, isInt64 d →
      ¬ ((9223372036854775797 : Int) + (stockConstants.ZT_CORE_TIMER_TASK_GRANULARITY : Int)
          ≤ d)) := by
  refine ⟨by decide, by decide, by decide, by decide, by decide, by decide, ?_⟩
  intro d hd h
  unfold isInt64 at hd
  have hg : (stockConstants.ZT_CORE_TIMER_TASK_GRANULARITY : Int) = 16 := by decide
  rw [hg] at h
  omega

/-! ## Reading the record of effects: helper facts -/

theorem eventsOf_append (a b : List Effect) : eventsOf (a ++ b) = eventsOf a ++ eventsOf b := by
  simp [eventsOf, List.filterMap_append]

theorem whoisOf_append (a b : List Effect) : whoisOf (a ++ b) = whoisOf a ++ whoisOf b := by
  simp [whoisOf, List.filterMap_append]

theorem eventsOf_peerCalls (l : List (Address × PeerCall)) :
    eventsOf (l.map (fun x => Effect.peer x.1 x.2)) = [] := by
  induction l with
  | nil => rfl
  | cons x rest ih => simp [eventsOf]

theorem whoisOf_peerCalls (l : List (Address × PeerCall)) :
    whoisOf (l.map (fun x => Effect.peer x.1 x.2)) = [] := by
  induction l with
  | nil => rfl
  | cons x rest ih => simp [whoisOf]

theorem eventsOf_requestWhois (now : Int) (l : List Address) :
    eventsOf (l.map (Effect.requestWhois now)) = [] := by
  induction l with
  | nil => rfl
  | cons x rest ih => simp [eventsOf]

theorem whoisOf_requestWhois (now : Int) (l : List Address) :
    whoisOf (l.map (Effect.requestWhois now)) = l := by
  induction l with
  | nil => rfl
  | cons x rest ih => simpa [whoisOf] using ih

theorem eventsOf_refreshNetworks (l : List (Network × Bool)) :
    eventsOf (refreshNetworks l) = [] := by
  induction l with
  | nil => rfl
  | cons x rest ih =>
    have h : refreshNetworks (x :: rest)
        = ((if x.2 then [Effect.network x.1.id NetworkCall.requestConfiguration] else []) ++
            [Effect.network x.1.id NetworkCall.sendUpdatesToMembers]) ++ refreshNetworks rest := by
      simp [refreshNetworks, List.flatMap_cons]
    rw [h, eventsOf_append, ih]
    cases x.2 <;> simp [eventsOf]

theorem whoisOf_refreshNetworks (l : List (Network × Bool)) :
    whoisOf (refreshNetworks l) = [] := by
  induction l with
  | nil => rfl
  | cons x rest ih =>
    have h : refreshNetworks (x :: rest)
        = ((if x.2 then [Effect.network x.1.id NetworkCall.requestConfiguration] else []) ++
            [Effect.network x.1.id NetworkCall.sendUpdatesToMembers]) ++ refreshNetworks rest := by
      simp [refreshNetworks, List.flatMap_cons]
    rw [h, whoisOf_append, ih]
    cases x.2 <;> simp [whoisOf]

/-- The ping check when no collaborator fails. -/
theorem Node.pingCheck_calm (c : Constants) (RR : RuntimeEnvironment) (now : Int) (s : Node)
    (hno : RR.throwsAt = none) :
    (s.pingCheck c RR now).1 = true ∧
    (s.pingCheck c RR now).2.online = onlineStatus c RR now ∧
    (s.pingCheck c RR now).2.lastPingCheck = now ∧
    (s.pingCheck c RR now).2.networks = s.networks ∧
    (s.pingCheck c RR now).2.localControllerAuthorizations
      = cleanLocalControllerAuthorizations c now s.localControllerAuthorizations ∧
    eventsOf (s.pingCheck c RR now).2.effects
      = eventsOf s.effects ++
          (if s.online = onlineStatus c RR now then []
           else [if onlineStatus c RR now then ZT_Event.ONLINE else ZT_Event.OFFLINE]) ∧
    whoisOf (s.pingCheck c RR now).2.effects
      = whoisOf s.effects ++
          Hashtable.keys (eachPeer RR.topology now
            { alwaysContact := alwaysContactOfSweep RR s, prngState := s.prngState,
              calls := [] }).alwaysContact := by
  unfold Node.pingCheck
  simp only [hno]
  by_cases h : s.online = onlineStatus c RR now
  · simp [h, Node.emitAll, Node.emit, eventsOf_append, whoisOf_append, eventsOf_peerCalls,
      whoisOf_peerCalls, eventsOf_requestWhois, whoisOf_requestWhois, eventsOf_refreshNetworks,
      whoisOf_refreshNetworks, alwaysContactOfSweep]
  · simp [h, Node.emitAll, Node.emit, eventsOf_append, whoisOf_append, eventsOf_peerCalls,
      whoisOf_peerCalls, eventsOf_requestWhois, whoisOf_requestWhois, eventsOf_refreshNetworks,
      whoisOf_refreshNetworks, alwaysContactOfSweep]
    constructor
    · cases onlineStatus c RR now <;> simp [eventsOf]
    · cases onlineStatus c RR now <;> simp [whoisOf]


theorem Node.memoizeTraceSettings_keeps (c : Constants) (now : Int) (s : Node) :
    (s.memoizeTraceSettings c now).online = s.online ∧
    (s.memoizeTraceSettings c now).lastPingCheck = s.lastPingCheck ∧
    (s.memoizeTraceSettings c now).networks = s.networks ∧
    (s.memoizeTraceSettings c now).localControllerAuthorizations
      = s.localControllerAuthorizations ∧
    eventsOf (s.memoizeTraceSettings c now).effects = eventsOf s.effects ∧
    whoisOf (s.memoizeTraceSettings c now).effects = whoisOf s.effects := by
  unfold Node.memoizeTraceSettings
  split <;> simp [Node.emit, eventsOf_append, whoisOf_append, eventsOf, whoisOf]

theorem Node.housekeeping_calm (c : Constants) (RR : RuntimeEnvironment) (now : Int) (s : Node)
    (hno : RR.throwsAt = none) :
    (s.housekeeping c RR now).1 = true ∧
    (s.housekeeping c RR now).2.online = s.online ∧
    (s.housekeeping c RR now).2.lastPingCheck = s.lastPingCheck ∧
    (s.housekeeping c RR now).2.networks = s.networks ∧
    (s.housekeeping c RR now).2.localControllerAuthorizations
      = s.localControllerAuthorizations ∧
    eventsOf (s.housekeeping c RR now).2.effects = eventsOf s.effects ∧
    whoisOf (s.housekeeping c RR now).2.effects = whoisOf s.effects := by
  unfold Node.housekeeping
  simp only [hno]
  split <;> simp [Node.emitAll, eventsOf_append, whoisOf_append, eventsOf, whoisOf]

/-- The part of the sweep after the ping check, when no collaborator fails: it
returns OK and touches neither the online flag nor the ping-check time nor the
networks nor the authorization cache, and posts no event and requests no WHOIS. -/
theorem Node.finishBackgroundTasks_calm (c : Constants) (RR : RuntimeEnvironment) (now : Int)
    (timeUntil : Nat) (s : Node) (hno : RR.throwsAt = none) :
    (s.finishBackgroundTasks c RR now timeUntil).1 = ZT_ResultCode.OK ∧
    (s.finishBackgroundTasks c RR now timeUntil).2.2.online = s.online ∧
    (s.finishBackgroundTasks c RR now timeUntil).2.2.lastPingCheck = s.lastPingCheck ∧
    (s.finishBackgroundTasks c RR now timeUntil).2.2.networks = s.networks ∧
    (s.finishBackgroundTasks c RR now timeUntil).2.2.localControllerAuthorizations
      = s.localControllerAuthorizations ∧
    eventsOf (s.finishBackgroundTasks c RR now timeUntil).2.2.effects = eventsOf s.effects ∧
    whoisOf (s.finishBackgroundTasks c RR now timeUntil).2.2.effects = whoisOf s.effects := by
  obtain ⟨m2, m3, m4, m5, m6, m7⟩ := Node.memoizeTraceSettings_keeps c now s
  obtain ⟨h1, h2, h3, h4, h5, h6, h7⟩ :=
    Node.housekeeping_calm c RR now (s.memoizeTraceSettings c now) hno
  unfold Node.finishBackgroundTasks
  simp only [h1, hno]
  refine ⟨by simp, ?_, ?_, ?_, ?_, ?_, ?_⟩
  · simpa [Node.emit] using h2.trans m2
  · simpa [Node.emit] using h3.trans m3
  · simpa [Node.emit] using h4.trans m4
  · simpa [Node.emit] using h5.trans m5
  · simpa [Node.emit, eventsOf_append, eventsOf] using h6.trans m6
  · simpa [Node.emit, whoisOf_append, whoisOf] using h7.trans m7

theorem Node.processBackgroundTasks_of_due (c : Constants) (RR : RuntimeEnvironment) (now : Int)
    (s : Node) (hno : RR.throwsAt = none) (hdue : pingCheckDue c now s = true) :
    s.processBackgroundTasks c RR now
      = Node.finishBackgroundTasks c RR now (timeUntilNextPingCheck c now s)
          (Node.pingCheck c RR now { s with now := now }).2 := by
  have hdue0 : pingCheckDue c now { s with now := now } = true := hdue
  have p1 := (Node.pingCheck_calm c RR now { s with now := now } hno).1
  unfold Node.processBackgroundTasks
  simp only [hdue0, if_true, p1]
  rfl

theorem Node.processBackgroundTasks_of_not_due (c : Constants) (RR : RuntimeEnvironment)
    (now : Int) (s : Node) (hdue : pingCheckDue c now s = false) :
    s.processBackgroundTasks c RR now
      = Node.finishBackgroundTasks c RR now (timeUntilNextPingCheck c now s)
          { s with now := now } := by
  have hdue0 : pingCheckDue c now { s with now := now } = false := hdue
  unfold Node.processBackgroundTasks
  simp only [hdue0]
  rfl

/-- The sweep when no collaborator fails: it returns OK, and the online flag, the
events, the WHOIS requests and the authorization cache are those the ping check
leaves (or those of the state before, when the ping check is not due). -/
theorem Node.processBackgroundTasks_calm (c : Constants) (RR : RuntimeEnvironment) (now : Int)
    (s : Node) (hno : RR.throwsAt = none) :
    (s.processBackgroundTasks c RR now).1 = ZT_ResultCode.OK ∧
    (pingCheckDue c now s = true →
      (s.processBackgroundTasks c RR now).2.2.online = onlineStatus c RR now ∧
      (s.processBackgroundTasks c RR now).2.2.lastPingCheck = now ∧
      (s.processBackgroundTasks c RR now).2.2.localControllerAuthorizations
        = cleanLocalControllerAuthorizations c now s.localControllerAuthorizations ∧
      eventsOf (s.processBackgroundTasks c RR now).2.2.effects
        = eventsOf s.effects ++
            (if s.online = onlineStatus c RR now then []
             else [if onlineStatus c RR now then ZT_Event.ONLINE else ZT_Event.OFFLINE]) ∧
      whoisOf (s.processBackgroundTasks c RR now).2.2.effects
        = whoisOf s.effects ++
            Hashtable.keys (eachPeer RR.topology now
              { alwaysContact := alwaysContactOfSweep RR s, prngState := s.prngState,
                calls := [] }).alwaysContact) ∧
    (pingCheckDue c now s = false →
      (s.processBackgroundTasks c RR now).2.2.online = s.online ∧
      (s.processBackgroundTasks c RR now).2.2.lastPingCheck = s.lastPingCheck ∧
      (s.processBackgroundTasks c RR now).2.2.localControllerAuthorizations
        = s.localControllerAuthorizations ∧
      eventsOf (s.processBackgroundTasks c RR now).2.2.effects = eventsOf s.effects ∧
      whoisOf (s.processBackgroundTasks c RR now).2.2.effects = whoisOf s.effects) := by
  refine ⟨?_, ?_, ?_⟩
  · by_cases hdue : pingCheckDue c now s = true
    · rw [Node.processBackgroundTasks_of_due c RR now s hno hdue]
      exact (Node.finishBackgroundTasks_calm c RR now _ _ hno).1
    · rw [Node.processBackgroundTasks_of_not_due c RR now s (by simpa using hdue)]
      exact (Node.finishBackgroundTasks_calm c RR now _ _ hno).1
  · intro hdue
    rw [Node.processBackgroundTasks_of_due c RR now s hno hdue]
    obtain ⟨_, f2, f3, _, f5, f6, f7⟩ := Node.finishBackgroundTasks_calm c RR now
      (timeUntilNextPingCheck c now s) (Node.pingCheck c RR now { s with now := now }).2 hno
    obtain ⟨_, p2, p3, _, p5, p6, p7⟩ := Node.pingCheck_calm c RR now { s with now := now } hno
    exact ⟨f2.trans p2, f3.trans p3, f5.trans p5, f6.trans p6, f7.trans p7⟩
  · intro hdue
    rw [Node.processBackgroundTasks_of_not_due c RR now s hdue]
    obtain ⟨_, f2, f3, _, f5, f6, f7⟩ := Node.finishBackgroundTasks_calm c RR now
      (timeUntilNextPingCheck c now s) { s with now := now } hno
    exact ⟨f2, f3, f5, f6, f7⟩

/-! ## Online status -/

theorem foldr_max_nonneg (l : List Int) : 0 ≤ l.foldr max 0 := by
  induction l with
  | nil => simp
  | cons x rest ih => simp only [List.foldr_cons]; omega

theorem foldr_max_bound (l : List Int) : ∀ x ∈ l, x ≤ l.foldr max 0 := by
  induction l with
  | nil => simp
  | cons y rest ih =>
    intro x hx
    simp only [List.mem_cons] at hx
    simp only [List.foldr_cons]
    rcases hx with h | h
    · omega
    · have := ih x h
      omega

theorem foldr_max_attained (l : List Int) : l.foldr max 0 = 0 ∨ l.foldr max 0 ∈ l := by
  induction l with
  | nil => simp
  | cons y rest ih =>
    simp only [List.foldr_cons, List.mem_cons]
    rcases ih with h | h
    · rcases le_total y (rest.foldr max 0) with h2 | h2
      · left; rw [max_eq_right h2]; exact h
      · right; left; exact max_eq_left h2
    · rcases le_total y (rest.foldr max 0) with h2 | h2
      · right; right; rw [max_eq_right h2]; exact h
      · right; left; exact max_eq_left h2

theorem lastReceivedFromUpstream_fold (t : Topology)
    (tbl : Hashtable Address (List InetAddress)) (acc : Int) (hacc : 0 ≤ acc) :
    tbl.foldl
        (fun acc e =>
          match t.getPeerNoCache e.1 with
          | some p => max p.lastReceive acc
          | none => acc) acc
      = max acc ((((Hashtable.keys tbl).filterMap t.getPeerNoCache).map
          (fun p => p.lastReceive)).foldr max 0) := by
  induction tbl generalizing acc with
  | nil => simp [Hashtable.keys, hacc]
  | cons e rest ih =>
    simp only [List.foldl_cons, Hashtable.keys, List.map_cons, List.filterMap_cons]
    cases hp : t.getPeerNoCache e.1 with
    | none =>
      simp only []
      exact ih acc hacc
    | some p =>
      simp only [List.map_cons, List.foldr_cons]
      have := ih (max p.lastReceive acc) (by omega)
      simp only [Hashtable.keys] at this
      rw [this]
      omega

theorem lastReceivedFromUpstream_eq (t : Topology) :
    lastReceivedFromUpstream t (t.getUpstreamsToContact []) = flooredLastReceived t := by
  unfold lastReceivedFromUpstream flooredLastReceived knownUpstreamPeers
  rw [lastReceivedFromUpstream_fold t _ 0 (le_refl 0)]
  exact max_eq_right (foldr_max_nonneg _)

/-- C6 (as amended): in every `processBackgroundTasks` call in which no
collaborator fails, when the ping check runs the online flag becomes
`(now - m < PEER_ACTIVITY_TIMEOUT) OR amUpstream`, where `m` is the maximum of 0 and
of `lastReceive` over the upstream addresses returned by topology that are known as
peers (`m` is at least 0, bounds every such `lastReceive`, and is 0 or one of them);
one event is posted exactly when the flag differs from its previous value, `ONLINE`
when it became true and `OFFLINE` when it became false; when the ping check does not
run the flag is unchanged and no event is posted. -/
theorem online_status_update (c : Constants) (RR : RuntimeEnvironment) (now : Int) (s : Node)
    (hno : RR.throwsAt = none) :
    (0 ≤ flooredLastReceived RR.topology ∧
      (∀ p ∈ knownUpstreamPeers RR.topology, p.lastReceive ≤ flooredLastReceived RR.topology) ∧
      (flooredLastReceived RR.topology = 0 ∨
        ∃ p ∈ knownUpstreamPeers RR.topology, p.lastReceive = flooredLastReceived RR.topology) ∧
      (knownUpstreamPeers RR.topology = [] → flooredLastReceived RR.topology = 0)) ∧
    (s.processBackgroundTasks c RR now).1 = ZT_ResultCode.OK ∧
    (pingCheckDue c now s = true →
      (s.processBackgroundTasks c RR now).2.2.online
        = (decide (now - flooredLastReceived RR.topology < (c.ZT_PEER_ACTIVITY_TIMEOUT : Int))
            || RR.topology.amUpstream) ∧
      eventsOf (s.processBackgroundTasks c RR now).2.2.effects
        = eventsOf s.effects ++
            (if (s.processBackgroundTasks c RR now).2.2.online = s.online then []
             else if (s.processBackgroundTasks c RR now).2.2.online then [ZT_Event.ONLINE]
             else [ZT_Event.OFFLINE])) ∧
    (pingCheckDue c now s = false →
      (s.processBackgroundTasks c RR now).2.2.online = s.online ∧
      eventsOf (s.processBackgroundTasks c RR now).2.2.effects = eventsOf s.effects) := by
  obtain ⟨hok, hdue, hnot⟩ := Node.processBackgroundTasks_calm c RR now s hno
  refine ⟨⟨foldr_max_nonneg _, ?_, ?_, ?_⟩, hok, ?_, ?_⟩
  · intro p hp
    exact foldr_max_bound _ _ (List.mem_map_of_mem (fun p => p.lastReceive) hp)
  · rcases foldr_max_attained ((knownUpstreamPeers RR.topology).map (fun p => p.lastReceive))
      with h | h
    · exact Or.inl h
    · right
      obtain ⟨p, hp, hpe⟩ := List.mem_map.mp h
      exact ⟨p, hp, hpe⟩
  · intro h
    simp [flooredLastReceived, h]
  · intro hd
    obtain ⟨h1, _, _, h4, _⟩ := hdue hd
    have hos : onlineStatus c RR now
        = (decide (now - flooredLastReceived RR.topology < (c.ZT_PEER_ACTIVITY_TIMEOUT : Int))
            || RR.topology.amUpstream) := by
      unfold onlineStatus
      rw [lastReceivedFromUpstream_eq]
    refine ⟨h1.trans hos, ?_⟩
    rw [h4, h1]
    by_cases he : s.online = onlineStatus c RR now
    · simp [he]
    · have he' : ¬ onlineStatus c RR now = s.online := fun h => he h.symm
      simp only [he, he', if_false]
      cases onlineStatus c RR now <;> simp
  · intro hd
    obtain ⟨h1, _, _, h4, _⟩ := hnot hd
    exact ⟨h1, h4⟩

/-- Witness of `online_status_update`: the first sweep of a fresh node at time 6000,
with one upstream peer last heard at 6000, sets the flag and posts `ONLINE`. -/
theorem online_status_update_witness :
    (oneUpstreamEnvironment 6000).throwsAt = none ∧
    pingCheckDue stockConstants 6000 freshNode = true ∧
    (freshNode.processBackgroundTasks stockConstants (oneUpstreamEnvironment 6000) 6000).2.2.online
      = (decide ((6000 : Int) - flooredLastReceived (oneUpstreamEnvironment 6000).topology
            < (stockConstants.ZT_PEER_ACTIVITY_TIMEOUT : Int))
          || (oneUpstreamEnvironment 6000).topology.amUpstream) ∧
    (freshNode.processBackgroundTasks stockConstants (oneUpstreamEnvironment 6000) 6000).2.2.online
      = true ∧
    eventsOf
        (freshNode.processBackgroundTasks stockConstants (oneUpstreamEnvironment 6000)
          6000).2.2.effects = [ZT_Event.ONLINE] :=
  ⟨rfl, by decide,
    ((online_status_update stockConstants (oneUpstreamEnvironment 6000) 6000 freshNode rfl).2.2.1
      (by decide)).1,
    by decide, by decide⟩

/-- C6 (counterexample to the claim as stated): one upstream peer whose
`lastReceive` is -1, a node that is not an upstream, a sweep at time 499999 with
`PEER_ACTIVITY_TIMEOUT` = 500000. The maximum of `lastReceive` over the known
upstream peers is -1, so the formula of the claim gives
`(499999 - (-1) < 500000) OR false`, that is false, and no event; the sweep sets the
flag to true and posts `ONLINE`. -/
theorem online_status_counterexample :
    (freshNode.processBackgroundTasks stockConstants (oneUpstreamEnvironment (-1)) 499999).1
      = ZT_ResultCode.OK ∧
    pingCheckDue stockConstants 499999 freshNode = true ∧
    claimedLastReceived (oneUpstreamEnvironment (-1)).topology = -1 ∧
    (decide ((499999 : Int) - claimedLastReceived (oneUpstreamEnvironment (-1)).topology
          < (stockConstants.ZT_PEER_ACTIVITY_TIMEOUT : Int))
        || (oneUpstreamEnvironment (-1)).topology.amUpstream) = false ∧
    (freshNode.processBackgroundTasks stockConstants (oneUpstreamEnvironment (-1))
        499999).2.2.online = true ∧
    eventsOf
        (freshNode.processBackgroundTasks stockConstants (oneUpstreamEnvironment (-1))
          499999).2.2.effects = [ZT_Event.ONLINE] := by
  decide

theorem onlineStatus_oneUpstream (c : Constants) (a : Address) (eps : List InetAddress)
    (p : Peer) (best : Option Peer) (sw : Switch) (now : Int) (hpa : p.address = a)
    (hnn : 0 ≤ p.lastReceive) :
    onlineStatus c { topology := oneUpstreamTopology a eps p best, sw := sw, throwsAt := none } now
      = decide (now - p.lastReceive < (c.ZT_PEER_ACTIVITY_TIMEOUT : Int)) := by
  simp [onlineStatus, lastReceivedFromUpstream, oneUpstreamTopology,
    Topology.getUpstreamsToContact, addAlwaysContact, Hashtable.set, Hashtable.get,
    Topology.getPeerNoCache, hpa, hnn]

/-- C7 (as amended): for every start time `t` with `PING_CHECK_INTERVAL ≤ t`, when
`PING_CHECK_INTERVAL ≤ PEER_ACTIVITY_TIMEOUT + 1`: on a freshly constructed node
that is not itself an upstream and whose topology has one upstream peer with
`lastReceive = t`, the sweep at `now = t` returns OK and posts `ONLINE`, and the next
sweep, at `now = t + PEER_ACTIVITY_TIMEOUT + 1` with the peer's `lastReceive`
unchanged, returns OK and posts exactly one event, `OFFLINE`. -/
theorem offline_detection (c : Constants) (t constructedAt : Int) (seed : Nat × Nat)
    (a : Address) (eps : List InetAddress) (p : Peer) (best : Option Peer) (sw1 sw2 : Switch)
    (hc : c.inRange) (ht : (c.ZT_PING_CHECK_INVERVAL : Int) ≤ t)
    (hto : c.ZT_PING_CHECK_INVERVAL ≤ c.ZT_PEER_ACTIVITY_TIMEOUT + 1)
    (hpa : p.address = a) (hpl : p.lastReceive = t) :
    ((Node.init constructedAt seed).processBackgroundTasks c
        { topology := oneUpstreamTopology a eps p best, sw := sw1, throwsAt := none } t).1
      = ZT_ResultCode.OK ∧
    eventsOf ((Node.init constructedAt seed).processBackgroundTasks c
        { topology := oneUpstreamTopology a eps p best, sw := sw1, throwsAt := none } t).2.2.effects
      = [ZT_Event.ONLINE] ∧
    (((Node.init constructedAt seed).processBackgroundTasks c
        { topology := oneUpstreamTopology a eps p best, sw := sw1, throwsAt := none }
        t).2.2.processBackgroundTasks c
        { topology := oneUpstreamTopology a eps p best, sw := sw2, throwsAt := none }
        (t + (c.ZT_PEER_ACTIVITY_TIMEOUT : Int) + 1)).1 = ZT_ResultCode.OK ∧
    eventsOf (((Node.init constructedAt seed).processBackgroundTasks c
        { topology := oneUpstreamTopology a eps p best, sw := sw1, throwsAt := none }
        t).2.2.processBackgroundTasks c
        { topology := oneUpstreamTopology a eps p best, sw := sw2, throwsAt := none }
        (t + (c.ZT_PEER_ACTIVITY_TIMEOUT : Int) + 1)).2.2.effects
      = eventsOf ((Node.init constructedAt seed).processBackgroundTasks c
          { topology := oneUpstreamTopology a eps p best, sw := sw1, throwsAt := none }
          t).2.2.effects ++ [ZT_Event.OFFLINE] := by
  obtain ⟨⟨hI, _⟩, _, ⟨hT, _⟩, _⟩ := hc
  have hnn : 0 ≤ p.lastReceive := by omega
  have hdue1 : pingCheckDue c t (Node.init constructedAt seed) = true := by
    simp [pingCheckDue, Node.init, ht]
  obtain ⟨ok1, d1, _⟩ := Node.processBackgroundTasks_calm c
    { topology := oneUpstreamTopology a eps p best, sw := sw1, throwsAt := none } t
    (Node.init constructedAt seed) rfl
  obtain ⟨on1, lp1, _, ev1, _⟩ := d1 hdue1
  have hos1 : onlineStatus c
      { topology := oneUpstreamTopology a eps p best, sw := sw1, throwsAt := none } t = true := by
    rw [onlineStatus_oneUpstream c a eps p best sw1 t hpa hnn, hpl]
    simp only [sub_self, decide_eq_true_eq]
    omega
  have hdue2 : pingCheckDue c (t + (c.ZT_PEER_ACTIVITY_TIMEOUT : Int) + 1)
      ((Node.init constructedAt seed).processBackgroundTasks c
        { topology := oneUpstreamTopology a eps p best, sw := sw1, throwsAt := none } t).2.2
        = true := by
    simp only [pingCheckDue, lp1, decide_eq_true_eq]
    omega
  obtain ⟨ok2, d2, _⟩ := Node.processBackgroundTasks_calm c
    { topology := oneUpstreamTopology a eps p best, sw := sw2, throwsAt := none }
    (t + (c.ZT_PEER_ACTIVITY_TIMEOUT : Int) + 1)
    ((Node.init constructedAt seed).processBackgroundTasks c
      { topology := oneUpstreamTopology a eps p best, sw := sw1, throwsAt := none } t).2.2 rfl
  obtain ⟨_, _, _, ev2, _⟩ := d2 hdue2
  have hos2 : onlineStatus c
      { topology := oneUpstreamTopology a eps p best, sw := sw2, throwsAt := none }
      (t + (c.ZT_PEER_ACTIVITY_TIMEOUT : Int) + 1) = false := by
    rw [onlineStatus_oneUpstream c a eps p best sw2 _ hpa hnn, hpl]
    simp only [decide_eq_false_iff_not, not_lt]
    omega
  refine ⟨ok1, ?_, ok2, ?_⟩
  · rw [ev1, hos1]
    simp [Node.init, eventsOf]
  · rw [ev2, on1, hos1, hos2]
    simp

/-- Witness of `offline_detection`: start time 5000 with the customary constants. -/
theorem offline_detection_witness :
    stockConstants.inRange ∧
    ((stockConstants.ZT_PING_CHECK_INVERVAL : Int) ≤ 5000) ∧
    stockConstants.ZT_PING_CHECK_INVERVAL ≤ stockConstants.ZT_PEER_ACTIVITY_TIMEOUT + 1 ∧
    eventsOf ((Node.init 1000 (1, 2)).processBackgroundTasks stockConstants
        { topology := oneUpstreamTopology 7 [] (silentPeer 7 5000) none,
          sw := { doTimerTasks := fun _ => 100 }, throwsAt := none } 5000).2.2.effects
      = [ZT_Event.ONLINE] :=
  ⟨by decide, by decide, by decide,
    (offline_detection stockConstants 5000 1000 (1, 2) 7 [] (silentPeer 7 5000) none
      { doTimerTasks := fun _ => 100 } { doTimerTasks := fun _ => 100 }
      (by decide) (by decide) (by decide) rfl rfl).2.1⟩

/-- C7 (counterexample to the claim as stated): at the start time `t = 1000` of the
claim, with `PING_CHECK_INTERVAL` = 5000, the sweep of the fresh node at `now = 1000`
does not run the ping check (`1000 - 0 < 5000`): it returns OK, posts no event and
leaves the node offline. The same holds at `t = 0`, whatever the positive value of
`PING_CHECK_INTERVAL`. -/
theorem offline_detection_counterexample :
    (freshNode.processBackgroundTasks stockConstants (oneUpstreamEnvironment 1000) 1000).1
      = ZT_ResultCode.OK ∧
    pingCheckDue stockConstants 1000 freshNode = false ∧
    eventsOf (freshNode.processBackgroundTasks stockConstants (oneUpstreamEnvironment 1000)
        1000).2.2.effects = [] ∧
    (freshNode.processBackgroundTasks stockConstants (oneUpstreamEnvironment 1000)
        1000).2.2.online = false ∧
    eventsOf (freshNode.processBackgroundTasks stockConstants (oneUpstreamEnvironment 0)
        0).2.2.effects = [] := by
  decide

/-! ## The local controller authorization cache -/

/-- C8 (evaluation at the failing input): with `NETWORK_AUTOCONF_DELAY` = 60000, a
sweep at time 1000000 in which the ping check runs keeps the cache entry stamped 0,
although `now - timestamp` = 1000000 exceeds 3 x 60000; and a sweep at time 1000000
erases the entry stamped 1180001, which is not older than that. The test of the
clean-up loop is `(timestamp - now) > 3 x NETWORK_AUTOCONF_DELAY`. -/
theorem auth_cache_cleanup_reversed :
    pingCheckDue stockConstants 1000000 nodeWithAuthorization = true ∧
    (nodeWithAuthorization.processBackgroundTasks stockConstants
        (calmEnvironment emptyTopology 100) 1000000).1 = ZT_ResultCode.OK ∧
    (nodeWithAuthorization.processBackgroundTasks stockConstants
        (calmEnvironment emptyTopology 100) 1000000).2.2.localControllerAuthorizations
      = [((1, 2), 0)] ∧
    ((1000000 : Int) - 0 > 3 * (stockConstants.ZT_NETWORK_AUTOCONF_DELAY : Int)) ∧
    (nodeWithLateAuthorization.processBackgroundTasks stockConstants
        (calmEnvironment emptyTopology 100) 1000000).2.2.localControllerAuthorizations = [] ∧
    ¬ ((1000000 : Int) - 1180001 > 3 * (stockConstants.ZT_NETWORK_AUTOCONF_DELAY : Int)) := by
  decide

/-! ## The ping policy -/

/-- C10 (evaluation at the failing input): a peer at address 7 is in
`alwaysContact` with the endpoints (IPv6, IPv6, IPv4); `doPingAndKeepalive` returns
the mask 0, and the PRNG returns `2^64 - 1` as starting index of the IPv4 loop. The
loop looks at the indices `(2^64 - 1) % 3 = 0`, then, the index having wrapped to 0,
at `0 % 3 = 0` and `1 % 3 = 1`, never at index 2: no HELLO is sent to the IPv4
endpoint although the list contains one. The only HELLO goes to an IPv6 endpoint. -/
theorem ping_skips_endpoint_on_wrap :
    (prng wrappingSeed).1 = 18446744073709551615 ∧
    (∃ e ∈ mixedEndpoints, e.ss_family = Family.AF_INET) ∧
    (silentPeer 7 6000).doPingAndKeepalive 6000 % 4294967296 = 0 ∧
    scanEndpoints mixedEndpoints Family.AF_INET mixedEndpoints.length
        (prng wrappingSeed).1 = none ∧
    (nodeWithWrappingSeed.processBackgroundTasks stockConstants mixedEndpointsEnvironment
        6000).1 = ZT_ResultCode.OK ∧
    hellosOf 7 (nodeWithWrappingSeed.processBackgroundTasks stockConstants
        mixedEndpointsEnvironment 6000).2.2.effects
      = [(-1, { ss_family := Family.AF_INET6, ip := 1, port := 9993 })] := by
  refine ⟨by decide, ⟨{ ss_family := Family.AF_INET, ip := 3, port := 9993 }, by decide, rfl⟩,
    by decide, by decide, by decide, by decide⟩

/-! ## WHOIS for always-contact addresses without a peer -/

theorem xor_shiftRight_eq_zero (x : Nat) (h : x ^^^ (x >>> 17) = 0) : x = 0 := by
  have h1 : x >>> 17 = x := by
    have : x ^^^ (x >>> 17) = x ^^^ x := by rw [h, Nat.xor_self]
    exact Nat.xor_right_injective this
  rw [Nat.shiftRight_eq_div_pow] at h1
  omega

theorem xor_shiftLeft_eq_zero (x : Nat) (hx : x < 18446744073709551616)
    (h : x ^^^ ((x <<< 23) % 18446744073709551616) = 0) : x = 0 := by
  have h1 : (x <<< 23) % 18446744073709551616 = x := by
    have : x ^^^ ((x <<< 23) % 18446744073709551616) = x ^^^ x := by rw [h, Nat.xor_self]
    exact Nat.xor_right_injective this
  rw [Nat.shiftLeft_eq] at h1
  omega

theorem prng_state_lt (x y : Nat) (hx : x < 18446744073709551616)
    (hy : y < 18446744073709551616) :
    (prng (x, y)).2.1 < 18446744073709551616 ∧ (prng (x, y)).2.2 < 18446744073709551616 := by
  have hp : (18446744073709551616 : Nat) = 2 ^ 64 := by norm_num
  have h1 : x ^^^ ((x <<< 23) % 18446744073709551616) < 2 ^ 64 :=
    Nat.xor_lt_two_pow (hp ▸ hx) (hp ▸ Nat.mod_lt _ (by norm_num))
  have h2 : (x ^^^ ((x <<< 23) % 18446744073709551616)) >>> 17 < 2 ^ 64 := by
    rw [Nat.shiftRight_eq_div_pow]
    exact lt_of_le_of_lt (Nat.div_le_self _ _) h1
  have h3 : y >>> 26 < 2 ^ 64 := by
    rw [Nat.shiftRight_eq_div_pow]
    exact lt_of_le_of_lt (Nat.div_le_self _ _) (hp ▸ hy)
  refine ⟨hy, ?_⟩
  show (x ^^^ ((x <<< 23) % 18446744073709551616)) ^^^ y
      ^^^ ((x ^^^ ((x <<< 23) % 18446744073709551616)) >>> 17) ^^^ (y >>> 26)
      < 18446744073709551616
  rw [hp]
  exact Nat.xor_lt_two_pow (Nat.xor_lt_two_pow (Nat.xor_lt_two_pow h1 (hp ▸ hy)) h2) h3

theorem prng_state_ne_zero (x y : Nat) (hx : x < 18446744073709551616)
    (hne : (x, y) ≠ (0, 0)) : (prng (x, y)).2 ≠ (0, 0) := by
  intro h
  have hy : y = 0 := congrArg Prod.fst h
  have hz : (x ^^^ ((x <<< 23) % 18446744073709551616)) ^^^ y
      ^^^ ((x ^^^ ((x <<< 23) % 18446744073709551616)) >>> 17) ^^^ (y >>> 26) = 0 :=
    congrArg Prod.snd h
  subst hy
  simp only [Nat.xor_zero, Nat.zero_shiftRight] at hz
  have hx1 := xor_shiftRight_eq_zero _ hz
  have hx0 := xor_shiftLeft_eq_zero x hx hx1
  exact hne (by rw [hx0])

theorem prngStateAfter_zero (n : Nat) : prngStateAfter n (0, 0) = (0, 0) := by
  induction n with
  | zero => rfl
  | succ k ih =>
    show (prng (prngStateAfter k (0, 0))).2 = (0, 0)
    rw [ih]
    decide

theorem prngStateAfter_ne_zero (n : Nat) (x y : Nat) (hx : x < 18446744073709551616)
    (hy : y < 18446744073709551616) (hne : (x, y) ≠ (0, 0)) :
    prngStateAfter n (x, y) ≠ (0, 0) ∧ (prngStateAfter n (x, y)).1 < 18446744073709551616 ∧
      (prngStateAfter n (x, y)).2 < 18446744073709551616 := by
  induction n with
  | zero => exact ⟨hne, hx, hy⟩
  | succ k ih =>
    obtain ⟨h1, h2, h3⟩ := ih
    have hb := prng_state_lt _ _ h2 h3
    exact ⟨prng_state_ne_zero _ _ h2 h1, hb.1, hb.2⟩

/-! ## The outputs of the PRNG -/

theorem shiftRight_xor (a b k : Nat) : (a ^^^ b) >>> k = (a >>> k) ^^^ (b >>> k) := by
  apply Nat.eq_of_testBit_eq
  intro i
  simp only [Nat.testBit_xor, Nat.testBit_shiftRight]

theorem shiftLeft_mod_xor (a b k : Nat) :
    ((a ^^^ b) <<< k) % 18446744073709551616
      = ((a <<< k) % 18446744073709551616) ^^^ ((b <<< k) % 18446744073709551616) := by
  have hp : (18446744073709551616 : Nat) = 2 ^ 64 := by norm_num
  rw [hp]
  apply Nat.eq_of_testBit_eq
  intro i
  simp only [Nat.testBit_xor, Nat.testBit_mod_two_pow, Nat.testBit_shiftLeft]
  cases decide (i < 64) <;> cases decide (i ≥ k) <;> simp

/-- The new word of the state is linear over xor in the two old words. -/
theorem prng_word_xor (a b : Nat) :
    (prng (a, b)).2.2 ^^^ (prng (b, a)).2.2 = (prng (a ^^^ b, a ^^^ b)).2.2 := by
  show ((a ^^^ ((a <<< 23) % 18446744073709551616)) ^^^ b
        ^^^ ((a ^^^ ((a <<< 23) % 18446744073709551616)) >>> 17) ^^^ (b >>> 26))
      ^^^ ((b ^^^ ((b <<< 23) % 18446744073709551616)) ^^^ a
        ^^^ ((b ^^^ ((b <<< 23) % 18446744073709551616)) >>> 17) ^^^ (a >>> 26))
      = ((a ^^^ b) ^^^ (((a ^^^ b) <<< 23) % 18446744073709551616)) ^^^ (a ^^^ b)
        ^^^ (((a ^^^ b) ^^^ (((a ^^^ b) <<< 23) % 18446744073709551616)) >>> 17)
        ^^^ ((a ^^^ b) >>> 26)
  rw [shiftLeft_mod_xor a b 23]
  generalize (a <<< 23) % 18446744073709551616 = la
  generalize (b <<< 23) % 18446744073709551616 = lb
  rw [shiftRight_xor (a ^^^ b) (la ^^^ lb) 17, shiftRight_xor a b 17, shiftRight_xor la lb 17,
    shiftRight_xor a b 26, shiftRight_xor a la 17, shiftRight_xor b lb 17]
  generalize a >>> 17 = a17
  generalize b >>> 17 = b17
  generalize la >>> 17 = la17
  generalize lb >>> 17 = lb17
  generalize a >>> 26 = a26
  generalize b >>> 26 = b26
  ac_rfl

/-- Two numbers that add up to `2^n - 1` have complementary bits. -/
theorem xor_of_add_eq_pred_two_pow (n : Nat) :
    ∀ a b : Nat, a + b = 2 ^ n - 1 → a ^^^ b = 2 ^ n - 1 := by
  induction n with
  | zero =>
    intro a b h
    have ha : a = 0 := by simp at h; omega
    have hb : b = 0 := by simp at h; omega
    subst ha hb
    rfl
  | succ n ih =>
    intro a b h
    have ht : 2 ^ (n + 1) = 2 * 2 ^ n := by rw [pow_succ]; omega
    have hpos : 0 < 2 ^ n := Nat.two_pow_pos n
    rw [ht] at h ⊢
    have h2 : a / 2 + b / 2 = 2 ^ n - 1 := by omega
    have hx := ih (a / 2) (b / 2) h2
    have hd : (a ^^^ b) / 2 = 2 ^ n - 1 := by rw [Nat.xor_div_two, hx]
    have hm : (a ^^^ b) % 2 = 1 := by rw [Nat.xor_mod_two_eq]; omega
    omega

/-- Two positive numbers that add up to `2^n` differ in exactly the bits above the
lowest bit set in them. -/
theorem xor_of_add_eq_two_pow (n : Nat) :
    ∀ a b : Nat, 0 < a → 0 < b → a + b = 2 ^ n →
      ∃ k, k < n ∧ a ^^^ b = 2 ^ n - 2 ^ (k + 1) := by
  induction n with
  | zero =>
    intro a b ha hb h
    simp at h
    omega
  | succ n ih =>
    intro a b ha hb h
    have ht : 2 ^ (n + 1) = 2 * 2 ^ n := by rw [pow_succ]; omega
    have hpos : 0 < 2 ^ n := Nat.two_pow_pos n
    have hm : (a ^^^ b) % 2 = 0 := by rw [Nat.xor_mod_two_eq]; omega
    by_cases hodd : a % 2 = 1
    · have h2 : a / 2 + b / 2 = 2 ^ n - 1 := by omega
      have hx := xor_of_add_eq_pred_two_pow n (a / 2) (b / 2) h2
      have hd : (a ^^^ b) / 2 = 2 ^ n - 1 := by rw [Nat.xor_div_two, hx]
      refine ⟨0, by omega, ?_⟩
      rw [ht]
      simp only [Nat.zero_add, pow_one]
      omega
    · have h2 : a / 2 + b / 2 = 2 ^ n := by omega
      obtain ⟨k, hk, hx⟩ := ih (a / 2) (b / 2) (by omega) (by omega) h2
      have hd : (a ^^^ b) / 2 = 2 ^ n - 2 ^ (k + 1) := by rw [Nat.xor_div_two, hx]
      refine ⟨k + 1, by omega, ?_⟩
      have hk2 : 2 ^ (k + 1 + 1) = 2 * 2 ^ (k + 1) := by rw [pow_succ]; omega
      rw [ht, hk2]
      omega

/-- No word whose set bits are exactly those above some position is kept by the
step that would follow an all-zero output. -/
theorem prng_word_mask (k : Nat) (hk : k < 63) :
    (prng (2 ^ 64 - 2 ^ (k + 1), 2 ^ 64 - 2 ^ (k + 1))).2.2 ≠ 2 ^ 64 - 2 ^ (k + 1) := by
  revert k
  decide

/-- From a state of two 64-bit words, three steps in a row in which the new word and
the word before it add up to 0 modulo `2^64` start from the state (0, 0) only. -/
theorem prng_words_three_zero (x y : Nat) (hx : x < 18446744073709551616)
    (hy : y < 18446744073709551616)
    (o0 : ((prng (x, y)).2.2 + y) % 18446744073709551616 = 0)
    (o1 : ((prng (y, (prng (x, y)).2.2)).2.2 + (prng (x, y)).2.2) % 18446744073709551616
      = 0)
    (o2 : ((prng ((prng (x, y)).2.2, (prng (y, (prng (x, y)).2.2)).2.2)).2.2
      + (prng (y, (prng (x, y)).2.2)).2.2) % 18446744073709551616 = 0) :
    (x, y) = (0, 0) := by
  have hp : (2 : Nat) ^ 64 = 18446744073709551616 := by norm_num
  have b0 := (prng_state_lt x y hx hy).2
  have b1 := (prng_state_lt y _ hy b0).2
  have b2 := (prng_state_lt _ _ b0 b1).2
  generalize hz0 : (prng (x, y)).2.2 = z0 at b0 b1 b2 o0 o1 o2
  generalize hz1 : (prng (y, z0)).2.2 = z1 at b1 b2 o1 o2
  generalize hz2 : (prng (z0, z1)).2.2 = z2 at b2 o2
  have e1 : z1 = y := by omega
  have e2 : z2 = z0 := by omega
  subst e1 e2
  have hlin := prng_word_xor z1 z2
  rw [hz1, hz2] at hlin
  by_cases hy0 : z1 = 0
  · have hz : z2 = 0 := by omega
    subst hy0 hz
    by_contra hne
    exact prng_state_ne_zero x 0 hx hne (Prod.ext rfl hz0)
  · obtain ⟨k, hk, hxor⟩ := xor_of_add_eq_two_pow 64 z1 z2 (by omega) (by omega) (by omega)
    by_cases hk63 : k < 63
    · rw [hxor] at hlin
      exact absurd hlin.symm (prng_word_mask k hk63)
    · have hk' : k = 63 := by omega
      subst hk'
      have hzero : z1 ^^^ z2 = 0 := by rw [hxor]; norm_num
      have heq : z1 = z2 := Nat.xor_eq_zero.mp hzero
      have hv : z1 = 9223372036854775808 := by omega
      subst heq
      subst hv
      have hfix : (prng (9223372036854775808, 9223372036854775808)).2.2
          ≠ 9223372036854775808 := by decide
      exact absurd hz1 hfix

theorem prngStateAfter_add (m j : Nat) (st : Nat × Nat) :
    prngStateAfter (m + j) st = prngStateAfter j (prngStateAfter m st) := by
  induction j with
  | zero => rfl
  | succ k ih =>
    show (prng (prngStateAfter (m + k) st)).2 = (prng (prngStateAfter k (prngStateAfter m st))).2
    rw [ih]

/-- C19: the xorshift+ PRNG never degenerates. From every state of two 64-bit words
other than (0, 0), `prng` leaves a state of two 64-bit words other than (0, 0), and
so does every number of calls; from the state (0, 0) `prng` returns 0 and leaves the
state (0, 0), so that every later call returns 0 as well. Only the seed (0, 0) gives
that sequence: from every other state of two 64-bit words one of the first three
values returned is not 0, and so is one of every three values returned in a row. -/
theorem prng_never_degenerates (x y : Nat) (hx : x < 18446744073709551616)
    (hy : y < 18446744073709551616) (hne : (x, y) ≠ (0, 0)) :
    ((prng (x, y)).2 ≠ (0, 0) ∧ (prng (x, y)).2.1 < 18446744073709551616 ∧
      (prng (x, y)).2.2 < 18446744073709551616) ∧
    (∀ n, prngStateAfter n (x, y) ≠ (0, 0)) ∧
    prng (0, 0) = (0, (0, 0)) ∧
    (∀ n, prngStateAfter n (0, 0) = (0, 0) ∧ prngOutput n (0, 0) = 0) ∧
    (∃ n, n < 3 ∧ prngOutput n (x, y) ≠ 0) ∧
    (∀ m, ∃ n, m ≤ n ∧ n < m + 3 ∧ prngOutput n (x, y) ≠ 0) := by
  have hthree : ∀ m, ∃ n, m ≤ n ∧ n < m + 3 ∧ prngOutput n (x, y) ≠ 0 := by
    intro m
    obtain ⟨h1, h2, h3⟩ := prngStateAfter_ne_zero m x y hx hy hne
    by_contra hall
    have hz : ∀ j, j < 3 → prngOutput j (prngStateAfter m (x, y)) = 0 := by
      intro j hj
      by_contra hj0
      refine hall ⟨m + j, by omega, by omega, ?_⟩
      show (prng (prngStateAfter (m + j) (x, y))).1 ≠ 0
      rw [prngStateAfter_add]
      exact hj0
    generalize prngStateAfter m (x, y) = st at h1 h2 h3 hz
    obtain ⟨a, b⟩ := st
    have o0 : ((prng (a, b)).2.2 + b) % 18446744073709551616 = 0 := hz 0 (by omega)
    have o1 : ((prng (b, (prng (a, b)).2.2)).2.2 + (prng (a, b)).2.2) % 18446744073709551616
        = 0 := hz 1 (by omega)
    have o2 : ((prng ((prng (a, b)).2.2, (prng (b, (prng (a, b)).2.2)).2.2)).2.2
        + (prng (b, (prng (a, b)).2.2)).2.2) % 18446744073709551616 = 0 := hz 2 (by omega)
    exact h1 (prng_words_three_zero a b h2 h3 o0 o1 o2)
  refine ⟨⟨prng_state_ne_zero x y hx hne, (prng_state_lt x y hx hy).1,
    (prng_state_lt x y hx hy).2⟩, fun n => (prngStateAfter_ne_zero n x y hx hy hne).1,
    by decide, fun n => ⟨prngStateAfter_zero n, ?_⟩, ?_, hthree⟩
  · show (prng (prngStateAfter n (0, 0))).1 = 0
    rw [prngStateAfter_zero]
    decide
  · obtain ⟨n, _, h2, h3⟩ := hthree 0
    exact ⟨n, by omega, h3⟩

/-- Witness of `prng_never_degenerates`: the state (1, 0), which `prng` leaves as
(0, 8388673), returning 8388673. -/
theorem prng_never_degenerates_witness :
    (1 : Nat) < 18446744073709551616 ∧ ((1 : Nat), (0 : Nat)) ≠ (0, 0) ∧
    (prng (1, 0)).2 ≠ (0, 0) ∧ prng (1, 0) = (8388673, (0, 8388673)) ∧
    prngOutput 0 (1, 0) = 8388673 :=
  ⟨by decide, by decide,
    (prng_never_degenerates 1 0 (by decide) (by decide) (by decide)).1.1, by decide,
    by decide⟩

/-! ## Local interface addresses -/

theorem Node.localInterfaceCall_keeps (pc : PathChecks) (s : Node) (c : LocalInterfaceCall)
    (h : s.directPaths.Nodup ∧ ∀ a ∈ s.directPaths, pc.isAddressValidForPath a = true) :
    (s.localInterfaceCall pc c).directPaths.Nodup ∧
      ∀ a ∈ (s.localInterfaceCall pc c).directPaths, pc.isAddressValidForPath a = true := by
  obtain ⟨h1, h2⟩ := h
  cases c with
  | clear => simp [Node.localInterfaceCall, Node.clearLocalInterfaceAddresses]
  | add addr =>
    simp only [Node.localInterfaceCall, Node.addLocalInterfaceAddress]
    by_cases hv : pc.isAddressValidForPath addr = true
    · by_cases hm : addr ∈ s.directPaths
      · simp [hv, hm, h1]
        exact h2
      · simp only [hv, hm, if_true, not_false_eq_true]
        refine ⟨List.Nodup.append h1 (List.nodup_singleton addr) (by simpa using hm), ?_⟩
        intro a ha
        rcases List.mem_append.mp ha with h | h
        · exact h2 a h
        · rw [List.mem_singleton.mp h]; exact hv
    · simp [hv, h1]
      exact h2

theorem Node.localInterfaceCalls_keep (pc : PathChecks) (calls : List LocalInterfaceCall)
    (s : Node)
    (h : s.directPaths.Nodup ∧ ∀ a ∈ s.directPaths, pc.isAddressValidForPath a = true) :
    (calls.foldl (Node.localInterfaceCall pc) s).directPaths.Nodup ∧
      ∀ a ∈ (calls.foldl (Node.localInterfaceCall pc) s).directPaths,
        pc.isAddressValidForPath a = true := by
  induction calls generalizing s with
  | nil => exact h
  | cons c rest ih => exact ih _ (Node.localInterfaceCall_keeps pc s c h)

/-- C17: in every state reached from an empty local-interface list by calls of
`addLocalInterfaceAddress` and `clearLocalInterfaceAddresses`, the list has no
duplicates and holds only addresses valid for a path; in such a state
`addLocalInterfaceAddress(a)` returns 1 exactly when `a` is valid for a path and not
yet in the list, and then appends `a`; otherwise it returns 0 and changes nothing;
`clearLocalInterfaceAddresses` leaves the list empty. -/
theorem local_interface_list (pc : PathChecks) (s0 : Node) (calls : List LocalInterfaceCall)
    (h0 : s0.directPaths = []) :
    (calls.foldl (Node.localInterfaceCall pc) s0).directPaths.Nodup ∧
    (∀ a ∈ (calls.foldl (Node.localInterfaceCall pc) s0).directPaths,
      pc.isAddressValidForPath a = true) ∧
    (∀ a,
      (((calls.foldl (Node.localInterfaceCall pc) s0).addLocalInterfaceAddress pc a).1 = 1 ↔
        (pc.isAddressValidForPath a = true ∧
          a ∉ (calls.foldl (Node.localInterfaceCall pc) s0).directPaths)) ∧
      (pc.isAddressValidForPath a = true ∧
          a ∉ (calls.foldl (Node.localInterfaceCall pc) s0).directPaths →
        (calls.foldl (Node.localInterfaceCall pc) s0).addLocalInterfaceAddress pc a
          = (1, { calls.foldl (Node.localInterfaceCall pc) s0 with
                    directPaths :=
                      (calls.foldl (Node.localInterfaceCall pc) s0).directPaths ++ [a] })) ∧
      (¬ (pc.isAddressValidForPath a = true ∧
          a ∉ (calls.foldl (Node.localInterfaceCall pc) s0).directPaths) →
        (calls.foldl (Node.localInterfaceCall pc) s0).addLocalInterfaceAddress pc a
          = (0, calls.foldl (Node.localInterfaceCall pc) s0))) ∧
    (calls.foldl (Node.localInterfaceCall pc) s0).clearLocalInterfaceAddresses.directPaths
      = [] := by
  have hinv := Node.localInterfaceCalls_keep pc calls s0 (by simp [h0])
  refine ⟨hinv.1, hinv.2, ?_, rfl⟩
  intro a
  generalize calls.foldl (Node.localInterfaceCall pc) s0 = s
  by_cases hv : pc.isAddressValidForPath a = true
  · by_cases hm : a ∈ s.directPaths
    · simp [Node.addLocalInterfaceAddress, hv, hm]
    · simp [Node.addLocalInterfaceAddress, hv, hm]
  · simp [Node.addLocalInterfaceAddress, hv]

/-- Witness of `local_interface_list`: a fresh node after adding an IPv4 endpoint
twice and an invalid address once holds the endpoint once. -/
theorem local_interface_list_witness :
    freshNode.directPaths = [] ∧
    ([LocalInterfaceCall.add endpointA, LocalInterfaceCall.add endpointNil,
        LocalInterfaceCall.add endpointA].foldl
      (Node.localInterfaceCall permissiveChecks) freshNode).directPaths = [endpointA] ∧
    ([LocalInterfaceCall.add endpointA, LocalInterfaceCall.add endpointNil,
        LocalInterfaceCall.add endpointA].foldl
      (Node.localInterfaceCall permissiveChecks) freshNode).directPaths.Nodup :=
  ⟨rfl, by decide,
    (local_interface_list permissiveChecks freshNode
      [LocalInterfaceCall.add endpointA, LocalInterfaceCall.add endpointNil,
        LocalInterfaceCall.add endpointA] rfl).1⟩

/-! ## Path checks -/

theorem staticIps_foldl (c : InetAddress → Bool) (ips : List InetAddress) (r : Bool) :
    ips.foldl (fun r ip => if c ip then false else r) r = (r && !ips.any c) := by
  induction ips generalizing r with
  | nil => simp
  | cons ip rest ih =>
    simp only [List.foldl_cons, List.any_cons, ih]
    cases c ip <;> cases r <;> simp

theorem staticIpScan_eq (pc : PathChecks) (s : Node) (remoteAddress : InetAddress) (r : Bool) :
    staticIpScan pc s remoteAddress r
      = (r && !s.networks.any (fun e =>
          e.2.hasConfig && e.2.staticIps.any (fun ip => pc.containsAddress ip remoteAddress))) := by
  unfold staticIpScan
  generalize s.networks = nws
  induction nws generalizing r with
  | nil => simp
  | cons e rest ih =>
    rw [List.foldl_cons, ih, List.any_cons]
    cases hc : e.2.hasConfig
    · simp
    · simp only [if_true, staticIps_foldl, Bool.true_and]
      cases r <;> cases e.2.staticIps.any (fun ip => pc.containsAddress ip remoteAddress) <;>
        simp

/-- The value and the calls of the active form, by cases on the checks. -/
theorem Node.shouldUsePathForZeroTierTraffic_eq (pc : PathChecks) (s : Node) (ztaddr : Address)
    (localSocket : Int) (remoteAddress : InetAddress) :
    s.shouldUsePathForZeroTierTraffic pc ztaddr localSocket remoteAddress
      = if (pc.isAddressValidForPath remoteAddress &&
            !pc.isProhibitedEndpoint ztaddr remoteAddress &&
            !s.networks.any (fun e => e.2.hasConfig &&
              e.2.staticIps.any (fun ip => pc.containsAddress ip remoteAddress))) = true then
          match pc.pathCheckFunction with
          | some f =>
            (decide (f ztaddr localSocket remoteAddress ≠ 0),
              [PathCall.isProhibitedEndpoint ztaddr remoteAddress,
                PathCall.pathCheckFunction ztaddr localSocket remoteAddress] ++
                (if f ztaddr localSocket remoteAddress ≠ 0 then []
                 else [PathCall.fprintf ztaddr remoteAddress]))
          | none => (true, [PathCall.isProhibitedEndpoint ztaddr remoteAddress])
        else
          (false, [PathCall.isProhibitedEndpoint ztaddr remoteAddress,
            PathCall.fprintf ztaddr remoteAddress]) := by
  unfold Node.shouldUsePathForZeroTierTraffic
  simp only [staticIpScan_eq]
  cases hv : pc.isAddressValidForPath remoteAddress <;>
    cases hp : pc.isProhibitedEndpoint ztaddr remoteAddress <;>
    cases hs : s.networks.any (fun e => e.2.hasConfig &&
      e.2.staticIps.any (fun ip => pc.containsAddress ip remoteAddress)) <;>
    simp
  cases hc : pc.pathCheckFunction with
  | none => simp
  | some f =>
    by_cases hf : f ztaddr localSocket remoteAddress = 0 <;> simp [hf]

/-- C14: `shouldUsePathForZeroTierTraffic` returns true exactly when the remote
address is valid for a path, topology does not mark the endpoint prohibited, no
joined network that has a config has a static IP range containing the remote
address, and the host's `pathCheckFunction` is absent or returns nonzero; in
particular it returns false whenever a static IP range of a joined network (with
config) contains the remote address, whatever the callback answers. -/
theorem shouldUsePath_iff (pc : PathChecks) (s : Node) (ztaddr : Address) (localSocket : Int)
    (remoteAddress : InetAddress) :
    ((s.shouldUsePathForZeroTierTraffic pc ztaddr localSocket remoteAddress).1 = true ↔
      (pc.isAddressValidForPath remoteAddress = true ∧
        pc.isProhibitedEndpoint ztaddr remoteAddress = false ∧
        (∀ e ∈ s.networks, e.2.hasConfig = true →
          ∀ ip ∈ e.2.staticIps, pc.containsAddress ip remoteAddress = false) ∧
        (pc.pathCheckFunction = none ∨
          ∃ f, pc.pathCheckFunction = some f ∧ f ztaddr localSocket remoteAddress ≠ 0))) ∧
    ((∃ e ∈ s.networks, e.2.hasConfig = true ∧
        ∃ ip ∈ e.2.staticIps, pc.containsAddress ip remoteAddress = true) →
      (s.shouldUsePathForZeroTierTraffic pc ztaddr localSocket remoteAddress).1 = false) := by
  have hany : s.networks.any (fun e => e.2.hasConfig &&
        e.2.staticIps.any (fun ip => pc.containsAddress ip remoteAddress)) = false ↔
      ∀ e ∈ s.networks, e.2.hasConfig = true →
        ∀ ip ∈ e.2.staticIps, pc.containsAddress ip remoteAddress = false := by
    simp [List.any_eq_false]
  rw [Node.shouldUsePathForZeroTierTraffic_eq]
  constructor
  · cases hv : pc.isAddressValidForPath remoteAddress <;>
      cases hp : pc.isProhibitedEndpoint ztaddr remoteAddress <;>
      cases hs : s.networks.any (fun e => e.2.hasConfig &&
        e.2.staticIps.any (fun ip => pc.containsAddress ip remoteAddress)) <;>
      simp only [← hany, hs] <;> simp
    cases hc : pc.pathCheckFunction <;> simp
  · rintro ⟨e, he, hcfg, ip, hip, hcon⟩
    have hs : s.networks.any (fun e => e.2.hasConfig &&
        e.2.staticIps.any (fun ip => pc.containsAddress ip remoteAddress)) = true := by
      rw [List.any_eq_true]
      exact ⟨e, he, by simp [hcfg]; exact ⟨ip, hip, hcon⟩⟩
    simp [hs]

/-- The value and the calls of the commented-out form, by cases on the checks. -/
theorem Node.shouldUsePathForZeroTierTraffic_commentedOut_eq (pc : PathChecks) (s : Node)
    (ztaddr : Address) (localSocket : Int) (remoteAddress : InetAddress) :
    callbackCallsOf
        (s.shouldUsePathForZeroTierTraffic_commentedOut pc ztaddr localSocket remoteAddress).2
      = (if (pc.isAddressValidForPath remoteAddress &&
            !pc.isProhibitedEndpoint ztaddr remoteAddress &&
            !s.networks.any (fun e => e.2.hasConfig &&
              e.2.staticIps.any (fun ip => pc.containsAddress ip remoteAddress))) = true then
          match pc.pathCheckFunction with
          | some _ => [PathCall.pathCheckFunction ztaddr localSocket remoteAddress]
          | none => []
        else []) ∧
    (s.shouldUsePathForZeroTierTraffic_commentedOut pc ztaddr localSocket remoteAddress).1
      = (if (pc.isAddressValidForPath remoteAddress &&
            !pc.isProhibitedEndpoint ztaddr remoteAddress &&
            !s.networks.any (fun e => e.2.hasConfig &&
              e.2.staticIps.any (fun ip => pc.containsAddress ip remoteAddress))) = true then
          match pc.pathCheckFunction with
          | some f => decide (f ztaddr localSocket remoteAddress ≠ 0)
          | none => true
        else false) := by
  unfold Node.shouldUsePathForZeroTierTraffic_commentedOut
  cases hv : pc.isAddressValidForPath remoteAddress <;>
    cases hp : pc.isProhibitedEndpoint ztaddr remoteAddress <;>
    cases hs : s.networks.any (fun e => e.2.hasConfig &&
      e.2.staticIps.any (fun ip => pc.containsAddress ip remoteAddress)) <;>
    simp [callbackCallsOf]
  cases hc : pc.pathCheckFunction <;> simp

/-- C18 (as amended): the active form of `shouldUsePathForZeroTierTraffic` invokes
the host's `pathCheckFunction` exactly when the callback is present and no earlier
check (invalid address, prohibited endpoint, static IP range containing the remote
address) has decided to deny, because `result && (...)` does not evaluate its second
operand once `result` is false. It returns the same value as the commented-out
early-return form and invokes the callback in the same cases; the two forms differ
in that the active form queries `isProhibitedEndpoint` in every call and prints a
line whenever it denies. -/
theorem active_form_matches_commented_out (pc : PathChecks) (s : Node) (ztaddr : Address)
    (localSocket : Int) (remoteAddress : InetAddress) :
    (s.shouldUsePathForZeroTierTraffic pc ztaddr localSocket remoteAddress).1
      = (s.shouldUsePathForZeroTierTraffic_commentedOut pc ztaddr localSocket remoteAddress).1 ∧
    callbackCallsOf (s.shouldUsePathForZeroTierTraffic pc ztaddr localSocket remoteAddress).2
      = callbackCallsOf
          (s.shouldUsePathForZeroTierTraffic_commentedOut pc ztaddr localSocket remoteAddress).2 ∧
    callbackCallsOf (s.shouldUsePathForZeroTierTraffic pc ztaddr localSocket remoteAddress).2
      = (if (pc.isAddressValidForPath remoteAddress &&
            !pc.isProhibitedEndpoint ztaddr remoteAddress &&
            !s.networks.any (fun e => e.2.hasConfig &&
              e.2.staticIps.any (fun ip => pc.containsAddress ip remoteAddress))
            && pc.pathCheckFunction.isSome) = true then
          [PathCall.pathCheckFunction ztaddr localSocket remoteAddress]
        else []) ∧
    PathCall.isProhibitedEndpoint ztaddr remoteAddress
      ∈ (s.shouldUsePathForZeroTierTraffic pc ztaddr localSocket remoteAddress).2 ∧
    ((s.shouldUsePathForZeroTierTraffic pc ztaddr localSocket remoteAddress).1 = false ↔
      PathCall.fprintf ztaddr remoteAddress
        ∈ (s.shouldUsePathForZeroTierTraffic pc ztaddr localSocket remoteAddress).2) ∧
    PathCall.fprintf ztaddr remoteAddress
      ∉ (s.shouldUsePathForZeroTierTraffic_commentedOut pc ztaddr localSocket remoteAddress).2 ∧
    (pc.isAddressValidForPath remoteAddress = false →
      (s.shouldUsePathForZeroTierTraffic_commentedOut pc ztaddr localSocket remoteAddress).2
        = []) := by
  obtain ⟨c1, c2⟩ :=
    Node.shouldUsePathForZeroTierTraffic_commentedOut_eq pc s ztaddr localSocket remoteAddress
  have ha := Node.shouldUsePathForZeroTierTraffic_eq pc s ztaddr localSocket remoteAddress
  have hno : PathCall.fprintf ztaddr remoteAddress
      ∉ (s.shouldUsePathForZeroTierTraffic_commentedOut pc ztaddr localSocket
          remoteAddress).2 := by
    unfold Node.shouldUsePathForZeroTierTraffic_commentedOut
    split_ifs <;> try simp
    cases pc.pathCheckFunction <;> simp
  have hnil : pc.isAddressValidForPath remoteAddress = false →
      (s.shouldUsePathForZeroTierTraffic_commentedOut pc ztaddr localSocket remoteAddress).2
        = [] := by
    intro h
    simp [Node.shouldUsePathForZeroTierTraffic_commentedOut, h]
  rw [c1, c2, ha]
  refine ⟨?_, ?_, ?_, ?_, ?_, hno, hnil⟩ <;>
    cases hv : pc.isAddressValidForPath remoteAddress <;>
    cases hp : pc.isProhibitedEndpoint ztaddr remoteAddress <;>
    cases hs : s.networks.any (fun e => e.2.hasConfig &&
      e.2.staticIps.any (fun ip => pc.containsAddress ip remoteAddress)) <;>
    simp [callbackCallsOf] <;>
    cases hc : pc.pathCheckFunction <;> simp

/-- C18 (counterexample to the claim as stated): the remote address is not valid for
a path and the host's callback is present. The active form denies without invoking
the callback: its calls are the query to topology and the printed line. The same
holds when a static IP range of a joined network contains the remote address. -/
theorem active_form_counterexample :
    permissiveChecks.pathCheckFunction.isSome = true ∧
    permissiveChecks.isAddressValidForPath endpointNil = false ∧
    freshNode.shouldUsePathForZeroTierTraffic permissiveChecks 7 (-1) endpointNil
      = (false, [PathCall.isProhibitedEndpoint 7 endpointNil, PathCall.fprintf 7 endpointNil]) ∧
    callbackCallsOf
      (freshNode.shouldUsePathForZeroTierTraffic permissiveChecks 7 (-1) endpointNil).2 = [] ∧
    nodeWithStaticIp.shouldUsePathForZeroTierTraffic permissiveChecks 7 (-1) endpointA
      = (false, [PathCall.isProhibitedEndpoint 7 endpointA, PathCall.fprintf 7 endpointA]) ∧
    callbackCallsOf
      (freshNode.shouldUsePathForZeroTierTraffic_commentedOut permissiveChecks 7 (-1)
        endpointNil).2 = [] := by
  decide

/-! ## User messages -/

/-- C15: `sendUserMessage` refuses to send to the node's own address: for every type
and payload it then returns 0 and hands no packet to the switch (the state is
unchanged). For every other destination, when no collaborator fails, it returns 1
and hands exactly one packet to the switch, with verb `USER_MESSAGE` and with the
payload `typeId` followed by the data bytes, to be sent encrypted. -/
theorem sendUserMessage_refuses_self (RR : RuntimeEnvironment) (s : Node) (dest typeId : Nat)
    (data : List Nat) (hno : RR.throwsAt = none) :
    s.sendUserMessage RR s.identity.address typeId data = (0, s) ∧
    (dest ≠ s.identity.address →
      (s.sendUserMessage RR dest typeId data).1 = 1 ∧
      (s.sendUserMessage RR dest typeId data).2.effects
        = s.effects ++
            [Effect.send
              { dest := dest, source := s.identity.address, verb := Verb.USER_MESSAGE,
                payload := [Field.u64 typeId, Field.bytes data], compressed := true } true] ∧
      sentOf (s.sendUserMessage RR dest typeId data).2.effects
        = sentOf s.effects ++
            [{ dest := dest, source := s.identity.address, verb := Verb.USER_MESSAGE,
               payload := [Field.u64 typeId, Field.bytes data], compressed := true }]) := by
  refine ⟨by simp [Node.sendUserMessage], ?_⟩
  intro hd
  have hd' : ¬ s.identity.address = dest := fun h => hd h.symm
  simp [Node.sendUserMessage, hno, hd', Node.emit, sentOf, List.filterMap_append]

/-- Witness of `sendUserMessage_refuses_self`: a message of type 42 to the node's own
address `0x1122334455` is refused; the same message to another address is sent. -/
theorem sendUserMessage_refuses_self_witness :
    (calmEnvironment emptyTopology 100).throwsAt = none ∧
    nodeWithIdentity.sendUserMessage (calmEnvironment emptyTopology 100) 0x1122334455 42
      [1, 2, 3] = (0, nodeWithIdentity) ∧
    (nodeWithIdentity.sendUserMessage (calmEnvironment emptyTopology 100) 0x66 42 [1, 2, 3]).1
      = 1 :=
  ⟨rfl,
    (sendUserMessage_refuses_self (calmEnvironment emptyTopology 100) nodeWithIdentity 0x66 42
      [1, 2, 3] rfl).1,
    ((sendUserMessage_refuses_self (calmEnvironment emptyTopology 100) nodeWithIdentity 0x66 42
      [1, 2, 3] rfl).2 (by decide)).1⟩

/-! ## Sending network configs -/

theorem configChunks_spec (M : Nat) (dict : List Nat) (total : Nat) (hM : 1 ≤ M)
    (hS : total < 4294967296) :
    ∀ fuel idx, idx ≤ total → total - idx ≤ fuel →
      ∃ chunks, configChunks M dict total fuel idx = some chunks ∧
        (∀ ch ∈ chunks, 1 ≤ ch.chunkLen ∧ ch.chunkLen ≤ M ∧
          ch.chunkIndex + ch.chunkLen ≤ total ∧
          ch.data = (dict.drop ch.chunkIndex).take ch.chunkLen) ∧
        (chunks.map (fun ch => ch.chunkLen)).sum = total - idx ∧
        (∀ i ch, chunks[i]? = some ch →
          ch.chunkIndex = idx + ((chunks.take i).map (fun ch => ch.chunkLen)).sum) := by
  intro fuel
  induction fuel with
  | zero =>
    intro idx h1 h2
    refine ⟨[], ?_, by simp, by simp; omega, by simp⟩
    have : ¬ idx < total := by omega
    simp [configChunks, this]
  | succ k ih =>
    intro idx h1 h2
    by_cases hlt : idx < total
    · have hmod : (idx + min (total - idx) M) % 4294967296 = idx + min (total - idx) M := by
        apply Nat.mod_eq_of_lt
        omega
      obtain ⟨rest, r1, r2, r3, r4⟩ := ih (idx + min (total - idx) M) (by omega) (by omega)
      refine ⟨{ chunkIndex := idx, chunkLen := min (total - idx) M,
                data := (dict.drop idx).take (min (total - idx) M) } :: rest, ?_, ?_, ?_, ?_⟩
      · simp [configChunks, hlt, hmod, r1]
      · intro ch hch
        rcases List.mem_cons.mp hch with h | h
        · subst h
          refine ⟨?_, ?_, ?_, rfl⟩ <;> simp only [] <;> omega
        · exact r2 ch h
      · simp only [List.map_cons, List.sum_cons, r3]
        omega
      · intro i ch hi
        cases i with
        | zero =>
          simp only [List.getElem?_cons_zero, Option.some.injEq] at hi
          subst hi
          simp
        | succ j =>
          simp only [List.getElem?_cons_succ] at hi
          have := r4 j ch hi
          simp only [List.take_succ_cons, List.map_cons, List.sum_cons]
          omega
    · refine ⟨[], ?_, by simp, by simp; omega, by simp⟩
      simp [configChunks, hlt]

theorem configChunks_step (M : Nat) (dict : List Nat) (total fuel idx : Nat)
    (h : idx < total) :
    configChunks M dict total (fuel + 1) idx
      = (configChunks M dict total fuel ((idx + min (total - idx) M) % 4294967296)).map
          (fun rest =>
            { chunkIndex := idx, chunkLen := min (total - idx) M,
              data := (dict.drop idx).take (min (total - idx) M) } :: rest) := by
  rw [configChunks]
  simp only [h, if_true]
  cases configChunks M dict total fuel ((idx + min (total - idx) M) % 4294967296) <;> rfl

theorem configChunks_three (M : Nat) (dict : List Nat) (total fuel : Nat) (hM : 7 ≤ M)
    (ht : total = 2 * M + 7) (hS : total < 4294967296) (hf : 3 ≤ fuel) :
    (configChunks M dict total fuel 0).map (fun l => l.map (fun ch => ch.chunkLen))
      = some [M, M, 7] := by
  obtain ⟨k, rfl⟩ : ∃ k, fuel = k + 3 := ⟨fuel - 3, by omega⟩
  have m1 : min (total - 0) M = M := by omega
  have m2 : min (total - M) M = M := by omega
  have m3 : min (total - (M + M)) M = 7 := by omega
  have k1 : M % 4294967296 = M := Nat.mod_eq_of_lt (by omega)
  have k2 : (M + M) % 4294967296 = M + M := Nat.mod_eq_of_lt (by omega)
  have k3 : (M + M + 7) % 4294967296 = M + M + 7 := Nat.mod_eq_of_lt (by omega)
  have l1 : (0 : Nat) < total := by omega
  have l2 : M < total := by omega
  have l3 : M + M < total := by omega
  have l4 : ¬ M + M + 7 < total := by omega
  have hdone : ∀ fuel, configChunks M dict total fuel (M + M + 7) = some [] := by
    intro fuel
    cases fuel <;> simp [configChunks, l4]
  have s3 : configChunks M dict total (k + 1) (M + M)
      = some [{ chunkIndex := M + M, chunkLen := 7, data := (dict.drop (M + M)).take 7 }] := by
    rw [configChunks_step M dict total k (M + M) l3, m3, k3, hdone]
    rfl
  have s2 : configChunks M dict total (k + 1 + 1) M
      = some [{ chunkIndex := M, chunkLen := M, data := (dict.drop M).take M },
          { chunkIndex := M + M, chunkLen := 7, data := (dict.drop (M + M)).take 7 }] := by
    rw [configChunks_step M dict total (k + 1) M l2, m2, k2, s3]
    rfl
  show Option.map _ (configChunks M dict total (k + 1 + 1 + 1) 0) = _
  rw [configChunks_step M dict total (k + 1 + 1) 0 l1, m1, Nat.zero_add, k1, s2]
  rfl

/-- C11: `ncSendConfig` to a destination other than the node itself, for a config
whose dictionary has `S` bytes, with `M` the maximum packet length minus the payload
index plus 256 (`1 ≤ M < 2^16`, `S < 2^32`): the call returns, and the packets handed
to the switch, in order, are one packet per chunk of a list of chunks whose lengths
are each in `[1, M]` and sum to `S`, the chunk index of each being the sum of the
lengths before it and its bytes the bytes of the dictionary from that index on. The
packet of a chunk goes to the destination, with the verb `NETWORK_CONFIG` (or `OK`
and the request ID in front when the config answers a request), and carries, in
order, the network ID, the chunk length, the bytes of the chunk, the flags 0, the
`configUpdateId`, `totalSize = S`, the chunk index and the signature of these
values; the `configUpdateId` is the same in all packets: the PRNG output, or 1 when
that is 0, and so never 0. For `S = 0` no packet is emitted; for `S = 2M + 7` (with
`M ≥ 7`) three packets are emitted, with chunk lengths `(M, M, 7)`. -/
theorem ncSendConfig_chunking (ip : IdentityPrimitives) (pc : ProtocolConstants) (s : Node)
    (nwid requestPacketId : Nat) (destination : Address) (d : List Nat)
    (hM : pc.ZT_PACKET_IDX_PAYLOAD + 256 < pc.ZT_PROTO_MAX_PACKET_LENGTH ∧
      pc.ZT_PROTO_MAX_PACKET_LENGTH - (pc.ZT_PACKET_IDX_PAYLOAD + 256) < 65536)
    (hS : d.length < 4294967296) (hdest : destination ≠ s.identity.address) :
    ∃ (s' : Node) (chunks : List ConfigChunk) (configUpdateId : Nat),
      s.ncSendConfig ip pc nwid requestPacketId destination (some d) = some s' ∧
      configUpdateId = (if (prng s.prngState).1 = 0 then 1 else (prng s.prngState).1) ∧
      configUpdateId ≠ 0 ∧
      s'.prngState = (prng s.prngState).2 ∧
      s'.effects = s.effects ++ chunks.map (fun ch =>
        Effect.send
          { dest := destination, source := s.identity.address,
            verb := if requestPacketId ≠ 0 then Verb.OK else Verb.NETWORK_CONFIG,
            payload :=
              (if requestPacketId ≠ 0 then
                [Field.verb Verb.NETWORK_CONFIG_REQUEST, Field.u64 requestPacketId]
               else []) ++
              [Field.u64 nwid, Field.u16 ch.chunkLen, Field.bytes ch.data, Field.u8 0,
                Field.u64 configUpdateId, Field.u32 d.length, Field.u32 ch.chunkIndex,
                Field.u8 1, Field.u16 (pc.ZT_C25519_SIGNATURE_LEN % 65536),
                Field.bytes (ip.sign s.identity
                  [Field.u64 nwid, Field.u16 ch.chunkLen, Field.bytes ch.data, Field.u8 0,
                    Field.u64 configUpdateId, Field.u32 d.length,
                    Field.u32 ch.chunkIndex])],
            compressed := true } true) ∧
      (∀ ch ∈ chunks, 1 ≤ ch.chunkLen ∧
        ch.chunkLen ≤ pc.ZT_PROTO_MAX_PACKET_LENGTH - (pc.ZT_PACKET_IDX_PAYLOAD + 256) ∧
        ch.data = (d.drop ch.chunkIndex).take ch.chunkLen) ∧
      (chunks.map (fun ch => ch.chunkLen)).sum = d.length ∧
      (∀ i ch, chunks[i]? = some ch →
        ch.chunkIndex = ((chunks.take i).map (fun ch => ch.chunkLen)).sum) ∧
      (d.length = 0 → chunks = []) ∧
      (7 ≤ pc.ZT_PROTO_MAX_PACKET_LENGTH - (pc.ZT_PACKET_IDX_PAYLOAD + 256) →
        d.length = 2 * (pc.ZT_PROTO_MAX_PACKET_LENGTH - (pc.ZT_PACKET_IDX_PAYLOAD + 256)) + 7 →
        chunks.map (fun ch => ch.chunkLen)
          = [pc.ZT_PROTO_MAX_PACKET_LENGTH - (pc.ZT_PACKET_IDX_PAYLOAD + 256),
             pc.ZT_PROTO_MAX_PACKET_LENGTH - (pc.ZT_PACKET_IDX_PAYLOAD + 256), 7]) := by
  have hMe : maxChunkPayload pc
      = pc.ZT_PROTO_MAX_PACKET_LENGTH - (pc.ZT_PACKET_IDX_PAYLOAD + 256) := by
    unfold maxChunkPayload toUnsignedInt
    omega
  have hId : configUpdateIdOf (prng s.prngState).1
      = (if (prng s.prngState).1 = 0 then 1 else (prng s.prngState).1) := by
    unfold configUpdateIdOf
    by_cases h : (prng s.prngState).1 = 0 <;> simp [h]
  have hId0 : configUpdateIdOf (prng s.prngState).1 ≠ 0 := by
    rw [hId]
    split_ifs with h
    · decide
    · exact h
  have hM1 : 1 ≤ maxChunkPayload pc := by rw [hMe]; omega
  obtain ⟨chunks, c1, c2, c3, c4⟩ :=
    configChunks_spec (maxChunkPayload pc) d d.length hM1 hS d.length 0 (Nat.zero_le _)
      (by omega)
  have hres : ∃ s' : Node,
      s.ncSendConfig ip pc nwid requestPacketId destination (some d) = some s' ∧
      s'.prngState = (prng s.prngState).2 ∧
      s'.effects = s.effects ++ chunks.map (fun ch =>
        Effect.send
          (configChunkPacket ip pc s.identity nwid requestPacketId destination
            (configUpdateIdOf (prng s.prngState).1) d.length ch) true) := by
    simp only [Node.ncSendConfig, hdest, if_false, c1]
    exact ⟨_, rfl, by simp [Node.emitAll], by simp [Node.emitAll]⟩
  obtain ⟨s', r1, r2, r3⟩ := hres
  refine ⟨s', chunks, configUpdateIdOf (prng s.prngState).1, r1, hId, hId0, r2, ?_, ?_,
    by simpa using c3, ?_, ?_, ?_⟩
  · rw [r3]
    congr 1
    apply List.map_congr_left
    intro ch hch
    obtain ⟨h1, h2, h3, h4⟩ := c2 ch hch
    have e1 : ch.chunkLen % 65536 = ch.chunkLen := Nat.mod_eq_of_lt (by omega)
    have e2 : d.length % 4294967296 = d.length := Nat.mod_eq_of_lt hS
    have e3 : ch.chunkIndex % 4294967296 = ch.chunkIndex := Nat.mod_eq_of_lt (by omega)
    simp [configChunkPacket, configChunkSigned, e1, e2, e3]
  · intro ch hch
    obtain ⟨h1, h2, h3, h4⟩ := c2 ch hch
    exact ⟨h1, by rw [← hMe]; exact h2, h4⟩
  · intro i ch hi
    simpa using c4 i ch hi
  · intro h0
    have hsum : (chunks.map (fun ch => ch.chunkLen)).sum = 0 := by simpa [h0] using c3
    cases chunks with
    | nil => rfl
    | cons ch rest =>
      have := (c2 ch (List.mem_cons_self _ _)).1
      simp only [List.map_cons, List.sum_cons] at hsum
      omega
  · rw [← hMe]
    intro h7 hlen
    have h3 := configChunks_three (maxChunkPayload pc) d d.length d.length h7 hlen hS (by omega)
    rw [c1] at h3
    simpa using h3

/-- Witness of `ncSendConfig_chunking`: with the customary constants the largest
chunk is 9740 bytes; a dictionary of 2 x 9740 + 7 bytes sent to address `0x66` goes
out in three packets with chunk lengths (9740, 9740, 7). With packets of at most 293
bytes the largest chunk is 9 bytes, and the dictionary of the 25 bytes 0 to 24 goes
out in the three packets listed, with chunk lengths (9, 9, 7) and the
`configUpdateId` 8388677 that `prng` returns from the state (1, 2). -/
theorem ncSendConfig_chunking_witness :
    (stockProtocol.ZT_PACKET_IDX_PAYLOAD + 256 < stockProtocol.ZT_PROTO_MAX_PACKET_LENGTH ∧
      stockProtocol.ZT_PROTO_MAX_PACKET_LENGTH - (stockProtocol.ZT_PACKET_IDX_PAYLOAD + 256)
        < 65536) ∧
    (0x66 : Nat) ≠ nodeWithIdentity.identity.address ∧
    ∃ (s' : Node) (chunks : List ConfigChunk),
      nodeWithIdentity.ncSendConfig plainPrimitives stockProtocol 1 0 0x66
        (some (List.replicate 19487 65)) = some s' ∧
      chunks.map (fun ch => ch.chunkLen) = [9740, 9740, 7] ∧
      (chunks.map (fun ch => ch.chunkLen)).sum = 19487 ∧
      (∀ ch ∈ chunks, 1 ≤ ch.chunkLen ∧ ch.chunkLen ≤ 9740 ∧
        ch.data = ((List.replicate 19487 65).drop ch.chunkIndex).take ch.chunkLen) ∧
      (nodeWithIdentity.ncSendConfig plainPrimitives smallProtocol 1 0 0x66
          (some (List.range 25))).map (fun t => (sentOf t.effects, t.prngState))
        = some ([
      { dest := 0x66, source := 0x1122334455, verb := Verb.NETWORK_CONFIG,
        payload := [Field.u64 1, Field.u16 9, Field.bytes [0, 1, 2, 3, 4, 5, 6, 7, 8], Field.u8 0,
          Field.u64 8388677, Field.u32 25, Field.u32 0,
          Field.u8 1, Field.u16 96, Field.bytes [5]],
        compressed := true },
      { dest := 0x66, source := 0x1122334455, verb := Verb.NETWORK_CONFIG,
        payload := [Field.u64 1, Field.u16 9, Field.bytes [9, 10, 11, 12, 13, 14, 15, 16, 17], Field.u8 0,
          Field.u64 8388677, Field.u32 25, Field.u32 9,
          Field.u8 1, Field.u16 96, Field.bytes [5]],
        compressed := true },
      { dest := 0x66, source := 0x1122334455, verb := Verb.NETWORK_CONFIG,
        payload := [Field.u64 1, Field.u16 7, Field.bytes [18, 19, 20, 21, 22, 23, 24], Field.u8 0,
          Field.u64 8388677, Field.u32 25, Field.u32 18,
          Field.u8 1, Field.u16 96, Field.bytes [5]],
        compressed := true }], (2, 8388675)) := by
  refine ⟨by decide, by decide, ?_⟩
  obtain ⟨s', chunks, id, h1, _, _, _, _, h6, h7, _, _, h10⟩ :=
    ncSendConfig_chunking plainPrimitives stockProtocol nodeWithIdentity 1 0 0x66
      (List.replicate 19487 65) (by decide) (by rw [List.length_replicate]; decide)
      (by decide)
  refine ⟨s', chunks, h1, h10 (by decide) (by rw [List.length_replicate]; decide), ?_, h6,
    by decide⟩
  rw [h7, List.length_replicate]

/-! ## C16: the peer snapshot -/

/-- The records of `peers` are a rearrangement of the records of the known peers. -/
theorem Node.peers_perm (known : List PeerStatus) :
    (Node.peers (allPeersOf known)).Perm (known.map peerRecord) := by
  unfold Node.peers
  have h := (List.perm_insertionSort (fun (a b : Address × PeerStatus) => a.1 ≤ b.1)
    (allPeersOf known)).map (fun e => peerRecord e.2)
  refine h.trans ?_
  unfold allPeersOf
  rw [List.map_map]
  exact List.Perm.refl _

/-- The records of `peers` are in ascending order of address. -/
theorem Node.peers_sorted (known : List PeerStatus) :
    ((Node.peers (allPeersOf known)).map (fun r => r.address)).Sorted (fun a b => a ≤ b) := by
  unfold Node.peers
  have hs := List.sorted_insertionSort (fun (a b : Address × PeerStatus) => a.1 ≤ b.1)
    (allPeersOf known)
  have hmem : ∀ e ∈ (allPeersOf known).insertionSort (fun a b => a.1 ≤ b.1),
      e.1 = e.2.address := by
    intro e he
    have he2 := (List.perm_insertionSort (fun (a b : Address × PeerStatus) => a.1 ≤ b.1)
      (allPeersOf known)).mem_iff.mp he
    unfold allPeersOf at he2
    rcases List.mem_map.mp he2 with ⟨p, _, rfl⟩
    rfl
  rw [List.map_map]
  unfold List.Sorted at hs ⊢
  rw [List.pairwise_map]
  refine List.Pairwise.imp_of_mem ?_ hs
  intro a b ha hb hab
  show (peerRecord a.2).address ≤ (peerRecord b.2).address
  have e1 := hmem a ha
  have e2 := hmem b hb
  simp only [peerRecord]
  rw [← e1, ← e2]
  exact hab

/-- The number of entries marked preferred in the record of a peer is the number of
its paths that are the path in use. -/
theorem peerRecord_preferred (p : PeerStatus) :
    ((peerRecord p).paths.filter (fun e => decide (e.preferred = 1))).length =
      match p.bestPath with
      | some b => (p.paths.map (fun q => q.handle)).count b.handle
      | none => 0 := by
  simp only [peerRecord]
  rw [List.filter_map, List.length_map]
  cases hb : p.bestPath with
  | none =>
    simp [pathRecord, Function.comp]
  | some b =>
    simp only [Option.map_some']
    rw [List.count, List.countP_eq_length_filter, List.filter_map, List.length_map]
    congr 1
    apply List.filter_congr
    intro q _
    simp only [Function.comp, pathRecord, Option.map_some', Option.some.injEq]
    by_cases h : b.handle = q.handle
    · simp [h]
    · have h2 : ¬ q.handle = b.handle := fun e => h e.symm
      simp [h, h2]

/-- C16: `peers` returns one record per known peer, in ascending order of address;
when every peer keeps at most the maximum number of paths, all of them distinct, and
the path in use is one of them, every record has at most that many paths, and exactly
one of its paths is marked preferred when the peer has a path in use, none
otherwise. -/
theorem peers_snapshot (pc : ProtocolConstants) (known : List PeerStatus)
    (hwf : ∀ p ∈ known, p.wellFormed pc) :
    (Node.peers (allPeersOf known)).Perm (known.map peerRecord) ∧
    (Node.peers (allPeersOf known)).length = known.length ∧
    ((Node.peers (allPeersOf known)).map (fun r => r.address)).Sorted (fun a b => a ≤ b) ∧
    ∀ r ∈ Node.peers (allPeersOf known), ∃ p ∈ known, r = peerRecord p ∧
      r.address = p.address ∧
      r.pathCount = r.paths.length ∧
      r.pathCount ≤ pc.ZT_MAX_PEER_NETWORK_PATHS ∧
      (r.paths.filter (fun e => decide (e.preferred = 1))).length =
        (if p.bestPath.isSome then 1 else 0) ∧
      (∀ e ∈ r.paths, e.preferred = 0 ∨ e.preferred = 1) := by
  refine ⟨Node.peers_perm known, ?_, Node.peers_sorted known, ?_⟩
  · rw [(Node.peers_perm known).length_eq, List.length_map]
  · intro r hr
    have hr2 := (Node.peers_perm known).mem_iff.mp hr
    rcases List.mem_map.mp hr2 with ⟨p, hp, rfl⟩
    obtain ⟨hlen, hnd, hbest⟩ := hwf p hp
    refine ⟨p, hp, rfl, rfl, ?_, ?_, ?_, ?_⟩
    · simp [peerRecord]
    · simpa [peerRecord] using hlen
    · rw [peerRecord_preferred]
      cases hb : p.bestPath with
      | none => simp
      | some b =>
        have hin := hbest b (by rw [hb]; exact rfl)
        simp only [Option.isSome_some, if_true]
        exact List.count_eq_one_of_mem hnd hin
    · intro e he
      simp only [peerRecord] at he
      rcases List.mem_map.mp he with ⟨q, _, rfl⟩
      simp only [pathRecord]
      split_ifs
      · right; rfl
      · left; rfl

/-- C16 at two peers, given out of order: the peer without a path comes first and has
no preferred path, the peer with two paths has its second path marked. -/
theorem peers_snapshot_witness :
    (∀ p ∈ [peerWithTwoPaths, peerWithoutPath], p.wellFormed stockProtocol) ∧
    (Node.peers (allPeersOf [peerWithTwoPaths, peerWithoutPath])).map
      (fun r => (r.address, r.pathCount, r.latency, r.paths.map (fun e => e.preferred)))
      = [(0x10, 0, -1, []), (0x30, 2, 20, [0, 1])] ∧
    (Node.peers (allPeersOf [peerWithTwoPaths, peerWithoutPath])).length = 2 :=
  ⟨by decide, by decide,
   (peers_snapshot stockProtocol [peerWithTwoPaths, peerWithoutPath] (by decide)).2.1⟩

/-! ## C12: the identity round trip -/

/-- Setting one key leaves what is stored under another key. -/
theorem Hashtable.get_set_ne {κ ν : Type} [DecidableEq κ] (t : Hashtable κ ν) (k k' : κ) (v : ν)
    (hne : k ≠ k') : Hashtable.get (Hashtable.set t k v) k' = Hashtable.get t k' := by
  induction t with
  | nil => simp [Hashtable.get, Hashtable.set, hne]
  | cons e rest ih =>
    obtain ⟨k0, v0⟩ := e
    by_cases h : k0 = k
    · subst h
      simp [Hashtable.get, Hashtable.set, hne]
    · simp [Hashtable.get, Hashtable.set, h, ih]

/-- The text of a C string has no NUL in it: taking the text again changes nothing. -/
theorem cString_idem (l : List Nat) : cString (cString l) = cString l := by
  unfold cString
  induction l with
  | nil => rfl
  | cons c rest ih =>
    by_cases h : (c != 0) = true
    · simp only [List.takeWhile_cons, h, if_true]
      rw [ih]
    · simp only [List.takeWhile_cons, h]
      rfl

/-- With no secret object under the ID `{0,0}` the bootstrap generates: the identity
is the generated one, and both forms are put under the ID `{address,0}`. -/
theorem Node.bootstrapIdentity_generates (ip : IdentityPrimitives) (pc : ProtocolConstants)
    (generated : Identity) (uninit : Nat → Nat) (store : StateStore) (s : Node)
    (hempty : Hashtable.get store (ZT_StateObjectType.IDENTITY_SECRET, 0, 0) = none) :
    Node.bootstrapIdentity ip pc generated uninit store s =
      (((Node.withIdentity ip s generated).emit
          (Effect.stateObjectPut ZT_StateObjectType.IDENTITY_SECRET generated.address 0
            (cString (ip.toString true generated)))).emit
          (Effect.stateObjectPut ZT_StateObjectType.IDENTITY_PUBLIC generated.address 0
            (cString (ip.toString false generated))),
       stateObjectPut (stateObjectPut store ZT_StateObjectType.IDENTITY_SECRET
          generated.address 0 (cString (ip.toString true generated)))
          ZT_StateObjectType.IDENTITY_PUBLIC generated.address 0
          (cString (ip.toString false generated))) := by
  have h1 : stateObjectGet store ZT_StateObjectType.IDENTITY_SECRET 0 0 2047 = (-1, []) := by
    unfold stateObjectGet
    rw [hempty]
  have h2 : ¬ ((-1 : Int) > 0) := by decide
  simp only [Node.bootstrapIdentity, h1, h2, if_false]
  rfl

/-- With a secret object under the ID `{0,0}` that has between 1 and 2047 bytes and
parses, the bootstrap takes the identity parsed from it. -/
theorem Node.bootstrapIdentity_loads (ip : IdentityPrimitives) (pc : ProtocolConstants)
    (generated id : Identity) (uninit : Nat → Nat) (store : StateStore) (s : Node)
    (sec : List Nat)
    (hsec : Hashtable.get store (ZT_StateObjectType.IDENTITY_SECRET, 0, 0) = some sec)
    (hlen : 0 < sec.length ∧ sec.length ≤ 2047)
    (hparse : ip.fromString (cString sec) = some id) :
    (Node.bootstrapIdentity ip pc generated uninit store s).1.identity = id := by
  have h1 : stateObjectGet store ZT_StateObjectType.IDENTITY_SECRET 0 0 2047
      = ((sec.length : Int), sec) := by
    unfold stateObjectGet
    rw [hsec]
    simp only [hlen.2, if_true]
  have h2 : ((sec.length : Int) > 0) := by
    have := hlen.1
    omega
  simp only [Node.bootstrapIdentity, h1, h2, if_true, hparse]
  split_ifs <;> simp [Node.withIdentity, Node.emit]

/-- C12 (as amended): when the store holds no secret under the ID `{0,0}`, node A
generates an identity and puts the secret form and the public form, both under the
scope of its address, and posts `UP`; a node B constructed over a store that answers
the query for the secret under the ID `{0,0}` with the secret A stored (and
`fromString` inverts `toString` on it) loads that identity and has the address
of A. -/
theorem identity_round_trip (ip : IdentityPrimitives) (pc : ProtocolConstants)
    (genA genB : Identity) (uninitA uninitB : Nat → Nat) (store0 storeB : StateStore)
    (nowA nowB : Int) (seedA seedB : Nat × Nat)
    (hempty : Hashtable.get store0 (ZT_StateObjectType.IDENTITY_SECRET, 0, 0) = none)
    (hinv : ip.fromString (cString (ip.toString true genA)) = some genA)
    (hlen : 0 < (cString (ip.toString true genA)).length ∧
      (cString (ip.toString true genA)).length ≤ 2047)
    (hserve : Hashtable.get storeB (ZT_StateObjectType.IDENTITY_SECRET, 0, 0) =
      Hashtable.get (Node.construct ip pc 0 true genA uninitA store0 nowA seedA).2
        (ZT_StateObjectType.IDENTITY_SECRET, genA.address, 0)) :
    ∃ a b : Node,
      (Node.construct ip pc 0 true genA uninitA store0 nowA seedA).1 = Except.ok a ∧
      a.identity = genA ∧
      a.effects =
        [Effect.stateObjectPut ZT_StateObjectType.IDENTITY_SECRET genA.address 0
           (cString (ip.toString true genA)),
         Effect.stateObjectPut ZT_StateObjectType.IDENTITY_PUBLIC genA.address 0
           (cString (ip.toString false genA)),
         Effect.postEvent ZT_Event.UP] ∧
      Hashtable.get (Node.construct ip pc 0 true genA uninitA store0 nowA seedA).2
        (ZT_StateObjectType.IDENTITY_SECRET, genA.address, 0)
          = some (cString (ip.toString true genA)) ∧
      Hashtable.get (Node.construct ip pc 0 true genA uninitA store0 nowA seedA).2
        (ZT_StateObjectType.IDENTITY_PUBLIC, genA.address, 0)
          = some (cString (ip.toString false genA)) ∧
      (Node.construct ip pc 0 true genB uninitB storeB nowB seedB).1 = Except.ok b ∧
      b.identity = genA ∧
      b.identity.address = a.identity.address := by
  have hA := Node.bootstrapIdentity_generates ip pc genA uninitA store0 (Node.init nowA seedA)
    hempty
  have hstoreA : (Node.construct ip pc 0 true genA uninitA store0 nowA seedA).2 =
      stateObjectPut (stateObjectPut store0 ZT_StateObjectType.IDENTITY_SECRET
          genA.address 0 (cString (ip.toString true genA)))
          ZT_StateObjectType.IDENTITY_PUBLIC genA.address 0
          (cString (ip.toString false genA)) := by
    simp [Node.construct, hA]
  have hgetS : Hashtable.get (Node.construct ip pc 0 true genA uninitA store0 nowA seedA).2
        (ZT_StateObjectType.IDENTITY_SECRET, genA.address, 0)
          = some (cString (ip.toString true genA)) := by
    rw [hstoreA]
    unfold stateObjectPut
    rw [Hashtable.get_set_ne _ _ _ _ (by simp), Hashtable.get_set_self]
  have hgetP : Hashtable.get (Node.construct ip pc 0 true genA uninitA store0 nowA seedA).2
        (ZT_StateObjectType.IDENTITY_PUBLIC, genA.address, 0)
          = some (cString (ip.toString false genA)) := by
    rw [hstoreA]
    unfold stateObjectPut
    rw [Hashtable.get_set_self]
  have hB := Node.bootstrapIdentity_loads ip pc genB genA uninitB storeB (Node.init nowB seedB)
    (cString (ip.toString true genA)) (by rw [hserve, hgetS]) hlen
    (by rw [cString_idem]; exact hinv)
  have hBid : ((Node.bootstrapIdentity ip pc genB uninitB storeB (Node.init nowB seedB)).1.emit
      (Effect.postEvent ZT_Event.UP)).identity = genA := by
    simpa [Node.emit] using hB
  refine ⟨(Node.bootstrapIdentity ip pc genA uninitA store0 (Node.init nowA seedA)).1.emit
      (Effect.postEvent ZT_Event.UP),
    (Node.bootstrapIdentity ip pc genB uninitB storeB (Node.init nowB seedB)).1.emit
      (Effect.postEvent ZT_Event.UP), ?_, ?_, ?_, hgetS, hgetP, ?_, hBid, ?_⟩
  · simp only [Node.construct]
    simp only [ne_eq, not_true_eq_false, if_false, if_true]
  · rw [hA]
    simp [Node.withIdentity, Node.emit]
  · rw [hA]
    simp [Node.withIdentity, Node.emit, Node.init]
  · simp only [Node.construct]
    simp only [ne_eq, not_true_eq_false, if_false, if_true]
  · rw [hBid, hA]
    simp [Node.withIdentity, Node.emit]

/-- C12 at a concrete input: node A starts over the empty store and persists the
identity with the address 17; node B, started over a store that serves this secret
under the ID `{0,0}`, has the address 17 too and not the address 34 of the identity it
would have generated. -/
theorem identity_round_trip_witness :
    ∃ a b : Node,
      (Node.construct plainPrimitives stockProtocol 0 true identityA staleMemory [] 1000
        (1, 2)).1 = Except.ok a ∧
      a.identity = identityA ∧
      a.effects =
        [Effect.stateObjectPut ZT_StateObjectType.IDENTITY_SECRET identityA.address 0
           (cString (plainPrimitives.toString true identityA)),
         Effect.stateObjectPut ZT_StateObjectType.IDENTITY_PUBLIC identityA.address 0
           (cString (plainPrimitives.toString false identityA)),
         Effect.postEvent ZT_Event.UP] ∧
      Hashtable.get (Node.construct plainPrimitives stockProtocol 0 true identityA staleMemory
        [] 1000 (1, 2)).2 (ZT_StateObjectType.IDENTITY_SECRET, identityA.address, 0)
          = some (cString (plainPrimitives.toString true identityA)) ∧
      Hashtable.get (Node.construct plainPrimitives stockProtocol 0 true identityA staleMemory
        [] 1000 (1, 2)).2 (ZT_StateObjectType.IDENTITY_PUBLIC, identityA.address, 0)
          = some (cString (plainPrimitives.toString false identityA)) ∧
      (Node.construct plainPrimitives stockProtocol 0 true identityB staleMemory
        storeWithOtherPublic 2000 (3, 4)).1 = Except.ok b ∧
      b.identity = identityA ∧
      b.identity.address = a.identity.address :=
  identity_round_trip plainPrimitives stockProtocol identityA identityB staleMemory staleMemory
    [] storeWithOtherPublic 1000 2000 (1, 2) (3, 4) (by decide) (by decide) (by decide)
    (by decide)

/-- C12 as stated fails: node A, started over the empty store, has the address 17 and
leaves its secret under the scope 17, nothing under the scope 0; node B, started
over the store left by A, finds no secret, generates, and has the address 34. -/
theorem identity_round_trip_counterexample :
    (Node.construct plainPrimitives stockProtocol 0 true identityA staleMemory [] 1000
        (1, 2)).2 =
      [((ZT_StateObjectType.IDENTITY_SECRET, 17, 0), [2, 18, 4, 5]),
       ((ZT_StateObjectType.IDENTITY_PUBLIC, 17, 0), [1, 18, 4])] ∧
    Hashtable.get (Node.construct plainPrimitives stockProtocol 0 true identityA staleMemory []
        1000 (1, 2)).2 (ZT_StateObjectType.IDENTITY_SECRET, 0, 0) = none ∧
    plainPrimitives.fromString (plainPrimitives.toString true identityA) = some identityA ∧
    (Node.construct plainPrimitives stockProtocol 0 true identityA staleMemory [] 1000
        (1, 2)).1.toOption.map (fun a => a.identity.address) = some 17 ∧
    (Node.construct plainPrimitives stockProtocol 0 true identityB staleMemory
        (Node.construct plainPrimitives stockProtocol 0 true identityA staleMemory [] 1000
          (1, 2)).2 2000 (3, 4)).1.toOption.map (fun b => b.identity.address) = some 34 := by
  decide

/-! ## C13: repair of the persisted public identity -/

/-- Up to the terminating NUL the buffer holds the string. -/
theorem bufferByte_of_le (str : List Nat) (uninit : Nat → Nat) (i : Nat) (hi : i ≤ str.length) :
    bufferByte str uninit i = (str ++ [0]).getD i 0 := by
  unfold bufferByte
  by_cases h : i < str.length
  · simp only [h, if_true]
    rw [List.getD_append _ _ _ _ h]
  · have hi2 : i = str.length := by omega
    subst hi2
    simp

/-- An object equal to the string does not differ from the buffer. -/
theorem memcmpDiffers_self (str : List Nat) (uninit : Nat → Nat) :
    memcmpDiffers str str uninit = false := by
  unfold memcmpDiffers
  rw [Bool.eq_false_iff]
  intro h
  rcases List.any_eq_true.mp h with ⟨i, hi, hne⟩
  have hi2 : i < str.length := List.mem_range.mp hi
  simp [bufferByte, hi2] at hne

/-- An object that differs from the string with its NUL at one of its positions
differs from the buffer. -/
theorem memcmpDiffers_of_differs (obj str : List Nat) (uninit : Nat → Nat) (i : Nat)
    (hi : i < obj.length) (hi2 : i ≤ str.length)
    (hne : obj.getD i 0 ≠ (str ++ [0]).getD i 0) :
    memcmpDiffers obj str uninit = true := by
  unfold memcmpDiffers
  refine List.any_eq_true.mpr ⟨i, List.mem_range.mpr hi, ?_⟩
  rw [bufferByte_of_le str uninit i hi2]
  simpa using hne

/-- With a secret object under the ID `{0,0}` that has between 1 and 2047 bytes and
parses, the bootstrap is its second branch. -/
theorem Node.bootstrapIdentity_loaded (ip : IdentityPrimitives) (pc : ProtocolConstants)
    (generated id : Identity) (uninit : Nat → Nat) (store : StateStore) (s : Node)
    (sec : List Nat)
    (hsec : Hashtable.get store (ZT_StateObjectType.IDENTITY_SECRET, 0, 0) = some sec)
    (hlen : 0 < sec.length ∧ sec.length ≤ 2047)
    (hparse : ip.fromString (cString sec) = some id) :
    Node.bootstrapIdentity ip pc generated uninit store s =
      if (stateObjectGet store ZT_StateObjectType.IDENTITY_PUBLIC id.address 0 2047).1 > 0 ∧
          (stateObjectGet store ZT_StateObjectType.IDENTITY_PUBLIC id.address 0 2047).1
            < (pc.ZT_IDENTITY_STRING_BUFFER_LENGTH : Int) ∧
          (stateObjectGet store ZT_StateObjectType.IDENTITY_PUBLIC id.address 0 2047).1 < 2048
      then
        if memcmpDiffers (stateObjectGet store ZT_StateObjectType.IDENTITY_PUBLIC id.address 0
            2047).2 (cString (ip.toString false id)) uninit then
          ((Node.withIdentity ip s id).emit (Effect.stateObjectPut
              ZT_StateObjectType.IDENTITY_PUBLIC id.address 0 (cString (ip.toString false id))),
           stateObjectPut store ZT_StateObjectType.IDENTITY_PUBLIC id.address 0
              (cString (ip.toString false id)))
        else (Node.withIdentity ip s id, store)
      else (Node.withIdentity ip s id, store) := by
  have h1 : stateObjectGet store ZT_StateObjectType.IDENTITY_SECRET 0 0 2047
      = ((sec.length : Int), sec) := by
    unfold stateObjectGet
    rw [hsec]
    simp only [hlen.2, if_true]
  have h2 : ((sec.length : Int) > 0) := by
    have := hlen.1
    omega
  simp only [Node.bootstrapIdentity, h1, h2, if_true, hparse]
  rfl

/-- C13 (as amended): when the persisted secret identity loads and a public object
is stored under the scope of its address, the constructor succeeds with the loaded
identity, and (1) an object of n bytes, n above 0, below the size of the public
string buffer and at most 2047, that differs from the derived public string (taken
with its terminating NUL) at one of its n positions, is overwritten with the derived
string by one put, before the event `UP`; (2) an object equal to the derived string
causes no put; (3) an empty object, and an object of at least as many bytes as the
buffer has, cause no put either. -/
theorem public_identity_repair (ip : IdentityPrimitives) (pc : ProtocolConstants)
    (generated id : Identity) (uninit : Nat → Nat) (store : StateStore) (now : Int)
    (seed : Nat × Nat) (sec obj : List Nat)
    (hsec : Hashtable.get store (ZT_StateObjectType.IDENTITY_SECRET, 0, 0) = some sec)
    (hlen : 0 < sec.length ∧ sec.length ≤ 2047)
    (hparse : ip.fromString (cString sec) = some id)
    (hobj : Hashtable.get store (ZT_StateObjectType.IDENTITY_PUBLIC, id.address, 0) = some obj) :
    ∃ b : Node,
      (Node.construct ip pc 0 true generated uninit store now seed).1 = Except.ok b ∧
      b.identity = id ∧
      ((0 < obj.length ∧ obj.length < pc.ZT_IDENTITY_STRING_BUFFER_LENGTH ∧ obj.length ≤ 2047 ∧
          (∃ i, i < obj.length ∧ i ≤ (cString (ip.toString false id)).length ∧
            obj.getD i 0 ≠ (cString (ip.toString false id) ++ [0]).getD i 0)) →
        b.effects = [Effect.stateObjectPut ZT_StateObjectType.IDENTITY_PUBLIC id.address 0
                       (cString (ip.toString false id)),
                     Effect.postEvent ZT_Event.UP] ∧
        (Node.construct ip pc 0 true generated uninit store now seed).2 =
          stateObjectPut store ZT_StateObjectType.IDENTITY_PUBLIC id.address 0
            (cString (ip.toString false id))) ∧
      (obj = cString (ip.toString false id) →
        b.effects = [Effect.postEvent ZT_Event.UP] ∧
        (Node.construct ip pc 0 true generated uninit store now seed).2 = store) ∧
      ((obj.length = 0 ∨ pc.ZT_IDENTITY_STRING_BUFFER_LENGTH ≤ obj.length) →
        b.effects = [Effect.postEvent ZT_Event.UP] ∧
        (Node.construct ip pc 0 true generated uninit store now seed).2 = store) := by
  have hB := Node.bootstrapIdentity_loaded ip pc generated id uninit store (Node.init now seed)
    sec hsec hlen hparse
  have hC : Node.construct ip pc 0 true generated uninit store now seed =
      (Except.ok ((Node.bootstrapIdentity ip pc generated uninit store (Node.init now seed)).1.emit
        (Effect.postEvent ZT_Event.UP)),
       (Node.bootstrapIdentity ip pc generated uninit store (Node.init now seed)).2) := by
    simp only [Node.construct]
    simp only [ne_eq, not_true_eq_false, if_false, if_true]
  have hid := Node.bootstrapIdentity_loads ip pc generated id uninit store (Node.init now seed)
    sec hsec hlen hparse
  have hget : stateObjectGet store ZT_StateObjectType.IDENTITY_PUBLIC id.address 0 2047 =
      if obj.length ≤ 2047 then ((obj.length : Int), obj) else (-1, []) := by
    unfold stateObjectGet
    rw [hobj]
  refine ⟨(Node.bootstrapIdentity ip pc generated uninit store (Node.init now seed)).1.emit
      (Effect.postEvent ZT_Event.UP), by rw [hC], by simpa [Node.emit] using hid, ?_, ?_, ?_⟩
  · rintro ⟨h0, hS, h2047, i, hi, hi2, hne⟩
    have hg : stateObjectGet store ZT_StateObjectType.IDENTITY_PUBLIC id.address 0 2047 =
        ((obj.length : Int), obj) := by rw [hget]; simp only [h2047, if_true]
    have hguard : ((obj.length : Int) > 0 ∧
        (obj.length : Int) < (pc.ZT_IDENTITY_STRING_BUFFER_LENGTH : Int) ∧
        (obj.length : Int) < 2048) := by
      refine ⟨by omega, by omega, by omega⟩
    have hm := memcmpDiffers_of_differs obj (cString (ip.toString false id)) uninit i hi hi2 hne
    rw [hC, hB, hg]
    simp only [hguard, and_self, if_true, hm]
    simp [Node.withIdentity, Node.emit, Node.init]
  · intro he
    rw [hC, hB, hget, he]
    have hm := memcmpDiffers_self (cString (ip.toString false id)) uninit
    by_cases h2047 : (cString (ip.toString false id)).length ≤ 2047
    · simp only [h2047, if_true, hm, Bool.false_eq_true, if_false, ite_self]
      simp [Node.withIdentity, Node.emit, Node.init]
    · have hneg : ¬ ((-1 : Int) > 0) := by decide
      simp only [h2047, if_false, hneg, false_and]
      simp [Node.withIdentity, Node.emit, Node.init]
  · intro hcase
    have hguard : ¬ ((stateObjectGet store ZT_StateObjectType.IDENTITY_PUBLIC id.address 0
          2047).1 > 0 ∧
        (stateObjectGet store ZT_StateObjectType.IDENTITY_PUBLIC id.address 0 2047).1
          < (pc.ZT_IDENTITY_STRING_BUFFER_LENGTH : Int) ∧
        (stateObjectGet store ZT_StateObjectType.IDENTITY_PUBLIC id.address 0 2047).1
          < 2048) := by
      rw [hget]
      by_cases h2047 : obj.length ≤ 2047
      · simp only [h2047, if_true]
        rcases hcase with h | h
        · intro hh; omega
        · intro hh; omega
      · simp only [h2047, if_false]
        intro hh
        omega
    rw [hC, hB]
    simp only [hguard, if_false]
    simp [Node.withIdentity, Node.emit, Node.init]

/-- C13 at a concrete input: the store holds the public string of another key under
the address 17 of the loaded identity; it is overwritten with the derived string. -/
theorem public_identity_repair_witness :
    ∃ b : Node,
      (Node.construct plainPrimitives stockProtocol 0 true identityB staleMemory
        storeWithOtherPublic 1000 (1, 2)).1 = Except.ok b ∧
      b.identity = identityA ∧
      b.effects = [Effect.stateObjectPut ZT_StateObjectType.IDENTITY_PUBLIC 17 0 [1, 18, 4],
                   Effect.postEvent ZT_Event.UP] ∧
      (Node.construct plainPrimitives stockProtocol 0 true identityB staleMemory
        storeWithOtherPublic 1000 (1, 2)).2 =
        [((ZT_StateObjectType.IDENTITY_SECRET, 0, 0), [2, 18, 4, 5]),
         ((ZT_StateObjectType.IDENTITY_PUBLIC, 17, 0), [1, 18, 4])] := by
  obtain ⟨b, h1, h2, h3, _, _⟩ := public_identity_repair plainPrimitives stockProtocol identityB
    identityA staleMemory storeWithOtherPublic 1000 (1, 2) [2, 18, 4, 5] [1, 18, 9]
    (by decide) (by decide) (by decide) (by decide)
  have h4 := h3 ⟨by decide, by decide, by decide, 2, by decide, by decide, by decide⟩
  exact ⟨b, h1, h2, h4.1, h4.2⟩

set_option maxRecDepth 100000 in
/-- C13 as stated fails: the secret loads (the identity with the address 17), a
public object of 384 bytes, which is not the derived public string, is stored under
the address 17, and the constructor makes no put: the only effect is the event `UP`
and the store is as it was. -/
theorem public_identity_repair_counterexample :
    Hashtable.get storeWithLongPublic (ZT_StateObjectType.IDENTITY_PUBLIC, 17, 0)
      = some (List.replicate 384 7) ∧
    List.replicate 384 7 ≠ cString (plainPrimitives.toString false identityA) ∧
    (Node.construct plainPrimitives stockProtocol 0 true identityB staleMemory
      storeWithLongPublic 1000 (1, 2)).1.toOption.map (fun b => (b.identity, b.effects))
      = some (identityA, [Effect.postEvent ZT_Event.UP]) ∧
    (Node.construct plainPrimitives stockProtocol 0 true identityB staleMemory
      storeWithLongPublic 1000 (1, 2)).2 = storeWithLongPublic := by
  decide

end ZeroTier
